import Mathlib

/-!
# Universal Laptop Armoury driver (`asus-armoury.c`): shallow embedding

The driver is modelled function by function.  C strings are Lean strings (one
character per byte, no embedded NUL), pointers that may be `NULL` are `Option`s,
`int`/`ssize_t` values are `Int`, `u32` values are `Nat` reduced modulo `2^32`.

The platform firmware reached through `acpi_evaluate_object` is an oracle that
answers a call given the list of calls issued before it, so that firmware with
internal state (a set-method changing what the get-method reports) is covered.
The list of calls issued so far is threaded through every driver function and is
the observable trace of firmware accesses.
-/

namespace AsusArmoury

/-! ## Kernel constants -/

/-- Linux errno for an input/output error, `EIO` in the kernel headers. -/
def EIO : Int := 5
/-- Linux errno `ENOMEM`. -/
def ENOMEM : Int := 12
/-- Linux errno `ENODEV`. -/
def ENODEV : Int := 19
/-- Linux errno `EINVAL`. -/
def EINVAL : Int := 22
/-- Linux errno `ERANGE`. -/
def ERANGE : Int := 34
/-- Linux errno `ENODATA`. -/
def ENODATA : Int := 61
/-- Linux errno `EPROTO`. -/
def EPROTO : Int := 71

/-- ACPICA status code `AE_OK`; `ACPI_SUCCESS(s)` is `s == AE_OK`. -/
def AE_OK : Nat := 0
/-- ACPICA object type tag `ACPI_TYPE_INTEGER`. -/
def ACPI_TYPE_INTEGER : Nat := 1
/-- Size of the sysfs output page handed to the `show` callbacks. -/
def PAGE_SIZE : Nat := 4096

/-! ## ACPI method names (the `#define`s at the top of the source) -/

def ASUS_ACPI_GET_GPU_MUX_STATE : String := "MXDS"
def ASUS_ACPI_SET_GPU_MUX_STATE : String := "MXDM"
def ASUS_ACPI_GET_DGPU_DISABLE : String := "DGPU"
def ASUS_ACPI_SET_DGPU_DISABLE : String := "SDGP"
def ASUS_ACPI_GET_EGPU_ENABLE : String := "EGPU"
def ASUS_ACPI_SET_EGPU_ENABLE : String := "SEGP"

def MSI_ACPI_GET_GPU_MUX_STATE : String := "GMUX"
def MSI_ACPI_SET_GPU_MUX_STATE : String := "SMUX"
def MSI_ACPI_GET_DGPU_DISABLE : String := "GDIS"
def MSI_ACPI_SET_DGPU_DISABLE : String := "SDIS"

def DELL_ACPI_GET_GPU_MUX_STATE : String := "GFXS"
def DELL_ACPI_SET_GPU_MUX_STATE : String := "SFXS"
def DELL_ACPI_GET_DGPU_DISABLE : String := "GDDS"
def DELL_ACPI_SET_DGPU_DISABLE : String := "SDDS"

def LENOVO_ACPI_GET_GPU_MUX_STATE : String := "LGPU"
def LENOVO_ACPI_SET_GPU_MUX_STATE : String := "SLGP"
def LENOVO_ACPI_GET_DGPU_DISABLE : String := "LDGP"
def LENOVO_ACPI_SET_DGPU_DISABLE : String := "SLDG"

def GENERIC_ACPI_GET_GPU_STATE : String := "_GPU"
def GENERIC_ACPI_SET_GPU_STATE : String := "SGPU"
def GENERIC_ACPI_GET_MUX_STATE : String := "GMUX"
def GENERIC_ACPI_SET_MUX_STATE : String := "SMUX"

/-! ## Data model -/

/-- The `enum laptop_vendor` of the source. -/
inductive laptop_vendor where
  | VENDOR_UNKNOWN
  | VENDOR_ASUS
  | VENDOR_MSI
  | VENDOR_DELL_ALIENWARE
  | VENDOR_LENOVO
  | VENDOR_HP
  | VENDOR_ACER
  | VENDOR_GENERIC
deriving DecidableEq, Repr

open laptop_vendor

/-- The part of `struct acpi_device` the driver uses: the ACPI handle. -/
structure acpi_device where
  handle : Nat
deriving DecidableEq, Repr

/-- The `struct universal_armoury` of the source.  The `platform_dev`,
`hwmon_dev` and `input_dev` pointers are never touched by the driver and are
left out. -/
structure universal_armoury where
  acpi_dev : Option acpi_device
  vendor : laptop_vendor
  vendor_name : String
  product_name : String
  gpu_mux_supported : Bool
  dgpu_disable_supported : Bool
  egpu_supported : Bool
  power_profile_supported : Bool
  fan_control_supported : Bool
  gpu_mux_state : Int
  dgpu_disable_state : Int
  egpu_state : Int
  power_profile_state : Int
  get_gpu_mux_method : Option String
  set_gpu_mux_method : Option String
  get_dgpu_disable_method : Option String
  set_dgpu_disable_method : Option String
  get_egpu_enable_method : Option String
  set_egpu_enable_method : Option String
deriving DecidableEq, Repr

/-- The zero-filled structure returned by `devm_kzalloc`. -/
def kzalloc_armoury : universal_armoury :=
  { acpi_dev := none
    vendor := VENDOR_UNKNOWN
    vendor_name := ""
    product_name := ""
    gpu_mux_supported := false
    dgpu_disable_supported := false
    egpu_supported := false
    power_profile_supported := false
    fan_control_supported := false
    gpu_mux_state := 0
    dgpu_disable_state := 0
    egpu_state := 0
    power_profile_state := 0
    get_gpu_mux_method := none
    set_gpu_mux_method := none
    get_dgpu_disable_method := none
    set_dgpu_disable_method := none
    get_egpu_enable_method := none
    set_egpu_enable_method := none }

/-! ## Firmware -/

/-- One `acpi_evaluate_object` call: handle, method name, integer argument. -/
structure AcpiCall where
  handle : Nat
  method : String
  arg : Nat
deriving DecidableEq, Repr

/-- The fields of `union acpi_object` the driver looks at: the type tag and
the 64-bit `integer.value`. -/
structure acpi_object where
  type : Nat
  value : Nat
deriving DecidableEq, Repr

/-- What `acpi_evaluate_object` hands back: the status and `output.pointer`. -/
structure AcpiReply where
  status : Nat
  pointer : Option acpi_object
deriving DecidableEq, Repr

/-- The platform firmware: the answer to a call, given the calls made so far. -/
abbrev Firmware := List AcpiCall → AcpiCall → AcpiReply

/-- The system identification strings served by `dmi_get_system_info`. -/
structure Dmi where
  sys_vendor : Option String
  product_name : Option String
deriving DecidableEq, Repr

/-! ## C library helpers -/

/-- Does the character list begin with the given needle? -/
def starts_with : List Char → List Char → Bool
  | _, [] => true
  | [], _ :: _ => false
  | h :: hs, n :: ns => h == n && starts_with hs ns

/-- Scan for the needle at every position of the haystack. -/
def strstr_from : List Char → List Char → Bool
  | [], needle => starts_with [] needle
  | h :: hs, needle => starts_with (h :: hs) needle || strstr_from hs needle

/-- C `strstr`, reduced to whether it returns a non-NULL pointer. -/
def strstr (haystack needle : String) : Bool :=
  strstr_from haystack.toList needle.toList

/-- Kernel `strscpy(dst, src, size)`: `dst` receives at most `size - 1`
characters of `src`. -/
def strscpy (src : String) (size : Nat) : String :=
  String.mk (src.toList.take (size - 1))

/-- Conversion of a `u32` to `int` (two's complement, as the kernel is built). -/
def u32_to_int (r : Nat) : Int :=
  if r % 2 ^ 32 < 2 ^ 31 then ((r % 2 ^ 32 : Nat) : Int) else ((r % 2 ^ 32 : Nat) : Int) - 2 ^ 32

/-- Conversion of a `size_t` to `ssize_t` (64-bit two's complement): what a
`store` callback hands back when it returns its `size_t count`. -/
def size_to_ssize (n : Nat) : Int :=
  if n % 2 ^ 64 < 2 ^ 63 then ((n % 2 ^ 64 : Nat) : Int) else ((n % 2 ^ 64 : Nat) : Int) - 2 ^ 64

/-- Output of the `%d` conversion. -/
def fmt_d (x : Int) : String :=
  if x < 0 then "-" ++ Nat.repr x.natAbs else Nat.repr x.toNat

/-- Kernel `scnprintf(buf, size, ...)` applied to the fully formatted text:
the text is cut to `size - 1` characters. -/
def scnprintf (size : Nat) (text : String) : String :=
  String.mk (text.toList.take (size - 1))

/-! ## `kstrtoint` (kernel `lib/kstrtox.c`) -/

/-- Largest `unsigned long long`. -/
def ULLONG_MAX : Nat := 2 ^ 64 - 1

/-- Value of a digit character as `_parse_integer` computes it: `'0'..'9'`,
then `'a'..'f'` after lower-casing with `c | 0x20`. -/
def digit_val (c : Char) : Option Nat :=
  let lc := c.toNat ||| 0x20
  if '0'.toNat ≤ c.toNat ∧ c.toNat ≤ '9'.toNat then some (c.toNat - '0'.toNat)
  else if 'a'.toNat ≤ lc ∧ lc ≤ 'f'.toNat then some (lc - 'a'.toNat + 10)
  else none

/-- Kernel `_parse_integer`: consumes leading digits of the base, accumulating
modulo `2^64` and recording overflow.  Returns the accumulated value, the
overflow flag, the number of characters consumed and the unread rest. -/
def parse_integer (base : Nat) : List Char → Nat → Bool → Nat → Nat × Bool × Nat × List Char
  | [], res, ov, rv => (res, ov, rv, [])
  | c :: s, res, ov, rv =>
    match digit_val c with
    | none => (res, ov, rv, c :: s)
    | some val =>
      if val ≥ base then (res, ov, rv, c :: s)
      else
        parse_integer base s ((res * base + val) % 2 ^ 64)
          (ov || (decide (res ≥ 2 ^ 60) && decide (res > (ULLONG_MAX - val) / base)))
          (rv + 1)

/-- Kernel `_kstrtoull` (no radix prefix is stripped for base 10): digits, an
optional single trailing newline, then the end of the string. -/
def kstrtoull_digits (s : List Char) (base : Nat) : Except Int Nat :=
  match parse_integer base s 0 false 0 with
  | (res, ov, rv, rest) =>
    if ov then Except.error (-ERANGE)
    else if rv = 0 then Except.error (-EINVAL)
    else
      let rest := match rest with
        | '\n' :: r => r
        | r => r
      if rest ≠ [] then Except.error (-EINVAL) else Except.ok res

/-- Kernel `kstrtoull`: one leading `+` is skipped. -/
def kstrtoull (s : List Char) (base : Nat) : Except Int Nat :=
  match s with
  | '+' :: r => kstrtoull_digits r base
  | _ => kstrtoull_digits s base

/-- Kernel `kstrtoll`: a leading `-` negates, the result must fit `long long`. -/
def kstrtoll (s : List Char) (base : Nat) : Except Int Int :=
  match s with
  | '-' :: r =>
    match kstrtoull_digits r base with
    | Except.error e => Except.error e
    | Except.ok tmp => if tmp > 2 ^ 63 then Except.error (-ERANGE) else Except.ok (-(tmp : Int))
  | _ =>
    match kstrtoull s base with
    | Except.error e => Except.error e
    | Except.ok tmp => if tmp ≥ 2 ^ 63 then Except.error (-ERANGE) else Except.ok (tmp : Int)

/-- Kernel `kstrtoint`: `kstrtoll` followed by the range check for `int`.
The result is the error code, or the parsed value. -/
def kstrtoint (s : String) (base : Nat) : Except Int Int :=
  match kstrtoll s.toList base with
  | Except.error e => Except.error e
  | Except.ok tmp =>
    if tmp < -(2 ^ 31) ∨ tmp ≥ 2 ^ 31 then Except.error (-ERANGE) else Except.ok tmp

/-! ## Vendor detection -/

/-- The `if (vendor) { ... }` chain of `detect_laptop_vendor`: the vendor the
chain returns, or `none` when control falls through to the product check. -/
def detect_by_vendor (vendor : String) : Option laptop_vendor :=
  if strstr vendor "ASUS" || strstr vendor "ASUSTeK" then some VENDOR_ASUS
  else if strstr vendor "MSI" || strstr vendor "Micro-Star" then some VENDOR_MSI
  else if strstr vendor "Dell" || strstr vendor "Alienware" then some VENDOR_DELL_ALIENWARE
  else if strstr vendor "LENOVO" || strstr vendor "Lenovo" then some VENDOR_LENOVO
  else if strstr vendor "HP" || strstr vendor "Hewlett-Packard" then some VENDOR_HP
  else if strstr vendor "Acer" then some VENDOR_ACER
  else none

/-- The condition of the product check of `detect_laptop_vendor`. -/
def detect_by_product (product : String) : Bool :=
  strstr product "ROG" || strstr product "TUF" ||
  strstr product "Legion" || strstr product "Gaming" ||
  strstr product "Predator" || strstr product "Nitro"

/-- Source function `detect_laptop_vendor`: returns the vendor and the device
structure with the identification strings copied in. -/
def detect_laptop_vendor (dmi : Dmi) (dev : universal_armoury) :
    laptop_vendor × universal_armoury :=
  let vendor := dmi.sys_vendor
  let product := dmi.product_name
  let dev1 := match vendor with
    | some v => { dev with vendor_name := strscpy v 32 }
    | none => dev
  let dev2 := match product with
    | some p => { dev1 with product_name := strscpy p 64 }
    | none => dev1
  match vendor.bind detect_by_vendor with
  | some found => (found, dev2)
  | none =>
    match product with
    | some p => if detect_by_product p then (VENDOR_GENERIC, dev2) else (VENDOR_UNKNOWN, dev2)
    | none => (VENDOR_UNKNOWN, dev2)

/-- Source function `set_vendor_acpi_methods`. -/
def set_vendor_acpi_methods (dev : universal_armoury) : universal_armoury :=
  match dev.vendor with
  | VENDOR_ASUS =>
    { dev with
      get_gpu_mux_method := some ASUS_ACPI_GET_GPU_MUX_STATE
      set_gpu_mux_method := some ASUS_ACPI_SET_GPU_MUX_STATE
      get_dgpu_disable_method := some ASUS_ACPI_GET_DGPU_DISABLE
      set_dgpu_disable_method := some ASUS_ACPI_SET_DGPU_DISABLE
      get_egpu_enable_method := some ASUS_ACPI_GET_EGPU_ENABLE
      set_egpu_enable_method := some ASUS_ACPI_SET_EGPU_ENABLE }
  | VENDOR_MSI =>
    { dev with
      get_gpu_mux_method := some MSI_ACPI_GET_GPU_MUX_STATE
      set_gpu_mux_method := some MSI_ACPI_SET_GPU_MUX_STATE
      get_dgpu_disable_method := some MSI_ACPI_GET_DGPU_DISABLE
      set_dgpu_disable_method := some MSI_ACPI_SET_DGPU_DISABLE
      get_egpu_enable_method := none
      set_egpu_enable_method := none }
  | VENDOR_DELL_ALIENWARE =>
    { dev with
      get_gpu_mux_method := some DELL_ACPI_GET_GPU_MUX_STATE
      set_gpu_mux_method := some DELL_ACPI_SET_GPU_MUX_STATE
      get_dgpu_disable_method := some DELL_ACPI_GET_DGPU_DISABLE
      set_dgpu_disable_method := some DELL_ACPI_SET_DGPU_DISABLE
      get_egpu_enable_method := none
      set_egpu_enable_method := none }
  | VENDOR_LENOVO =>
    { dev with
      get_gpu_mux_method := some LENOVO_ACPI_GET_GPU_MUX_STATE
      set_gpu_mux_method := some LENOVO_ACPI_SET_GPU_MUX_STATE
      get_dgpu_disable_method := some LENOVO_ACPI_GET_DGPU_DISABLE
      set_dgpu_disable_method := some LENOVO_ACPI_SET_DGPU_DISABLE
      get_egpu_enable_method := none
      set_egpu_enable_method := none }
  | _ =>
    { dev with
      get_gpu_mux_method := some GENERIC_ACPI_GET_MUX_STATE
      set_gpu_mux_method := some GENERIC_ACPI_SET_MUX_STATE
      get_dgpu_disable_method := some GENERIC_ACPI_GET_GPU_STATE
      set_dgpu_disable_method := some GENERIC_ACPI_SET_GPU_STATE
      get_egpu_enable_method := none
      set_egpu_enable_method := none }

/-! ## The ACPI gateway -/

/-- Outcome of `universal_armoury_acpi_evaluate_method`: the return value, the
`u32` stored through the `result` pointer (if a store happened) and the
firmware calls issued so far. -/
structure EvalResult where
  ret : Int
  result : Option Nat
  hist : List AcpiCall
deriving DecidableEq, Repr

/-- Source function `universal_armoury_acpi_evaluate_method`.  `has_result`
says whether the `result` pointer is non-NULL. -/
def universal_armoury_acpi_evaluate_method (fw : Firmware) (hist : List AcpiCall)
    (adev : Option acpi_device) (method_name : Option String) (arg : Nat)
    (has_result : Bool) : EvalResult :=
  match adev, method_name with
  | some dev, some name =>
    let call : AcpiCall := { handle := dev.handle, method := name, arg := arg }
    let reply := fw hist call
    let hist1 := hist ++ [call]
    if reply.status = AE_OK then
      match reply.pointer with
      | some out_obj =>
        if out_obj.type = ACPI_TYPE_INTEGER ∧ has_result = true then
          { ret := 0, result := some (out_obj.value % 2 ^ 32), hist := hist1 }
        else if out_obj.type ≠ ACPI_TYPE_INTEGER then
          { ret := -EPROTO, result := none, hist := hist1 }
        else
          { ret := 0, result := none, hist := hist1 }
      | none => { ret := -ENODATA, result := none, hist := hist1 }
    else
      { ret := - EIO, result := none, hist := hist1 }
  | _, _ => { ret := -EINVAL, result := none, hist := hist }

/-! ## The sysfs attribute callbacks -/

/-- Outcome of a sysfs callback: the `ssize_t` return value, the text placed in
the output page (empty for a store or a failed show), the driver data after the
call and the firmware calls issued so far. -/
structure SysfsResult where
  ret : Int
  page : String
  armoury : Option universal_armoury
  hist : List AcpiCall
deriving DecidableEq, Repr

/-- Source function `gpu_mux_show`. -/
def gpu_mux_show (fw : Firmware) (hist : List AcpiCall)
    (driver_data : Option universal_armoury) : SysfsResult :=
  match driver_data with
  | none => { ret := -ENODEV, page := "", armoury := none, hist := hist }
  | some armoury =>
    if armoury.gpu_mux_supported = false ∨ armoury.get_gpu_mux_method = none then
      { ret := -ENODEV, page := "", armoury := some armoury, hist := hist }
    else
      let r := universal_armoury_acpi_evaluate_method fw hist armoury.acpi_dev
        armoury.get_gpu_mux_method 0 true
      if r.ret ≠ 0 then
        { ret := r.ret, page := "", armoury := some armoury, hist := r.hist }
      else
        let result := r.result.getD 0
        let text := scnprintf PAGE_SIZE (fmt_d (u32_to_int result) ++ "\n")
        { ret := (text.length : Int), page := text,
          armoury := some { armoury with gpu_mux_state := u32_to_int result },
          hist := r.hist }

/-- Source function `gpu_mux_store`.  `count` is the `size_t` length of the write; the
success return is `count` converted to `ssize_t`. -/
def gpu_mux_store (fw : Firmware) (hist : List AcpiCall)
    (driver_data : Option universal_armoury) (buf : Option String) (count : Nat) :
    SysfsResult :=
  match driver_data with
  | none => { ret := -ENODEV, page := "", armoury := none, hist := hist }
  | some armoury =>
    if armoury.gpu_mux_supported = false ∨ armoury.set_gpu_mux_method = none then
      { ret := -ENODEV, page := "", armoury := some armoury, hist := hist }
    else
      match buf with
      | none => { ret := -EINVAL, page := "", armoury := some armoury, hist := hist }
      | some text =>
        if count = 0 then
          { ret := -EINVAL, page := "", armoury := some armoury, hist := hist }
        else
          match kstrtoint text 10 with
          | Except.error ret =>
            { ret := ret, page := "", armoury := some armoury, hist := hist }
          | Except.ok value =>
            if value < 0 ∨ value > 1 then
              { ret := -EINVAL, page := "", armoury := some armoury, hist := hist }
            else
              let r := universal_armoury_acpi_evaluate_method fw hist armoury.acpi_dev
                armoury.set_gpu_mux_method value.toNat false
              if r.ret ≠ 0 then
                { ret := r.ret, page := "", armoury := some armoury, hist := r.hist }
              else
                { ret := size_to_ssize count, page := "",
                  armoury := some { armoury with gpu_mux_state := value },
                  hist := r.hist }

/-- Source function `dgpu_disable_show`. -/
def dgpu_disable_show (fw : Firmware) (hist : List AcpiCall)
    (driver_data : Option universal_armoury) : SysfsResult :=
  match driver_data with
  | none => { ret := -ENODEV, page := "", armoury := none, hist := hist }
  | some armoury =>
    if armoury.dgpu_disable_supported = false ∨ armoury.get_dgpu_disable_method = none then
      { ret := -ENODEV, page := "", armoury := some armoury, hist := hist }
    else
      let r := universal_armoury_acpi_evaluate_method fw hist armoury.acpi_dev
        armoury.get_dgpu_disable_method 0 true
      if r.ret ≠ 0 then
        { ret := r.ret, page := "", armoury := some armoury, hist := r.hist }
      else
        let result := r.result.getD 0
        let text := scnprintf PAGE_SIZE (fmt_d (u32_to_int result) ++ "\n")
        { ret := (text.length : Int), page := text,
          armoury := some { armoury with dgpu_disable_state := u32_to_int result },
          hist := r.hist }

/-- Source function `dgpu_disable_store`.  `count` is the `size_t` length of the write; the
success return is `count` converted to `ssize_t`. -/
def dgpu_disable_store (fw : Firmware) (hist : List AcpiCall)
    (driver_data : Option universal_armoury) (buf : Option String) (count : Nat) :
    SysfsResult :=
  match driver_data with
  | none => { ret := -ENODEV, page := "", armoury := none, hist := hist }
  | some armoury =>
    if armoury.dgpu_disable_supported = false ∨ armoury.set_dgpu_disable_method = none then
      { ret := -ENODEV, page := "", armoury := some armoury, hist := hist }
    else
      match buf with
      | none => { ret := -EINVAL, page := "", armoury := some armoury, hist := hist }
      | some text =>
        if count = 0 then
          { ret := -EINVAL, page := "", armoury := some armoury, hist := hist }
        else
          match kstrtoint text 10 with
          | Except.error ret =>
            { ret := ret, page := "", armoury := some armoury, hist := hist }
          | Except.ok value =>
            if value < 0 ∨ value > 1 then
              { ret := -EINVAL, page := "", armoury := some armoury, hist := hist }
            else
              let r := universal_armoury_acpi_evaluate_method fw hist armoury.acpi_dev
                armoury.set_dgpu_disable_method value.toNat false
              if r.ret ≠ 0 then
                { ret := r.ret, page := "", armoury := some armoury, hist := r.hist }
              else
                { ret := size_to_ssize count, page := "",
                  armoury := some { armoury with dgpu_disable_state := value },
                  hist := r.hist }

/-- Source function `egpu_enable_show`. -/
def egpu_enable_show (fw : Firmware) (hist : List AcpiCall)
    (driver_data : Option universal_armoury) : SysfsResult :=
  match driver_data with
  | none => { ret := -ENODEV, page := "", armoury := none, hist := hist }
  | some armoury =>
    if armoury.egpu_supported = false ∨ armoury.get_egpu_enable_method = none then
      { ret := -ENODEV, page := "", armoury := some armoury, hist := hist }
    else
      let r := universal_armoury_acpi_evaluate_method fw hist armoury.acpi_dev
        armoury.get_egpu_enable_method 0 true
      if r.ret ≠ 0 then
        { ret := r.ret, page := "", armoury := some armoury, hist := r.hist }
      else
        let result := r.result.getD 0
        let text := scnprintf PAGE_SIZE (fmt_d (u32_to_int result) ++ "\n")
        { ret := (text.length : Int), page := text,
          armoury := some { armoury with egpu_state := u32_to_int result },
          hist := r.hist }

/-- Source function `egpu_enable_store`.  `count` is the `size_t` length of the write; the
success return is `count` converted to `ssize_t`. -/
def egpu_enable_store (fw : Firmware) (hist : List AcpiCall)
    (driver_data : Option universal_armoury) (buf : Option String) (count : Nat) :
    SysfsResult :=
  match driver_data with
  | none => { ret := -ENODEV, page := "", armoury := none, hist := hist }
  | some armoury =>
    if armoury.egpu_supported = false ∨ armoury.set_egpu_enable_method = none then
      { ret := -ENODEV, page := "", armoury := some armoury, hist := hist }
    else
      match buf with
      | none => { ret := -EINVAL, page := "", armoury := some armoury, hist := hist }
      | some text =>
        if count = 0 then
          { ret := -EINVAL, page := "", armoury := some armoury, hist := hist }
        else
          match kstrtoint text 10 with
          | Except.error ret =>
            { ret := ret, page := "", armoury := some armoury, hist := hist }
          | Except.ok value =>
            if value < 0 ∨ value > 1 then
              { ret := -EINVAL, page := "", armoury := some armoury, hist := hist }
            else
              let r := universal_armoury_acpi_evaluate_method fw hist armoury.acpi_dev
                armoury.set_egpu_enable_method value.toNat false
              if r.ret ≠ 0 then
                { ret := r.ret, page := "", armoury := some armoury, hist := r.hist }
              else
                { ret := size_to_ssize count, page := "",
                  armoury := some { armoury with egpu_state := value },
                  hist := r.hist }

/-- The `%d` rendering of a C `bool`. -/
def bool_d (b : Bool) : String := if b then "1" else "0"

/-- Source function `supported_features_show`: return value and page text. -/
def supported_features_show (driver_data : Option universal_armoury) : Int × String :=
  match driver_data with
  | none =>
    let text := scnprintf PAGE_SIZE "gpu_mux:0 dgpu_disable:0 egpu_enable:0\n"
    ((text.length : Int), text)
  | some armoury =>
    let text := scnprintf PAGE_SIZE
      ("gpu_mux:" ++ bool_d armoury.gpu_mux_supported ++
       " dgpu_disable:" ++ bool_d armoury.dgpu_disable_supported ++
       " egpu_enable:" ++ bool_d armoury.egpu_supported ++ "\n")
    ((text.length : Int), text)

/-! ## Feature probing and attach -/

/-- The "Test GPU MUX support" block of `universal_armoury_probe_features`. -/
def probe_gpu_mux (fw : Firmware) (s : universal_armoury × List AcpiCall) :
    universal_armoury × List AcpiCall :=
  match s.1.get_gpu_mux_method with
  | none => s
  | some m =>
    let r := universal_armoury_acpi_evaluate_method fw s.2 s.1.acpi_dev (some m) 0 true
    if r.ret = 0 then
      ({ s.1 with gpu_mux_supported := true
                  gpu_mux_state := u32_to_int (r.result.getD 0) }, r.hist)
    else (s.1, r.hist)

/-- The "Test dGPU disable support" block of `universal_armoury_probe_features`. -/
def probe_dgpu_disable (fw : Firmware) (s : universal_armoury × List AcpiCall) :
    universal_armoury × List AcpiCall :=
  match s.1.get_dgpu_disable_method with
  | none => s
  | some m =>
    let r := universal_armoury_acpi_evaluate_method fw s.2 s.1.acpi_dev (some m) 0 true
    if r.ret = 0 then
      ({ s.1 with dgpu_disable_supported := true
                  dgpu_disable_state := u32_to_int (r.result.getD 0) }, r.hist)
    else (s.1, r.hist)

/-- The "Test eGPU support" block of `universal_armoury_probe_features`. -/
def probe_egpu (fw : Firmware) (s : universal_armoury × List AcpiCall) :
    universal_armoury × List AcpiCall :=
  match s.1.get_egpu_enable_method with
  | none => s
  | some m =>
    let r := universal_armoury_acpi_evaluate_method fw s.2 s.1.acpi_dev (some m) 0 true
    if r.ret = 0 then
      ({ s.1 with egpu_supported := true
                  egpu_state := u32_to_int (r.result.getD 0) }, r.hist)
    else (s.1, r.hist)

/-- The `alt_methods` array of `universal_armoury_probe_features`. -/
def alt_methods : List String := ["GMUX", "_GPU", "DGPU", "SGPU", "MXDS", "MXDM"]

/-- The body executed for a working alternative method: bind it by name. -/
def bind_alt_method (name : String) (armoury : universal_armoury) : universal_armoury :=
  if strstr name "MUX" || strstr name "MXD" then
    { armoury with gpu_mux_supported := true, get_gpu_mux_method := some name }
  else if strstr name "GPU" then
    { armoury with dgpu_disable_supported := true, get_dgpu_disable_method := some name }
  else armoury

/-- The `for` loop over `alt_methods`, started at the given remaining names. -/
def probe_alt_methods (fw : Firmware) :
    List String → universal_armoury × List AcpiCall → universal_armoury × List AcpiCall
  | [], s => s
  | name :: rest, s =>
    let r := universal_armoury_acpi_evaluate_method fw s.2 s.1.acpi_dev (some name) 0 true
    if r.ret = 0 then (bind_alt_method name s.1, r.hist)
    else probe_alt_methods fw rest (s.1, r.hist)

/-- The three primary probes of `universal_armoury_probe_features`, in source
order. -/
def probe_primary (fw : Firmware) (s : universal_armoury × List AcpiCall) :
    universal_armoury × List AcpiCall :=
  probe_egpu fw (probe_dgpu_disable fw (probe_gpu_mux fw s))

/-- Source function `universal_armoury_probe_features` (log output left out). -/
def universal_armoury_probe_features (fw : Firmware) (hist : List AcpiCall)
    (armoury : universal_armoury) : universal_armoury × List AcpiCall :=
  let s := probe_primary fw (armoury, hist)
  if s.1.gpu_mux_supported = false ∧ s.1.dgpu_disable_supported = false ∧
      s.1.egpu_supported = false then
    probe_alt_methods fw alt_methods s
  else s

/-- Outcome of `universal_armoury_add`. -/
structure AddResult where
  ret : Int
  driver_data : Option universal_armoury
  hist : List AcpiCall
deriving DecidableEq, Repr

/-- Source function `universal_armoury_add`.  `alloc_ok` says whether
`devm_kzalloc` succeeded and `sysfs_ret` is what `sysfs_create_group` returns. -/
def universal_armoury_add (dmi : Dmi) (fw : Firmware) (hist : List AcpiCall)
    (adev : acpi_device) (alloc_ok : Bool) (sysfs_ret : Int) : AddResult :=
  if alloc_ok = false then { ret := -ENOMEM, driver_data := none, hist := hist }
  else
    let armoury0 := { kzalloc_armoury with acpi_dev := some adev }
    let d := detect_laptop_vendor dmi armoury0
    let armoury1 := { d.2 with vendor := d.1 }
    let armoury2 := set_vendor_acpi_methods armoury1
    let s := universal_armoury_probe_features fw hist armoury2
    if sysfs_ret ≠ 0 then { ret := sysfs_ret, driver_data := some s.1, hist := s.2 }
    else { ret := 0, driver_data := some s.1, hist := s.2 }

/-! ## The three toggles, uniformly -/

/-- The three read/write attributes of the driver. -/
inductive Toggle where
  | gpu_mux
  | dgpu_disable
  | egpu_enable
deriving DecidableEq, Repr

/-- The `*_supported` flag of a toggle. -/
def Toggle.supported : Toggle → universal_armoury → Bool
  | .gpu_mux, a => a.gpu_mux_supported
  | .dgpu_disable, a => a.dgpu_disable_supported
  | .egpu_enable, a => a.egpu_supported

/-- The cached `*_state` of a toggle. -/
def Toggle.state : Toggle → universal_armoury → Int
  | .gpu_mux, a => a.gpu_mux_state
  | .dgpu_disable, a => a.dgpu_disable_state
  | .egpu_enable, a => a.egpu_state

/-- The device structure with the cached `*_state` of a toggle replaced. -/
def Toggle.with_state : Toggle → universal_armoury → Int → universal_armoury
  | .gpu_mux, a, v => { a with gpu_mux_state := v }
  | .dgpu_disable, a, v => { a with dgpu_disable_state := v }
  | .egpu_enable, a, v => { a with egpu_state := v }

/-- The bound get-method name of a toggle. -/
def Toggle.get_method : Toggle → universal_armoury → Option String
  | .gpu_mux, a => a.get_gpu_mux_method
  | .dgpu_disable, a => a.get_dgpu_disable_method
  | .egpu_enable, a => a.get_egpu_enable_method

/-- The bound set-method name of a toggle. -/
def Toggle.set_method : Toggle → universal_armoury → Option String
  | .gpu_mux, a => a.set_gpu_mux_method
  | .dgpu_disable, a => a.set_dgpu_disable_method
  | .egpu_enable, a => a.set_egpu_enable_method

/-- The `show` callback of a toggle. -/
def Toggle.show : Toggle → Firmware → List AcpiCall → Option universal_armoury → SysfsResult
  | .gpu_mux => gpu_mux_show
  | .dgpu_disable => dgpu_disable_show
  | .egpu_enable => egpu_enable_show

/-- The `store` callback of a toggle. -/
def Toggle.store : Toggle → Firmware → List AcpiCall → Option universal_armoury →
    Option String → Nat → SysfsResult
  | .gpu_mux => gpu_mux_store
  | .dgpu_disable => dgpu_disable_store
  | .egpu_enable => egpu_enable_store

/-- The gateway reports success: the firmware call succeeded with an integer
object (the `ret == 0` outcome of `universal_armoury_acpi_evaluate_method`). -/
def reply_ok (r : AcpiReply) : Bool :=
  decide (r.status = AE_OK) &&
    (match r.pointer with
     | some obj => decide (obj.type = ACPI_TYPE_INTEGER)
     | none => false)

/-! ## Specification-level notions used in the statements -/

/-- The string contains the fragment as a contiguous, case-sensitive part. -/
def has_fragment (s fragment : String) : Prop := fragment.toList <:+: s.toList

instance (s fragment : String) : Decidable (has_fragment s fragment) := by
  unfold has_fragment; infer_instance

/-- The vendor name fragments in the order the specification lists them, each
entry with its dialect. -/
def known_vendors : List (laptop_vendor × List String) :=
  [ (VENDOR_ASUS, ["ASUS", "ASUSTeK"]),
    (VENDOR_MSI, ["MSI", "Micro-Star"]),
    (VENDOR_DELL_ALIENWARE, ["Dell", "Alienware"]),
    (VENDOR_LENOVO, ["LENOVO", "Lenovo"]),
    (VENDOR_HP, ["HP", "Hewlett-Packard"]),
    (VENDOR_ACER, ["Acer"]) ]

/-- The first entry of `known_vendors` one of whose fragments the vendor string
contains. -/
def first_vendor_match (vendor : String) : Option (laptop_vendor × List String) :=
  known_vendors.find? (fun e => e.2.any (fun f => decide (has_fragment vendor f)))

/-- The gaming-line product fragments of the specification. -/
def gaming_fragments : List String := ["ROG", "TUF", "Legion", "Gaming", "Predator", "Nitro"]

/-- The vendor string is absent or contains none of the known vendor
fragments. -/
def no_vendor_match (vendor : Option String) : Prop :=
  match vendor with
  | none => True
  | some v => ∀ e ∈ known_vendors, ∀ f ∈ e.2, ¬ has_fragment v f

instance (vendor : Option String) : Decidable (no_vendor_match vendor) := by
  unfold no_vendor_match; split <;> infer_instance

/-- The product string is present and contains a gaming-line fragment. -/
def gaming_product (product : Option String) : Prop :=
  match product with
  | none => False
  | some p => ∃ f ∈ gaming_fragments, has_fragment p f

instance (product : Option String) : Decidable (gaming_product product) := by
  unfold gaming_product; split <;> infer_instance

/-- The firmware answers the get-method, called right after an accepted call of
the paired set-method with argument `v`, with the integer `v`. -/
def reads_back_last_write (fw : Firmware) (handle : Nat) (get set : String) : Prop :=
  ∀ (hist : List AcpiCall) (v : Nat),
    reply_ok (fw hist { handle := handle, method := set, arg := v }) = true →
    fw (hist ++ [{ handle := handle, method := set, arg := v }])
        { handle := handle, method := get, arg := 0 }
      = { status := AE_OK, pointer := some { type := ACPI_TYPE_INTEGER, value := v } }

/-- The `u32` the gateway stores for a reply: the low 32 bits of the integer. -/
def reply_value (r : AcpiReply) : Nat :=
  match r.pointer with
  | some obj => obj.value % 2 ^ 32
  | none => 0

/-- The firmware call made to probe a method: the name with argument 0. -/
def get_call (dev : acpi_device) (m : String) : AcpiCall :=
  { handle := dev.handle, method := m, arg := 0 }

/-- The probe call of a binding: one call if the get-method is present. -/
def binding_calls (dev : acpi_device) (m : Option String) : List AcpiCall :=
  match m with
  | some name => [get_call dev name]
  | none => []

/-- The primary probe calls that precede the probe of a toggle. -/
def Toggle.calls_before : Toggle → universal_armoury → acpi_device → List AcpiCall
  | .gpu_mux, _, _ => []
  | .dgpu_disable, a, dev => binding_calls dev a.get_gpu_mux_method
  | .egpu_enable, a, dev =>
    binding_calls dev a.get_gpu_mux_method ++ binding_calls dev a.get_dgpu_disable_method

/-- All primary probe calls: one per toggle with a binding, in the order
gpu_mux, dgpu_disable, egpu_enable. -/
def primary_calls (a : universal_armoury) (dev : acpi_device) : List AcpiCall :=
  binding_calls dev a.get_gpu_mux_method ++ binding_calls dev a.get_dgpu_disable_method ++
    binding_calls dev a.get_egpu_enable_method

/-- The binding has a get-method and the firmware answers its probe call,
issued at the given trace, with an integer. -/
def binding_ok (fw : Firmware) (hist : List AcpiCall) (dev : acpi_device)
    (m : Option String) : Bool :=
  match m with
  | some name => reply_ok (fw hist (get_call dev name))
  | none => false

/-- The value the probe call of the binding returns at the given trace. -/
def binding_value (fw : Firmware) (hist : List AcpiCall) (dev : acpi_device)
    (m : Option String) : Nat :=
  match m with
  | some name => reply_value (fw hist (get_call dev name))
  | none => 0

/-- The toggle has a binding and the firmware answers its primary probe call,
issued after the probes of the toggles before it, with an integer. -/
def Toggle.probe_ok (t : Toggle) (fw : Firmware) (hist : List AcpiCall)
    (a : universal_armoury) (dev : acpi_device) : Bool :=
  binding_ok fw (hist ++ t.calls_before a dev) dev (t.get_method a)

/-- The value the primary probe call of the toggle returns. -/
def Toggle.probe_value (t : Toggle) (fw : Firmware) (hist : List AcpiCall)
    (a : universal_armoury) (dev : acpi_device) : Nat :=
  binding_value fw (hist ++ t.calls_before a dev) dev (t.get_method a)

/-- The fallback calls for a list of alternative names. -/
def alt_calls (dev : acpi_device) (names : List String) : List AcpiCall :=
  names.map (get_call dev)

/-- Every name of the list fails when the names are tried one after the other
starting from the given trace. -/
def all_fail (fw : Firmware) (hist : List AcpiCall) (dev : acpi_device)
    (names : List String) : Prop :=
  ∀ before name after, names = before ++ name :: after →
    reply_ok (fw (hist ++ alt_calls dev before) (get_call dev name)) = false

/-- The binding set of a device: the (get, set) method names of gpu_mux,
dgpu_disable and egpu_enable, in that order. -/
def bindings (a : universal_armoury) : List (Option String × Option String) :=
  [ (a.get_gpu_mux_method, a.set_gpu_mux_method),
    (a.get_dgpu_disable_method, a.set_dgpu_disable_method),
    (a.get_egpu_enable_method, a.set_egpu_enable_method) ]

/-- The binding set `set_vendor_acpi_methods` gives a freshly allocated device
of the given dialect. -/
def dialect_bindings (d : laptop_vendor) : List (Option String × Option String) :=
  bindings (set_vendor_acpi_methods { kzalloc_armoury with vendor := d })

/-- One access through the sysfs surface: a read of a toggle, or a write of a
buffer with its length. -/
inductive Access where
  | read (t : Toggle)
  | write (t : Toggle) (buf : Option String) (count : Nat)

/-- The callback an access runs, on the current driver data and call trace. -/
def Access.run (fw : Firmware) :
    Access → Option universal_armoury × List AcpiCall → SysfsResult
  | .read t, s => t.show fw s.2 s.1
  | .write t buf count, s => t.store fw s.2 s.1 buf count

/-- A sequence of accesses, run one after the other. -/
def run_accesses (fw : Firmware) :
    List Access → Option universal_armoury × List AcpiCall →
      Option universal_armoury × List AcpiCall
  | [], s => s
  | acc :: rest, s => run_accesses fw rest ((acc.run fw s).armoury, (acc.run fw s).hist)

/-- The device structure and call trace can be reached by a successful attach
followed by some sequence of reads and writes. -/
def Reachable (a : universal_armoury) (hist : List AcpiCall) : Prop :=
  ∃ (dmi : Dmi) (fw : Firmware) (hist0 : List AcpiCall) (adev : acpi_device)
    (accs : List Access),
    run_accesses fw accs
      ((universal_armoury_add dmi fw hist0 adev true 0).driver_data,
       (universal_armoury_add dmi fw hist0 adev true 0).hist) = (some a, hist)

/-- Everything of the device structure except the cached values is the same in
both structures, and so are the cached values of the toggles other than `t`. -/
def frame_preserved (t : Toggle) (a b : universal_armoury) : Prop :=
  b.acpi_dev = a.acpi_dev ∧ b.vendor = a.vendor ∧
  b.vendor_name = a.vendor_name ∧ b.product_name = a.product_name ∧
  b.gpu_mux_supported = a.gpu_mux_supported ∧
  b.dgpu_disable_supported = a.dgpu_disable_supported ∧
  b.egpu_supported = a.egpu_supported ∧
  b.get_gpu_mux_method = a.get_gpu_mux_method ∧
  b.set_gpu_mux_method = a.set_gpu_mux_method ∧
  b.get_dgpu_disable_method = a.get_dgpu_disable_method ∧
  b.set_dgpu_disable_method = a.set_dgpu_disable_method ∧
  b.get_egpu_enable_method = a.get_egpu_enable_method ∧
  b.set_egpu_enable_method = a.set_egpu_enable_method ∧
  ∀ u : Toggle, u ≠ t → u.state b = u.state a

/-- The second structure has the same ACPI device, dialect, identification
strings, supported flags and method names as the first. -/
def config_preserved (a b : universal_armoury) : Prop :=
  b.acpi_dev = a.acpi_dev ∧ b.vendor = a.vendor ∧
  b.vendor_name = a.vendor_name ∧ b.product_name = a.product_name ∧
  b.gpu_mux_supported = a.gpu_mux_supported ∧
  b.dgpu_disable_supported = a.dgpu_disable_supported ∧
  b.egpu_supported = a.egpu_supported ∧
  b.get_gpu_mux_method = a.get_gpu_mux_method ∧
  b.set_gpu_mux_method = a.set_gpu_mux_method ∧
  b.get_dgpu_disable_method = a.get_dgpu_disable_method ∧
  b.set_dgpu_disable_method = a.set_dgpu_disable_method ∧
  b.get_egpu_enable_method = a.get_egpu_enable_method ∧
  b.set_egpu_enable_method = a.set_egpu_enable_method

/-- The second structure has the same ACPI device, dialect, identification
strings and set-method names as the first. -/
def identity_preserved (a b : universal_armoury) : Prop :=
  b.acpi_dev = a.acpi_dev ∧ b.vendor = a.vendor ∧
  b.vendor_name = a.vendor_name ∧ b.product_name = a.product_name ∧
  b.set_gpu_mux_method = a.set_gpu_mux_method ∧
  b.set_dgpu_disable_method = a.set_dgpu_disable_method ∧
  b.set_egpu_enable_method = a.set_egpu_enable_method

/-- The content of an identity field after attach: the identification string
cut to the capacity of the field, or the empty string of the zeroed structure
when the string is absent. -/
def identity_field (s : Option String) (size : Nat) : String :=
  match s with
  | some v => strscpy v size
  | none => ""

/-- The device structure `universal_armoury_add` hands to the prober: freshly
allocated, classified, with the method names of its dialect bound. -/
def bound_device (dmi : Dmi) (adev : acpi_device) : universal_armoury :=
  set_vendor_acpi_methods
    { (detect_laptop_vendor dmi { kzalloc_armoury with acpi_dev := some adev }).2 with
      vendor := (detect_laptop_vendor dmi { kzalloc_armoury with acpi_dev := some adev }).1 }

/-- The alternative names the specification assigns to gpu_mux. -/
def mux_alt_names : List String := ["GMUX", "MXDS", "MXDM"]

/-- The alternative names the specification assigns to dgpu_disable. -/
def gpu_alt_names : List String := ["_GPU", "DGPU", "SGPU"]

/-- The name matches the first heuristic of the fallback: it contains "MUX" or
"MXD". -/
def mux_heuristic (name : String) : Bool := strstr name "MUX" || strstr name "MXD"

/-- The name matches the second heuristic of the fallback: it contains "GPU". -/
def gpu_heuristic (name : String) : Bool := strstr name "GPU"

/-- The set-method names of a binding set, in the order gpu_mux, dgpu_disable,
egpu_enable. -/
def set_methods (bs : List (Option String × Option String)) : List (Option String) :=
  bs.map Prod.snd

/-! ## Concrete machines used to exercise the statements -/

/-- Firmware that answers every call with the given integer. -/
def const_firmware (value : Nat) : Firmware :=
  fun _ _ => { status := AE_OK, pointer := some { type := ACPI_TYPE_INTEGER, value := value } }

/-- Firmware on which every call fails with a non-zero status. -/
def dead_firmware : Firmware :=
  fun _ _ => { status := 1, pointer := none }

/-- A device on which only `gpu_mux` is supported, bound to the ASUS names. -/
def mux_armoury : universal_armoury :=
  { kzalloc_armoury with
    acpi_dev := some { handle := 7 }
    gpu_mux_supported := true
    get_gpu_mux_method := some "MXDS"
    set_gpu_mux_method := some "MXDM" }

/-- A device on which only `dgpu_disable` is supported, with cached value 1. -/
def dgpu_armoury : universal_armoury :=
  { kzalloc_armoury with
    acpi_dev := some { handle := 7 }
    dgpu_disable_supported := true
    dgpu_disable_state := 1
    get_dgpu_disable_method := some "DGPU"
    set_dgpu_disable_method := some "SDGP" }

/-- Firmware of an ASUS machine with a GPU multiplexer: "MXDM" accepts any
argument, "MXDS" reports the argument of the latest "MXDM" call (1 before any),
every other method fails. -/
def asus_mux_firmware : Firmware := fun hist c =>
  if c.method = "MXDS" then
    match hist.reverse.find? (fun k => decide (k.method = "MXDM" ∧ k.handle = c.handle)) with
    | some k => { status := AE_OK, pointer := some { type := ACPI_TYPE_INTEGER, value := k.arg } }
    | none => { status := AE_OK, pointer := some { type := ACPI_TYPE_INTEGER, value := 1 } }
  else if c.method = "MXDM" then
    { status := AE_OK, pointer := some { type := ACPI_TYPE_INTEGER, value := 0 } }
  else { status := 1, pointer := none }

/-- A freshly allocated device classified as ASUS, methods bound, not yet
probed. -/
def asus_fresh : universal_armoury :=
  set_vendor_acpi_methods
    { kzalloc_armoury with acpi_dev := some { handle := 7 }, vendor := VENDOR_ASUS }

/-- A freshly allocated device classified as Dell/Alienware, methods bound, not
yet probed. -/
def dell_fresh : universal_armoury :=
  set_vendor_acpi_methods
    { kzalloc_armoury with acpi_dev := some { handle := 7 }, vendor := VENDOR_DELL_ALIENWARE }

/-- Firmware that answers exactly the folklore names "GMUX" and "_GPU". -/
def folklore_firmware : Firmware := fun _ c =>
  if c.method = "GMUX" ∨ c.method = "_GPU" then
    { status := AE_OK, pointer := some { type := ACPI_TYPE_INTEGER, value := 1 } }
  else { status := 1, pointer := none }

/-- The identification strings of the unknown-vendor scenario. -/
def unknown_dmi : Dmi :=
  { sys_vendor := some "Unknown Corp", product_name := some "Business Laptop" }

/-- The device structure the unknown-vendor scenario reaches once attached to
firmware that never answers. -/
def unknown_attached : universal_armoury :=
  { kzalloc_armoury with
    acpi_dev := some { handle := 7 }
    vendor := VENDOR_UNKNOWN
    vendor_name := "Unknown Corp"
    product_name := "Business Laptop"
    get_gpu_mux_method := some "GMUX"
    set_gpu_mux_method := some "SMUX"
    get_dgpu_disable_method := some "_GPU"
    set_dgpu_disable_method := some "SGPU" }

/-- The firmware calls issued while attaching in the unknown-vendor scenario:
two primary probes, then the six alternative names. -/
def unknown_attach_calls : List AcpiCall :=
  [ { handle := 7, method := "GMUX", arg := 0 },
    { handle := 7, method := "_GPU", arg := 0 },
    { handle := 7, method := "GMUX", arg := 0 },
    { handle := 7, method := "_GPU", arg := 0 },
    { handle := 7, method := "DGPU", arg := 0 },
    { handle := 7, method := "SGPU", arg := 0 },
    { handle := 7, method := "MXDS", arg := 0 },
    { handle := 7, method := "MXDM", arg := 0 } ]

/-- The identification strings of the ASUS scenario. -/
def asus_dmi : Dmi :=
  { sys_vendor := some "ASUSTeK COMPUTER INC.", product_name := some "ROG Zephyrus" }

/-- The device structure the ASUS scenario reaches once attached. -/
def asus_attached : universal_armoury :=
  { kzalloc_armoury with
    acpi_dev := some { handle := 7 }
    vendor := VENDOR_ASUS
    vendor_name := "ASUSTeK COMPUTER INC."
    product_name := "ROG Zephyrus"
    gpu_mux_supported := true
    gpu_mux_state := 1
    get_gpu_mux_method := some "MXDS"
    set_gpu_mux_method := some "MXDM"
    get_dgpu_disable_method := some "DGPU"
    set_dgpu_disable_method := some "SDGP"
    get_egpu_enable_method := some "EGPU"
    set_egpu_enable_method := some "SEGP" }

/-- The firmware calls issued while attaching in the ASUS scenario. -/
def asus_attach_calls : List AcpiCall :=
  [ { handle := 7, method := "MXDS", arg := 0 },
    { handle := 7, method := "DGPU", arg := 0 },
    { handle := 7, method := "EGPU", arg := 0 } ]

/-- The identification strings of a Dell machine. -/
def dell_dmi : Dmi :=
  { sys_vendor := some "Dell Inc.", product_name := some "G15 5520" }

/-- Firmware that answers only the name "DGPU", with the integer 1. -/
def dgpu_only_firmware : Firmware := fun _ c =>
  if c.method = "DGPU" then
    { status := AE_OK, pointer := some { type := ACPI_TYPE_INTEGER, value := 1 } }
  else { status := 1, pointer := none }

/-- The identification strings of an MSI machine. -/
def msi_dmi : Dmi :=
  { sys_vendor := some "Micro-Star International", product_name := some "Raider GE76" }

/-- The device structure the MSI machine reaches once attached to firmware that
answers every call with 1. -/
def msi_attached : universal_armoury :=
  { kzalloc_armoury with
    acpi_dev := some { handle := 7 }
    vendor := VENDOR_MSI
    vendor_name := "Micro-Star International"
    product_name := "Raider GE76"
    gpu_mux_supported := true
    dgpu_disable_supported := true
    gpu_mux_state := 1
    dgpu_disable_state := 1
    get_gpu_mux_method := some "GMUX"
    set_gpu_mux_method := some "SMUX"
    get_dgpu_disable_method := some "GDIS"
    set_dgpu_disable_method := some "SDIS" }

/-- The firmware calls issued while attaching the MSI machine and then writing
"1" to egpu_enable and reading gpu_mux. -/
def msi_calls : List AcpiCall :=
  [ { handle := 7, method := "GMUX", arg := 0 },
    { handle := 7, method := "GDIS", arg := 0 },
    { handle := 7, method := "GMUX", arg := 0 } ]

/-! # Theorems -/

/-! ## Facts about the C library helpers -/

theorem starts_with_iff (hs ns : List Char) : starts_with hs ns = true ↔ ns <+: hs := by
  induction ns generalizing hs with
  | nil => simp [starts_with]
  | cons n ns ih =>
    cases hs with
    | nil => simp [starts_with]
    | cons h hs =>
      simp only [starts_with, Bool.and_eq_true, beq_iff_eq, ih, List.cons_prefix_cons]
      constructor
      · rintro ⟨h1, h2⟩; exact ⟨h1.symm, h2⟩
      · rintro ⟨h1, h2⟩; exact ⟨h1.symm, h2⟩

theorem strstr_from_iff (hs ns : List Char) : strstr_from hs ns = true ↔ ns <:+: hs := by
  induction hs with
  | nil =>
    simp only [strstr_from, starts_with_iff, List.prefix_nil, List.infix_nil]
  | cons h hs ih =>
    simp only [strstr_from, Bool.or_eq_true, starts_with_iff, ih, List.infix_cons_iff]

/-- The C function `strstr` finds the needle exactly when it is a contiguous
part of the haystack. -/
theorem strstr_iff (haystack needle : String) :
    strstr haystack needle = true ↔ needle.toList <:+: haystack.toList := by
  simp only [strstr, strstr_from_iff]

theorem strstr_false_iff (haystack needle : String) :
    strstr haystack needle = false ↔ ¬ needle.toList <:+: haystack.toList := by
  rw [← strstr_iff]; simp

theorem strstr_eq_decide (haystack needle : String) :
    strstr haystack needle = decide (has_fragment haystack needle) := by
  by_cases h : has_fragment haystack needle
  · simp only [h, decide_True]; exact (strstr_iff _ _).2 h
  · simp only [h, decide_False]; exact (strstr_false_iff _ _).2 h

theorem u32_to_int_small (r : Nat) (h : r < 2 ^ 31) : u32_to_int r = (r : Int) := by
  have h1 : r % 2 ^ 32 = r := Nat.mod_eq_of_lt (by omega)
  unfold u32_to_int
  rw [h1, if_pos h]

theorem u32_to_int_large (r : Nat) (h1 : 2 ^ 31 ≤ r) (h2 : r < 2 ^ 32) :
    u32_to_int r = (r : Int) - 2 ^ 32 := by
  have hm : r % 2 ^ 32 = r := Nat.mod_eq_of_lt h2
  unfold u32_to_int
  rw [hm, if_neg (by omega)]

theorem fmt_d_natCast (r : Nat) : fmt_d (r : Int) = Nat.repr r := by
  unfold fmt_d
  rw [if_neg (by omega), Int.toNat_ofNat]

theorem fmt_d_neg (x : Int) (h : x < 0) : fmt_d x = "-" ++ Nat.repr x.natAbs := by
  unfold fmt_d
  rw [if_pos h]

theorem fmt_d_u32_length (r : Nat) (h : r < 2 ^ 32) : (fmt_d (u32_to_int r)).length ≤ 11 := by
  by_cases hs : r < 2 ^ 31
  · rw [u32_to_int_small r hs, fmt_d_natCast]
    have := Nat.repr_length r 10 (by norm_num) (by omega)
    omega
  · have hl : (2 : Nat) ^ 31 ≤ r := by omega
    rw [u32_to_int_large r hl h, fmt_d_neg _ (by omega), String.length_append]
    have h1 : ("-" : String).length = 1 := rfl
    have h2 := Nat.repr_length ((r : Int) - 2 ^ 32).natAbs 10 (by norm_num) (by omega)
    omega

theorem scnprintf_short (size : Nat) (text : String) (h : text.length ≤ size - 1) :
    scnprintf size text = text := by
  unfold scnprintf
  have hl : text.toList.length ≤ size - 1 := h
  rw [List.take_of_length_le hl]
  rfl

/-- The text of a read always fits the page. -/
theorem page_of_u32 (r : Nat) (h : r < 2 ^ 32) :
    scnprintf PAGE_SIZE (fmt_d (u32_to_int r) ++ "\n") = fmt_d (u32_to_int r) ++ "\n" := by
  apply scnprintf_short
  have hl := fmt_d_u32_length r h
  have : (fmt_d (u32_to_int r) ++ "\n").length = (fmt_d (u32_to_int r)).length + 1 := by
    rw [String.length_append]; rfl
  simp only [PAGE_SIZE]
  omega

/-! ## `kstrtoint` reads back decimal text -/

theorem digit_val_digitChar (d : Nat) (h : d < 10) : digit_val (Nat.digitChar d) = some d := by
  interval_cases d <;> decide

/-- Parsing the digits `Nat.toDigitsCore` puts in front of `ds` yields the
number they denote. -/
theorem parse_toDigitsCore (fuel n : Nat) (ds : List Char) (cnt : Nat)
    (hf : n < fuel) (hn : n < 2 ^ 60) :
    ∃ k, 1 ≤ k ∧
      parse_integer 10 (Nat.toDigitsCore 10 fuel n ds) 0 false cnt
        = parse_integer 10 ds n false (cnt + k) := by
  induction fuel generalizing n ds cnt with
  | zero => omega
  | succ fuel ih =>
    have hd : n % 10 < 10 := Nat.mod_lt _ (by norm_num)
    have hstep : ∀ acc c, acc < 2 ^ 60 → acc * 10 + n % 10 < 2 ^ 64 →
        parse_integer 10 (Nat.digitChar (n % 10) :: ds) acc false c
          = parse_integer 10 ds (acc * 10 + n % 10) false (c + 1) := by
      intro acc c hacc hlt
      have hov : (false || (decide (acc ≥ 2 ^ 60) &&
          decide (acc > (ULLONG_MAX - n % 10) / 10))) = false := by
        have : decide (acc ≥ 2 ^ 60) = false := decide_eq_false (by omega)
        rw [this]; rfl
      simp only [parse_integer, digit_val_digitChar _ hd, Nat.mod_eq_of_lt hlt, hov]
      rw [if_neg (by omega)]
    unfold Nat.toDigitsCore
    by_cases h0 : n / 10 = 0
    · simp only [h0, if_true]
      refine ⟨1, le_refl 1, ?_⟩
      have hn10 : n % 10 = n := by omega
      have := hstep 0 cnt (by norm_num) (by omega)
      rw [this]
      simp [hn10]
    · simp only [h0, if_false]
      have hlt : n / 10 < fuel := by omega
      obtain ⟨k, hk, hrec⟩ := ih (n / 10) (Nat.digitChar (n % 10) :: ds) cnt hlt (by omega)
      refine ⟨k + 1, by omega, ?_⟩
      rw [hrec, hstep (n / 10) (cnt + k) (by omega) (by omega)]
      have : n / 10 * 10 + n % 10 = n := by omega
      rw [this, Nat.add_assoc]

theorem parse_repr (n : Nat) (hn : n < 2 ^ 60) :
    ∃ k, 1 ≤ k ∧ parse_integer 10 (Nat.repr n).toList 0 false 0 = (n, false, k, []) := by
  obtain ⟨k, hk, h⟩ := parse_toDigitsCore (n + 1) n [] 0 (by omega) hn
  refine ⟨k, hk, ?_⟩
  have : (Nat.repr n).toList = Nat.toDigitsCore 10 (n + 1) n [] := rfl
  rw [this, h]
  simp [parse_integer]

theorem kstrtoull_digits_repr (n : Nat) (hn : n < 2 ^ 60) :
    kstrtoull_digits (Nat.repr n).toList 10 = Except.ok n := by
  obtain ⟨k, hk, h⟩ := parse_repr n hn
  unfold kstrtoull_digits
  rw [h]
  have hk0 : k ≠ 0 := by omega
  simp [hk0]

theorem repr_head (n : Nat) (hn : n < 2 ^ 60) (c : Char) (r : List Char)
    (h : (Nat.repr n).toList = c :: r) : c ≠ '+' ∧ c ≠ '-' := by
  obtain ⟨k, hk, hp⟩ := parse_repr n hn
  rw [h] at hp
  constructor
  · rintro rfl
    have : parse_integer 10 ('+' :: r) 0 false 0 = (0, false, 0, '+' :: r) := by
      simp [parse_integer, digit_val]
    rw [this] at hp
    simp at hp
  · rintro rfl
    have : parse_integer 10 ('-' :: r) 0 false 0 = (0, false, 0, '-' :: r) := by
      simp [parse_integer, digit_val]
    rw [this] at hp
    simp at hp

theorem kstrtoull_no_plus (c : Char) (r : List Char) (h : c ≠ '+') :
    kstrtoull (c :: r) 10 = kstrtoull_digits (c :: r) 10 := by
  unfold kstrtoull
  split
  · rename_i heq
    injection heq with h1 _
    exact absurd h1 h
  · rfl

theorem kstrtoll_nonneg (c : Char) (r : List Char) (n : Nat) (hplus : c ≠ '+')
    (hminus : c ≠ '-') (hn : n < 2 ^ 63) (hu : kstrtoull_digits (c :: r) 10 = Except.ok n) :
    kstrtoll (c :: r) 10 = Except.ok (n : Int) := by
  unfold kstrtoll
  split
  · rename_i heq
    injection heq with h1 _
    exact absurd h1 hminus
  · rw [kstrtoull_no_plus c r hplus, hu]
    simp only
    rw [if_neg (by omega)]

/-- The parser `kstrtoint` reads back the decimal text of every `int`. -/
theorem kstrtoint_fmt_d (v : Int) (hlo : -(2 ^ 31) ≤ v) (hhi : v < 2 ^ 31) :
    kstrtoint (fmt_d v) 10 = Except.ok v := by
  by_cases hneg : v < 0
  · have hl : (fmt_d v).toList = '-' :: (Nat.repr v.natAbs).toList := by
      rw [fmt_d_neg v hneg]; rfl
    unfold kstrtoint kstrtoll
    rw [hl]
    simp only [kstrtoull_digits_repr v.natAbs (by omega)]
    have h1 : ¬ (v.natAbs > 2 ^ 63) := by omega
    have h2 : -(v.natAbs : Int) = v := by omega
    simp only [h1, if_false, h2]
    rw [if_neg (by omega)]
  · have hv : (v.toNat : Int) = v := by omega
    have hl : (fmt_d v).toList = (Nat.repr v.toNat).toList := by
      unfold fmt_d; rw [if_neg hneg]
    have hk : kstrtoll (Nat.repr v.toNat).toList 10 = Except.ok v := by
      have hu := kstrtoull_digits_repr v.toNat (by omega)
      cases hs : (Nat.repr v.toNat).toList with
      | nil => rw [hs] at hu; simp [kstrtoull_digits, parse_integer] at hu
      | cons c r =>
        obtain ⟨hplus, hminus⟩ := repr_head v.toNat (by omega) c r hs
        rw [hs] at hu
        rw [kstrtoll_nonneg c r v.toNat hplus hminus (by omega) hu, hv]
    unfold kstrtoint
    rw [hl, hk]
    simp only
    rw [if_neg (by omega)]

/-! ## `kstrtoint` on decimal text outside the `int` range -/

theorem parse_digit_step (d m : Nat) (hd : d < 10) (ds : List Char) (acc : Nat) (ov : Bool)
    (c : Nat) (hacc : acc = m % 2 ^ 64) (hov : ov = decide (2 ^ 64 ≤ m)) :
    parse_integer 10 (Nat.digitChar d :: ds) acc ov c
      = parse_integer 10 ds ((m * 10 + d) % 2 ^ 64) (decide (2 ^ 64 ≤ m * 10 + d)) (c + 1) := by
  have hres : (acc * 10 + d) % 2 ^ 64 = (m * 10 + d) % 2 ^ 64 := by subst hacc; omega
  have hflag : (ov || (decide (acc ≥ 2 ^ 60) && decide (acc > (ULLONG_MAX - d) / 10)))
      = decide (2 ^ 64 ≤ m * 10 + d) := by
    subst hacc hov
    rw [Bool.eq_iff_iff]
    simp only [Bool.or_eq_true, Bool.and_eq_true, decide_eq_true_eq, ULLONG_MAX]
    by_cases hm : 2 ^ 64 ≤ m
    · constructor
      · intro _; omega
      · intro _; exact Or.inl hm
    · have hmod : m % 2 ^ 64 = m := Nat.mod_eq_of_lt (by omega)
      rw [hmod]
      constructor
      · rintro (h | ⟨_, h⟩)
        · exact absurd h hm
        · omega
      · intro h
        right
        constructor <;> omega
  simp only [parse_integer, digit_val_digitChar d hd]
  rw [if_neg (by omega), hres, hflag]

/-- Parsing the decimal digits of any number leaves the number reduced modulo
`2^64` and raises the overflow flag exactly when the number does not fit. -/
theorem parse_toDigitsCore_wide (fuel n : Nat) (ds : List Char) (cnt : Nat) (hf : n < fuel) :
    ∃ k, 1 ≤ k ∧
      parse_integer 10 (Nat.toDigitsCore 10 fuel n ds) 0 false cnt
        = parse_integer 10 ds (n % 2 ^ 64) (decide (2 ^ 64 ≤ n)) (cnt + k) := by
  induction fuel generalizing n ds cnt with
  | zero => omega
  | succ fuel ih =>
    have hd : n % 10 < 10 := Nat.mod_lt _ (by norm_num)
    have hn : n / 10 * 10 + n % 10 = n := by omega
    unfold Nat.toDigitsCore
    by_cases h0 : n / 10 = 0
    · simp only [h0, if_true]
      refine ⟨1, le_refl 1, ?_⟩
      rw [parse_digit_step (n % 10) (n / 10) hd ds 0 false cnt (by simp [h0]) (by simp [h0]), hn]
    · simp only [h0, if_false]
      obtain ⟨k, hk, hrec⟩ := ih (n / 10) (Nat.digitChar (n % 10) :: ds) cnt (by omega)
      refine ⟨k + 1, by omega, ?_⟩
      rw [hrec, parse_digit_step (n % 10) (n / 10) hd ds _ _ (cnt + k) rfl rfl, hn,
        Nat.add_assoc]

theorem parse_repr_wide (n : Nat) :
    ∃ k, 1 ≤ k ∧
      parse_integer 10 (Nat.repr n).toList 0 false 0 = (n % 2 ^ 64, decide (2 ^ 64 ≤ n), k, []) := by
  obtain ⟨k, hk, h⟩ := parse_toDigitsCore_wide (n + 1) n [] 0 (by omega)
  refine ⟨k, hk, ?_⟩
  have : (Nat.repr n).toList = Nat.toDigitsCore 10 (n + 1) n [] := rfl
  rw [this, h]
  simp [parse_integer]

theorem kstrtoull_digits_repr_wide (n : Nat) :
    kstrtoull_digits (Nat.repr n).toList 10
      = if 2 ^ 64 ≤ n then Except.error (-ERANGE) else Except.ok n := by
  obtain ⟨k, hk, h⟩ := parse_repr_wide n
  unfold kstrtoull_digits
  have hk0 : k ≠ 0 := by omega
  by_cases hn : 2 ^ 64 ≤ n
  · rw [h, if_pos hn, decide_eq_true hn]
    rfl
  · have hm : n % 2 ^ 64 = n := Nat.mod_eq_of_lt (by omega)
    rw [h, if_neg hn, decide_eq_false hn, hm]
    simp [hk0]

theorem repr_head_wide (n : Nat) (c : Char) (r : List Char)
    (h : (Nat.repr n).toList = c :: r) : c ≠ '+' ∧ c ≠ '-' := by
  obtain ⟨k, hk, hp⟩ := parse_repr_wide n
  rw [h] at hp
  constructor
  · rintro rfl
    have : parse_integer 10 ('+' :: r) 0 false 0 = (0, false, 0, '+' :: r) := by
      simp [parse_integer, digit_val]
    rw [this] at hp
    simp at hp
  · rintro rfl
    have : parse_integer 10 ('-' :: r) 0 false 0 = (0, false, 0, '-' :: r) := by
      simp [parse_integer, digit_val]
    rw [this] at hp
    simp at hp

/-- The parser `kstrtoint` rejects the decimal text of every integer that does
not fit an `int` with `-ERANGE`. -/
theorem kstrtoint_fmt_d_range (v : Int) (h : v < -(2 ^ 31) ∨ 2 ^ 31 ≤ v) :
    kstrtoint (fmt_d v) 10 = Except.error (-ERANGE) := by
  by_cases hneg : v < 0
  · have hl : (fmt_d v).toList = '-' :: (Nat.repr v.natAbs).toList := by
      rw [fmt_d_neg v hneg]; rfl
    unfold kstrtoint kstrtoll
    rw [hl]
    simp only [kstrtoull_digits_repr_wide v.natAbs]
    by_cases h64 : 2 ^ 64 ≤ v.natAbs
    · simp only [h64, if_true]
    · simp only [h64, if_false]
      by_cases h63 : v.natAbs > 2 ^ 63
      · simp only [h63, if_true]
      · have h2 : -(v.natAbs : Int) = v := by omega
        simp only [h63, if_false, h2]
        rw [if_pos (by omega)]
  · have hv : (v.toNat : Int) = v := by omega
    have hl : (fmt_d v).toList = (Nat.repr v.toNat).toList := by
      unfold fmt_d; rw [if_neg hneg]
    have hk : kstrtoll (Nat.repr v.toNat).toList 10 = Except.error (-ERANGE) ∨
        kstrtoll (Nat.repr v.toNat).toList 10 = Except.ok v := by
      have hu := kstrtoull_digits_repr_wide v.toNat
      cases hs : (Nat.repr v.toNat).toList with
      | nil =>
        obtain ⟨k, hk1, hp⟩ := parse_repr_wide v.toNat
        rw [hs] at hp
        simp only [parse_integer, Prod.mk.injEq] at hp
        omega
      | cons c r =>
        obtain ⟨hplus, hminus⟩ := repr_head_wide v.toNat c r hs
        rw [hs] at hu
        unfold kstrtoll
        split
        · rename_i heq
          injection heq with h1 _
          exact absurd h1 hminus
        · rw [kstrtoull_no_plus c r hplus, hu]
          by_cases h64 : 2 ^ 64 ≤ v.toNat
          · left; simp only [h64, if_true]
          · simp only [h64, if_false]
            by_cases h63 : v.toNat ≥ 2 ^ 63
            · left; simp only [h63, if_true]
            · right; simp only [h63, if_false, hv]
    unfold kstrtoint
    rw [hl]
    rcases hk with hk | hk
    · rw [hk]
    · rw [hk]
      simp only
      rw [if_pos (by omega)]

/-! ## Vendor classification -/

/-- C1: when the vendor string contains a known vendor fragment,
`detect_laptop_vendor` returns the dialect of the first entry of the ordered
vendor list that has a fragment occurring (case-sensitively) in the vendor
string, whatever the product string is, present or absent. -/
theorem detect_laptop_vendor_first_match (vendor : String) (product : Option String)
    (dev : universal_armoury) (e : laptop_vendor × List String)
    (h : first_vendor_match vendor = some e) :
    (detect_laptop_vendor { sys_vendor := some vendor, product_name := product } dev).1 = e.1 ∧
    (detect_laptop_vendor { sys_vendor := some vendor, product_name := product } dev).1 =
      (detect_laptop_vendor { sys_vendor := some vendor, product_name := none } dev).1 := by
  simp only [first_vendor_match, known_vendors, List.find?_cons, List.find?_nil, List.any_cons,
    List.any_nil, Bool.or_false] at h
  simp only [detect_laptop_vendor, detect_by_vendor, Option.bind, strstr_eq_decide]
  generalize (decide (has_fragment vendor "ASUS") || decide (has_fragment vendor "ASUSTeK")) = b1 at h ⊢
  generalize (decide (has_fragment vendor "MSI") || decide (has_fragment vendor "Micro-Star")) = b2 at h ⊢
  generalize (decide (has_fragment vendor "Dell") || decide (has_fragment vendor "Alienware")) = b3 at h ⊢
  generalize (decide (has_fragment vendor "LENOVO") || decide (has_fragment vendor "Lenovo")) = b4 at h ⊢
  generalize (decide (has_fragment vendor "HP") || decide (has_fragment vendor "Hewlett-Packard")) = b5 at h ⊢
  generalize decide (has_fragment vendor "Acer") = b6 at h ⊢
  cases b1
  · cases b2
    · cases b3
      · cases b4
        · cases b5
          · cases b6
            · simp at h
            · simp at h; subst h; simp
          · simp at h; subst h; simp
        · simp at h; subst h; simp
      · simp at h; subst h; simp
    · simp at h; subst h; simp
  · simp at h; subst h; simp

/-- The scenario of the specification: an ASUS vendor string wins over a gaming
product name. -/
theorem detect_laptop_vendor_first_match_witness :
    first_vendor_match "ASUSTeK COMPUTER INC." = some (VENDOR_ASUS, ["ASUS", "ASUSTeK"]) ∧
    (detect_laptop_vendor { sys_vendor := some "ASUSTeK COMPUTER INC.",
                            product_name := some "ROG Zephyrus" } kzalloc_armoury).1 = VENDOR_ASUS ∧
    (detect_laptop_vendor { sys_vendor := some "ASUSTeK COMPUTER INC.",
                            product_name := some "ROG Zephyrus" } kzalloc_armoury).1 ≠ VENDOR_GENERIC :=
  ⟨by decide,
   (detect_laptop_vendor_first_match "ASUSTeK COMPUTER INC." (some "ROG Zephyrus")
      kzalloc_armoury (VENDOR_ASUS, ["ASUS", "ASUSTeK"]) (by decide)).1,
   by decide⟩

theorem detect_by_vendor_none_iff (v : String) :
    detect_by_vendor v = none ↔ ∀ e ∈ known_vendors, ∀ f ∈ e.2, ¬ has_fragment v f := by
  simp only [detect_by_vendor, strstr_eq_decide, known_vendors, List.mem_cons,
    List.mem_singleton, List.not_mem_nil, or_false, forall_eq_or_imp, forall_eq]
  by_cases h1 : has_fragment v "ASUS" <;> by_cases h2 : has_fragment v "ASUSTeK" <;>
    simp only [h1, h2, decide_True, decide_False, Bool.or_self, Bool.or_true, Bool.or_false,
      if_true, if_false, not_true_eq_false, not_false_eq_true, and_true, and_false, false_and,
      true_and, reduceCtorEq, Bool.false_eq_true]
  by_cases h3 : has_fragment v "MSI" <;> by_cases h4 : has_fragment v "Micro-Star" <;>
    simp only [h3, h4, decide_True, decide_False, Bool.or_self, Bool.or_true, Bool.or_false,
      if_true, if_false, not_true_eq_false, not_false_eq_true, and_true, and_false, false_and,
      true_and, reduceCtorEq, Bool.false_eq_true]
  by_cases h5 : has_fragment v "Dell" <;> by_cases h6 : has_fragment v "Alienware" <;>
    simp only [h5, h6, decide_True, decide_False, Bool.or_self, Bool.or_true, Bool.or_false,
      if_true, if_false, not_true_eq_false, not_false_eq_true, and_true, and_false, false_and,
      true_and, reduceCtorEq, Bool.false_eq_true]
  by_cases h7 : has_fragment v "LENOVO" <;> by_cases h8 : has_fragment v "Lenovo" <;>
    simp only [h7, h8, decide_True, decide_False, Bool.or_self, Bool.or_true, Bool.or_false,
      if_true, if_false, not_true_eq_false, not_false_eq_true, and_true, and_false, false_and,
      true_and, reduceCtorEq, Bool.false_eq_true]
  by_cases h9 : has_fragment v "HP" <;> by_cases h10 : has_fragment v "Hewlett-Packard" <;>
    simp only [h9, h10, decide_True, decide_False, Bool.or_self, Bool.or_true, Bool.or_false,
      if_true, if_false, not_true_eq_false, not_false_eq_true, and_true, and_false, false_and,
      true_and, reduceCtorEq, Bool.false_eq_true]
  by_cases h11 : has_fragment v "Acer" <;> simp [h11]

theorem detect_by_product_iff (p : String) :
    detect_by_product p = true ↔ ∃ f ∈ gaming_fragments, has_fragment p f := by
  simp [detect_by_product, strstr_eq_decide, gaming_fragments, or_assoc]

/-- C2: when the vendor string is absent or contains no known vendor fragment,
`detect_laptop_vendor` returns `VENDOR_GENERIC` exactly when the product string
is present and contains one of "ROG", "TUF", "Legion", "Gaming", "Predator",
"Nitro", and returns `VENDOR_UNKNOWN` in every other case (an absent product
string included). -/
theorem detect_laptop_vendor_no_vendor_match (vendor product : Option String)
    (dev : universal_armoury) (h : no_vendor_match vendor) :
    ((detect_laptop_vendor { sys_vendor := vendor, product_name := product } dev).1
        = VENDOR_GENERIC ↔ gaming_product product) ∧
    (¬ gaming_product product →
      (detect_laptop_vendor { sys_vendor := vendor, product_name := product } dev).1
        = VENDOR_UNKNOWN) := by
  have hv : vendor.bind detect_by_vendor = none := by
    cases vendor with
    | none => rfl
    | some v => exact (detect_by_vendor_none_iff v).2 h
  cases product with
  | none =>
    simp [detect_laptop_vendor, hv, gaming_product]
  | some p =>
    by_cases hp : detect_by_product p = true
    · have hg : gaming_product (some p) := (detect_by_product_iff p).1 hp
      simp [detect_laptop_vendor, hv, hp, hg]
    · have hg : ¬ gaming_product (some p) := fun hf => hp ((detect_by_product_iff p).2 hf)
      simp [detect_laptop_vendor, hv, hp, hg]

/-- The scenario of the specification: an unknown vendor with a business
product name is classified `VENDOR_UNKNOWN`. -/
theorem detect_laptop_vendor_no_vendor_match_witness :
    no_vendor_match (some "Unknown Corp") ∧
    ¬ gaming_product (some "Business Laptop") ∧
    (detect_laptop_vendor { sys_vendor := some "Unknown Corp",
                            product_name := some "Business Laptop" } kzalloc_armoury).1
      = VENDOR_UNKNOWN :=
  ⟨by decide, by decide,
   (detect_laptop_vendor_no_vendor_match (some "Unknown Corp") (some "Business Laptop")
      kzalloc_armoury (by decide)).2 (by decide)⟩

/-! ## The gateway and the toggle callbacks, unfolded once -/

/-- With a device and a method name the gateway issues exactly one firmware
call, recorded at the end of the trace. -/
theorem evaluate_method_hist (fw : Firmware) (hist : List AcpiCall) (dev : acpi_device)
    (name : String) (arg : Nat) (has_result : Bool) :
    (universal_armoury_acpi_evaluate_method fw hist (some dev) (some name) arg has_result).hist
      = hist ++ [{ handle := dev.handle, method := name, arg := arg }] := by
  simp only [universal_armoury_acpi_evaluate_method]
  split_ifs <;> (try split) <;> (try split_ifs) <;> rfl

/-- A successful gateway call with a result slot stores a 32-bit value. -/
theorem evaluate_method_result (fw : Firmware) (hist : List AcpiCall)
    (adev : Option acpi_device) (name : Option String) (arg : Nat)
    (h : (universal_armoury_acpi_evaluate_method fw hist adev name arg true).ret = 0) :
    ∃ v, v < 2 ^ 32 ∧
      (universal_armoury_acpi_evaluate_method fw hist adev name arg true).result = some v := by
  cases adev with
  | none => simp [universal_armoury_acpi_evaluate_method, EINVAL] at h
  | some dev =>
    cases name with
    | none => simp [universal_armoury_acpi_evaluate_method, EINVAL] at h
    | some nm =>
      simp only [universal_armoury_acpi_evaluate_method] at h ⊢
      generalize fw hist { handle := dev.handle, method := nm, arg := arg } = reply at h ⊢
      obtain ⟨status, pointer⟩ := reply
      by_cases h1 : status = AE_OK
      · cases pointer with
        | none => simp [h1, ENODATA] at h
        | some obj =>
          by_cases h2 : obj.type = ACPI_TYPE_INTEGER
          · exact ⟨obj.value % 2 ^ 32, Nat.mod_lt _ (by norm_num), by simp [h1, h2]⟩
          · simp [h1, h2, EPROTO] at h
      · simp [h1, EIO] at h

/-- The gateway returns 0 or a negative errno. -/
theorem evaluate_method_ret_nonpos (fw : Firmware) (hist : List AcpiCall)
    (adev : Option acpi_device) (name : Option String) (arg : Nat) (has_result : Bool) :
    (universal_armoury_acpi_evaluate_method fw hist adev name arg has_result).ret ≤ 0 := by
  unfold universal_armoury_acpi_evaluate_method
  split
  · dsimp only
    split_ifs
    · split
      · split_ifs <;> simp [EPROTO]
      · simp [ENODATA]
    · simp [ENODATA, EIO]
  · simp [EINVAL]

/-- The gateway returns 0 exactly when it had a device and a name and the
firmware call succeeded with an integer object. -/
theorem evaluate_method_ret_zero_iff (fw : Firmware) (hist : List AcpiCall)
    (adev : Option acpi_device) (name : Option String) (arg : Nat) (has_result : Bool) :
    (universal_armoury_acpi_evaluate_method fw hist adev name arg has_result).ret = 0 ↔
      ∃ dev nm, adev = some dev ∧ name = some nm ∧
        reply_ok (fw hist { handle := dev.handle, method := nm, arg := arg }) = true := by
  cases adev with
  | none => simp [universal_armoury_acpi_evaluate_method, EINVAL]
  | some dev =>
    cases name with
    | none => simp [universal_armoury_acpi_evaluate_method, EINVAL]
    | some nm =>
      simp only [universal_armoury_acpi_evaluate_method, reply_ok, Option.some.injEq,
        exists_and_left, exists_eq_left']
      generalize fw hist { handle := dev.handle, method := nm, arg := arg } = reply
      obtain ⟨status, pointer⟩ := reply
      by_cases h1 : status = AE_OK
      · cases pointer with
        | none => simp [h1, ENODATA]
        | some obj =>
          by_cases h2 : obj.type = ACPI_TYPE_INTEGER
          · cases has_result <;> simp [h1, h2]
          · simp [h1, h2, EPROTO]
      · simp [h1, EIO]

/-- The gateway on a successful integer reply with a result slot. -/
theorem evaluate_method_integer (fw : Firmware) (hist : List AcpiCall) (dev : acpi_device)
    (nm : String) (arg value : Nat)
    (h : fw hist { handle := dev.handle, method := nm, arg := arg }
      = { status := AE_OK, pointer := some { type := ACPI_TYPE_INTEGER, value := value } }) :
    universal_armoury_acpi_evaluate_method fw hist (some dev) (some nm) arg true
      = { ret := 0, result := some (value % 2 ^ 32),
          hist := hist ++ [{ handle := dev.handle, method := nm, arg := arg }] } := by
  simp [universal_armoury_acpi_evaluate_method, h]

/-- The gateway with a result slot, on a successful integer reply. -/
theorem evaluate_method_ok (fw : Firmware) (hist : List AcpiCall) (dev : acpi_device)
    (m : String) (h : reply_ok (fw hist (get_call dev m)) = true) :
    universal_armoury_acpi_evaluate_method fw hist (some dev) (some m) 0 true =
      { ret := 0, result := some (reply_value (fw hist (get_call dev m))),
        hist := hist ++ [get_call dev m] } := by
  simp only [universal_armoury_acpi_evaluate_method, reply_ok, reply_value, get_call] at h ⊢
  rcases hrep : fw hist { handle := dev.handle, method := m, arg := 0 } with ⟨status, pointer⟩
  simp only [hrep] at h
  cases pointer with
  | none => simp at h
  | some obj =>
    simp only [Bool.and_eq_true, decide_eq_true_eq] at h
    simp [h.1, h.2]

theorem evaluate_method_fail (fw : Firmware) (hist : List AcpiCall) (dev : acpi_device)
    (m : String) (h : reply_ok (fw hist (get_call dev m)) = false) :
    (universal_armoury_acpi_evaluate_method fw hist (some dev) (some m) 0 true).ret ≠ 0 := by
  intro h0
  obtain ⟨d, nm, hd, hn, hok⟩ := (evaluate_method_ret_zero_iff fw hist _ _ 0 true).1 h0
  cases hd; cases hn
  simp only [get_call] at h
  rw [h] at hok
  exact Bool.false_ne_true hok

/-- A supported toggle with a bound get-method: what `show` does. -/
theorem toggle_show_eq (t : Toggle) (a : universal_armoury) (fw : Firmware)
    (hist : List AcpiCall) (m : String)
    (hs : t.supported a = true) (hm : t.get_method a = some m) :
    t.show fw hist (some a) =
      if (universal_armoury_acpi_evaluate_method fw hist a.acpi_dev (some m) 0 true).ret ≠ 0 then
        { ret := (universal_armoury_acpi_evaluate_method fw hist a.acpi_dev (some m) 0 true).ret,
          page := "", armoury := some a,
          hist := (universal_armoury_acpi_evaluate_method fw hist a.acpi_dev (some m) 0 true).hist }
      else
        { ret := ((scnprintf PAGE_SIZE (fmt_d (u32_to_int
            ((universal_armoury_acpi_evaluate_method fw hist a.acpi_dev (some m) 0 true).result.getD 0))
              ++ "\n")).length : Int),
          page := scnprintf PAGE_SIZE (fmt_d (u32_to_int
            ((universal_armoury_acpi_evaluate_method fw hist a.acpi_dev (some m) 0 true).result.getD 0))
              ++ "\n"),
          armoury := some (t.with_state a (u32_to_int
            ((universal_armoury_acpi_evaluate_method fw hist a.acpi_dev (some m) 0 true).result.getD 0))),
          hist := (universal_armoury_acpi_evaluate_method fw hist a.acpi_dev (some m) 0 true).hist } := by
  cases t <;>
    simp only [Toggle.supported, Toggle.get_method] at hs hm <;>
    simp [Toggle.show, Toggle.with_state, gpu_mux_show, dgpu_disable_show, egpu_enable_show, hs, hm]

/-- A supported toggle with a bound set-method, a non-empty write whose text
parses: what `store` does. -/
theorem toggle_store_eq (t : Toggle) (a : universal_armoury) (fw : Firmware)
    (hist : List AcpiCall) (m text : String) (count : Nat) (value : Int)
    (hs : t.supported a = true) (hm : t.set_method a = some m) (hc : count ≠ 0)
    (hp : kstrtoint text 10 = Except.ok value) :
    t.store fw hist (some a) (some text) count =
      if value < 0 ∨ value > 1 then
        { ret := -EINVAL, page := "", armoury := some a, hist := hist }
      else if (universal_armoury_acpi_evaluate_method fw hist a.acpi_dev (some m)
          value.toNat false).ret ≠ 0 then
        { ret := (universal_armoury_acpi_evaluate_method fw hist a.acpi_dev (some m)
            value.toNat false).ret,
          page := "", armoury := some a,
          hist := (universal_armoury_acpi_evaluate_method fw hist a.acpi_dev (some m)
            value.toNat false).hist }
      else
        { ret := size_to_ssize count, page := "", armoury := some (t.with_state a value),
          hist := (universal_armoury_acpi_evaluate_method fw hist a.acpi_dev (some m)
            value.toNat false).hist } := by
  cases t <;>
    simp only [Toggle.supported, Toggle.set_method] at hs hm <;>
    simp [Toggle.store, Toggle.with_state, gpu_mux_store, dgpu_disable_store, egpu_enable_store,
      hs, hm, hc, hp]

/-! ## Unsupported toggles -/

/-- With the supported flag false both callbacks stop at the first guard. -/
theorem toggle_guard_enodev (t : Toggle) (a : universal_armoury) (fw : Firmware)
    (hist : List AcpiCall) (buf : Option String) (count : Nat)
    (h : t.supported a = false) :
    t.show fw hist (some a) = { ret := -ENODEV, page := "", armoury := some a, hist := hist } ∧
    t.store fw hist (some a) buf count
      = { ret := -ENODEV, page := "", armoury := some a, hist := hist } := by
  cases t <;> simp only [Toggle.supported] at h <;>
    simp [Toggle.show, Toggle.store, gpu_mux_show, dgpu_disable_show, egpu_enable_show,
      gpu_mux_store, dgpu_disable_store, egpu_enable_store, h, ENODEV]

/-- C3: for each of the three toggles, when its supported flag is false every
read and every write returns `-ENODEV`, whatever the written text and length
and whatever the firmware would answer; the device structure is unchanged and
no firmware call is issued. -/
theorem unsupported_toggle_enodev (t : Toggle) (a : universal_armoury) (fw : Firmware)
    (hist : List AcpiCall) (buf : Option String) (count : Nat)
    (h : t.supported a = false) :
    t.show fw hist (some a) = { ret := -ENODEV, page := "", armoury := some a, hist := hist } ∧
    t.store fw hist (some a) buf count
      = { ret := -ENODEV, page := "", armoury := some a, hist := hist } := by
  cases t
  · have hf : a.gpu_mux_supported = false := h
    simp [Toggle.show, Toggle.store, gpu_mux_show, gpu_mux_store, hf]
  · have hf : a.dgpu_disable_supported = false := h
    simp [Toggle.show, Toggle.store, dgpu_disable_show, dgpu_disable_store, hf]
  · have hf : a.egpu_supported = false := h
    simp [Toggle.show, Toggle.store, egpu_enable_show, egpu_enable_store, hf]

/-- A freshly zeroed device: reading and writing `gpu_mux` both give `-ENODEV`
even with firmware that answers every call. -/
theorem unsupported_toggle_enodev_witness :
    Toggle.gpu_mux.supported kzalloc_armoury = false ∧
    (Toggle.gpu_mux.show (const_firmware 1) [] (some kzalloc_armoury)).ret = -ENODEV ∧
    (Toggle.gpu_mux.store (const_firmware 1) [] (some kzalloc_armoury) (some "1") 1).ret
      = -ENODEV :=
  ⟨rfl,
   congrArg SysfsResult.ret
     (unsupported_toggle_enodev Toggle.gpu_mux kzalloc_armoury (const_firmware 1) []
       (some "1") 1 rfl).1,
   congrArg SysfsResult.ret
     (unsupported_toggle_enodev Toggle.gpu_mux kzalloc_armoury (const_firmware 1) []
       (some "1") 1 rfl).2⟩

/-! ## Writes -/

/-- C4 as amended: for a supported toggle (flag set, set-method bound), every
written text that `kstrtoint` parses to an `int` other than 0 and 1 makes
`store` return `-EINVAL` with the device structure, hence the cached value,
unchanged and no firmware call issued; every `int` other than 0 and 1,
negative ones included, written in decimal is such a text.  An integer that
does not fit an `int`, written in decimal, is rejected by the parser instead:
the write returns `-ERANGE` (`-EINVAL` when the length is 0), again with the
device structure unchanged and no firmware call. -/
theorem store_out_of_range (t : Toggle) (a : universal_armoury) (fw : Firmware)
    (hist : List AcpiCall) (m : String) (count : Nat)
    (hs : t.supported a = true) (hm : t.set_method a = some m) :
    (∀ (text : String) (value : Int),
      kstrtoint text 10 = Except.ok value → value ≠ 0 → value ≠ 1 →
      t.store fw hist (some a) (some text) count
        = { ret := -EINVAL, page := "", armoury := some a, hist := hist } ∧
      ((t.store fw hist (some a) (some text) count).armoury.map t.state) = some (t.state a)) ∧
    (∀ value : Int, -(2 ^ 31) ≤ value → value < 2 ^ 31 → value ≠ 0 → value ≠ 1 →
      t.store fw hist (some a) (some (fmt_d value)) count
        = { ret := -EINVAL, page := "", armoury := some a, hist := hist }) ∧
    (∀ value : Int, value < -(2 ^ 31) ∨ 2 ^ 31 ≤ value →
      t.store fw hist (some a) (some (fmt_d value)) count
        = { ret := if count = 0 then -EINVAL else -ERANGE, page := "", armoury := some a,
            hist := hist } ∧
      ((t.store fw hist (some a) (some (fmt_d value)) count).armoury.map t.state)
        = some (t.state a)) := by
  have key : ∀ (text : String) (value : Int),
      kstrtoint text 10 = Except.ok value → value ≠ 0 → value ≠ 1 →
      t.store fw hist (some a) (some text) count
        = { ret := -EINVAL, page := "", armoury := some a, hist := hist } := by
    intro text value hp h0 h1
    have hr : value < 0 ∨ value > 1 := by omega
    by_cases hc : count = 0
    · cases t <;> simp only [Toggle.supported, Toggle.set_method] at hs hm <;>
        simp [Toggle.store, gpu_mux_store, dgpu_disable_store, egpu_enable_store, hs, hm, hc]
    · rw [toggle_store_eq t a fw hist m text count value hs hm hc hp, if_pos hr]
  have wide : ∀ value : Int, value < -(2 ^ 31) ∨ 2 ^ 31 ≤ value →
      t.store fw hist (some a) (some (fmt_d value)) count
        = { ret := if count = 0 then -EINVAL else -ERANGE, page := "", armoury := some a,
            hist := hist } := by
    intro value hout
    have hp := kstrtoint_fmt_d_range value hout
    by_cases hc : count = 0
    · rw [if_pos hc]
      cases t <;> simp only [Toggle.supported, Toggle.set_method] at hs hm <;>
        simp [Toggle.store, gpu_mux_store, dgpu_disable_store, egpu_enable_store, hs, hm, hc]
    · rw [if_neg hc]
      cases t <;> simp only [Toggle.supported, Toggle.set_method] at hs hm <;>
        simp [Toggle.store, gpu_mux_store, dgpu_disable_store, egpu_enable_store, hs, hm, hc, hp]
  refine ⟨fun text value hp h0 h1 => ⟨key text value hp h0 h1, ?_⟩,
    fun value hlo hhi h0 h1 => ?_, fun value hout => ⟨wide value hout, ?_⟩⟩
  · rw [key text value hp h0 h1]; rfl
  · exact key (fmt_d value) value (kstrtoint_fmt_d value hlo hhi) h0 h1
  · rw [wide value hout]; rfl

/-- The scenario of the specification: writing "2" to a supported
`dgpu_disable` fails with `-EINVAL` and leaves the cached value alone; so does
writing "-5"; writing 2147483648 fails with `-ERANGE`. -/
theorem store_out_of_range_witness :
    kstrtoint "2" 10 = Except.ok 2 ∧
    (Toggle.dgpu_disable.store (const_firmware 0) [] (some dgpu_armoury) (some "2") 1).ret
      = -EINVAL ∧
    ((Toggle.dgpu_disable.store (const_firmware 0) [] (some dgpu_armoury)
      (some "2") 1).armoury.map Toggle.dgpu_disable.state) = some 1 ∧
    fmt_d (-5) = "-5" ∧
    (Toggle.dgpu_disable.store (const_firmware 0) [] (some dgpu_armoury)
      (some (fmt_d (-5))) 2).ret = -EINVAL ∧
    (Toggle.dgpu_disable.store (const_firmware 0) [] (some dgpu_armoury)
      (some (fmt_d 2147483648)) 10).ret = -ERANGE :=
  ⟨rfl,
   congrArg SysfsResult.ret
     ((store_out_of_range Toggle.dgpu_disable dgpu_armoury (const_firmware 0) [] "SDGP" 1
       rfl rfl).1 "2" 2 rfl (by decide) (by decide)).1,
   ((store_out_of_range Toggle.dgpu_disable dgpu_armoury (const_firmware 0) [] "SDGP" 1
       rfl rfl).1 "2" 2 rfl (by decide) (by decide)).2,
   by decide,
   congrArg SysfsResult.ret
     ((store_out_of_range Toggle.dgpu_disable dgpu_armoury (const_firmware 0) [] "SDGP" 2
       rfl rfl).2.1 (-5) (by decide) (by decide) (by decide) (by decide)),
   congrArg SysfsResult.ret
     ((store_out_of_range Toggle.dgpu_disable dgpu_armoury (const_firmware 0) [] "SDGP" 10
       rfl rfl).2.2 2147483648 (Or.inr (by decide))).1⟩

/-- C4 as stated fails: 2147483648 is an integer other than 0 and 1, yet
writing it to the supported `dgpu_disable` returns `-ERANGE`, which is not
`-EINVAL`; so does writing -2147483649. -/
theorem store_int_overflow_counterexample :
    fmt_d 2147483648 = "2147483648" ∧
    Toggle.dgpu_disable.supported dgpu_armoury = true ∧
    Toggle.dgpu_disable.store (const_firmware 0) [] (some dgpu_armoury) (some "2147483648") 10
      = { ret := -ERANGE, page := "", armoury := some dgpu_armoury, hist := [] } ∧
    (Toggle.dgpu_disable.store (const_firmware 0) [] (some dgpu_armoury)
      (some "-2147483649") 11).ret = -ERANGE ∧
    -ERANGE ≠ -EINVAL := by
  refine ⟨by decide, rfl, by decide, by decide, by decide⟩

theorem size_to_ssize_small (n : Nat) (h : n < 2 ^ 63) : size_to_ssize n = (n : Int) := by
  have h1 : n % 2 ^ 64 = n := Nat.mod_eq_of_lt (by omega)
  unfold size_to_ssize
  rw [h1, if_pos h]

/-- C5: for a supported toggle (flag set, set-method bound) and a non-empty
write whose text parses to `v` in {0, 1}, `store` makes one gateway call with
the bound set-method and argument `v`; when that call returns 0 the cached
value becomes `v` and `store` returns its `size_t count` as `ssize_t`, which
is the input length for every length below `2^63`; when the call fails `store`
returns the gateway's error code with the device structure unchanged. -/
theorem store_valid_value (t : Toggle) (a : universal_armoury) (fw : Firmware)
    (hist : List AcpiCall) (m text : String) (count : Nat) (value : Int)
    (hs : t.supported a = true) (hm : t.set_method a = some m) (hc : count ≠ 0)
    (hp : kstrtoint text 10 = Except.ok value) (hv : value = 0 ∨ value = 1) :
    ((universal_armoury_acpi_evaluate_method fw hist a.acpi_dev (some m) value.toNat false).ret = 0 →
      t.store fw hist (some a) (some text) count
        = { ret := size_to_ssize count, page := "", armoury := some (t.with_state a value),
            hist := (universal_armoury_acpi_evaluate_method fw hist a.acpi_dev (some m)
              value.toNat false).hist } ∧
      t.state (t.with_state a value) = value) ∧
    ((universal_armoury_acpi_evaluate_method fw hist a.acpi_dev (some m) value.toNat false).ret ≠ 0 →
      t.store fw hist (some a) (some text) count
        = { ret := (universal_armoury_acpi_evaluate_method fw hist a.acpi_dev (some m)
              value.toNat false).ret,
            page := "", armoury := some a,
            hist := (universal_armoury_acpi_evaluate_method fw hist a.acpi_dev (some m)
              value.toNat false).hist }) ∧
    (∀ dev, a.acpi_dev = some dev →
      (t.store fw hist (some a) (some text) count).hist
        = hist ++ [{ handle := dev.handle, method := m, arg := value.toNat }]) ∧
    (count < 2 ^ 63 → size_to_ssize count = (count : Int)) := by
  have hr : ¬ (value < 0 ∨ value > 1) := by omega
  rw [toggle_store_eq t a fw hist m text count value hs hm hc hp, if_neg hr]
  refine ⟨fun h0 => ⟨by simp [h0], by cases t <;> rfl⟩, fun h0 => by simp [h0], ?_,
    size_to_ssize_small count⟩
  intro dev hdev
  rw [hdev]
  split_ifs <;> exact evaluate_method_hist fw hist dev m value.toNat false

/-- A write of "1" (length 1) to `gpu_mux`: with firmware that accepts it the
cached value becomes 1 and the length 1 is returned; with dead firmware the
errno for I/O errors comes back and the device is unchanged. -/
theorem store_valid_value_witness :
    Toggle.gpu_mux.store (const_firmware 0) [] (some mux_armoury) (some "1") 1
      = { ret := size_to_ssize 1, page := "",
          armoury := some { mux_armoury with gpu_mux_state := 1 },
          hist := [{ handle := 7, method := "MXDM", arg := 1 }] } ∧
    size_to_ssize 1 = 1 ∧
    Toggle.gpu_mux.store dead_firmware [] (some mux_armoury) (some "1") 1
      = { ret := - EIO, page := "", armoury := some mux_armoury,
          hist := [{ handle := 7, method := "MXDM", arg := 1 }] } :=
  ⟨((store_valid_value Toggle.gpu_mux mux_armoury (const_firmware 0) [] "MXDM" "1" 1 1
      rfl rfl (by decide) rfl (Or.inr rfl)).1 (by decide)).1,
   (store_valid_value Toggle.gpu_mux mux_armoury (const_firmware 0) [] "MXDM" "1" 1 1
      rfl rfl (by decide) rfl (Or.inr rfl)).2.2.2 (by decide),
   (store_valid_value Toggle.gpu_mux mux_armoury dead_firmware [] "MXDM" "1" 1 1
      rfl rfl (by decide) rfl (Or.inr rfl)).2.1 (by decide)⟩

/-! ## Reads -/

/-- C6 as amended: for a supported toggle (flag set, get-method bound), `show`
makes one gateway call with the bound get-method and argument 0.  When the
call fails its error code is returned and the device structure is unchanged.
When it succeeds with the 32-bit value `r`, the cached value becomes `r`
converted to `int` and the page holds that `int` in decimal followed by a
newline, the return value being the length of the text: for `r` below `2^31`
this is `r` itself, cached and printed as the claim says; for `r` from `2^31`
on it is the negative number `r - 2^32`. -/
theorem show_reads_value (t : Toggle) (a : universal_armoury) (fw : Firmware)
    (hist : List AcpiCall) (m : String) (g : EvalResult)
    (hs : t.supported a = true) (hm : t.get_method a = some m)
    (hg : universal_armoury_acpi_evaluate_method fw hist a.acpi_dev (some m) 0 true = g) :
    (g.ret ≠ 0 →
      t.show fw hist (some a) = { ret := g.ret, page := "", armoury := some a, hist := g.hist }) ∧
    (g.ret = 0 → ∃ r, r < 2 ^ 32 ∧ g.result = some r ∧
      t.show fw hist (some a)
        = { ret := ((fmt_d (u32_to_int r) ++ "\n").length : Int),
            page := fmt_d (u32_to_int r) ++ "\n",
            armoury := some (t.with_state a (u32_to_int r)), hist := g.hist } ∧
      t.state (t.with_state a (u32_to_int r)) = u32_to_int r ∧
      (r < 2 ^ 31 → u32_to_int r = (r : Int) ∧ fmt_d (u32_to_int r) = Nat.repr r) ∧
      (2 ^ 31 ≤ r → u32_to_int r = (r : Int) - 2 ^ 32 ∧
        fmt_d (u32_to_int r) = "-" ++ Nat.repr (2 ^ 32 - r))) ∧
    (∀ dev, a.acpi_dev = some dev →
      (t.show fw hist (some a)).hist = hist ++ [{ handle := dev.handle, method := m, arg := 0 }]) := by
  subst hg
  rw [toggle_show_eq t a fw hist m hs hm]
  refine ⟨fun h0 => by simp [h0], fun h0 => ?_, ?_⟩
  · obtain ⟨r, hr, hres⟩ := evaluate_method_result fw hist a.acpi_dev (some m) 0 h0
    refine ⟨r, hr, hres, ?_, by cases t <;> rfl, fun hsmall => ?_, fun hlarge => ?_⟩
    · simp only [h0, ne_eq, not_true_eq_false, if_false, hres, Option.getD_some]
      rw [page_of_u32 r hr]
    · rw [u32_to_int_small r hsmall]
      exact ⟨rfl, fmt_d_natCast r⟩
    · rw [u32_to_int_large r hlarge hr, fmt_d_neg _ (by omega)]
      refine ⟨rfl, ?_⟩
      have : ((r : Int) - 2 ^ 32).natAbs = 2 ^ 32 - r := by omega
      rw [this]
  · intro dev hdev
    rw [hdev]
    split_ifs <;> exact evaluate_method_hist fw hist dev m 0 true

/-- Reading `gpu_mux` from firmware that reports 1, and from dead firmware. -/
theorem show_reads_value_witness :
    Toggle.gpu_mux.show (const_firmware 1) [] (some mux_armoury)
      = { ret := 2, page := "1\n", armoury := some { mux_armoury with gpu_mux_state := 1 },
          hist := [{ handle := 7, method := "MXDS", arg := 0 }] } ∧
    Toggle.gpu_mux.show dead_firmware [] (some mux_armoury)
      = { ret := - EIO, page := "", armoury := some mux_armoury,
          hist := [{ handle := 7, method := "MXDS", arg := 0 }] } :=
  ⟨by
     obtain ⟨r, _, hres, hshow, _⟩ :=
       (show_reads_value Toggle.gpu_mux mux_armoury (const_firmware 1) [] "MXDS" _
         rfl rfl rfl).2.1 (by decide)
     have hr : r = 1 := by
       have : some 1 = some r := hres
       injection this with h
       exact h.symm
     subst hr
     exact hshow,
   (show_reads_value Toggle.gpu_mux mux_armoury dead_firmware [] "MXDS" _
      rfl rfl rfl).1 (by decide)⟩

/-- C6 as stated fails: when the get-method delivers `4294967295`, `show`
caches `-1` and prints "-1", not the unsigned value. -/
theorem show_large_value_counterexample :
    (universal_armoury_acpi_evaluate_method (const_firmware 4294967295) []
        mux_armoury.acpi_dev (some "MXDS") 0 true).ret = 0 ∧
    (universal_armoury_acpi_evaluate_method (const_firmware 4294967295) []
        mux_armoury.acpi_dev (some "MXDS") 0 true).result = some 4294967295 ∧
    (Toggle.gpu_mux.show (const_firmware 4294967295) [] (some mux_armoury)).page = "-1\n" ∧
    (Toggle.gpu_mux.show (const_firmware 4294967295) [] (some mux_armoury)).page
      ≠ Nat.repr 4294967295 ++ "\n" ∧
    ((Toggle.gpu_mux.show (const_firmware 4294967295) [] (some mux_armoury)).armoury.map
      Toggle.gpu_mux.state) = some (-1) := by
  decide

/-! ## Read after write -/

/-- C7: for a supported toggle with both methods bound and `v` in {0, 1}, if a
write of `v` succeeds (returns the input length) and the firmware's get-method
reports the value last accepted by the paired set-method, then the read that
follows immediately returns the text of `v` and a newline and leaves the cached
value equal to `v`. -/
theorem read_after_write (t : Toggle) (a : universal_armoury) (fw : Firmware)
    (hist : List AcpiCall) (mg ms text : String) (count : Nat) (v : Int)
    (hs : t.supported a = true) (hg : t.get_method a = some mg)
    (hset : t.set_method a = some ms) (hc : count ≠ 0)
    (hp : kstrtoint text 10 = Except.ok v) (hv : v = 0 ∨ v = 1)
    (hecho : ∀ dev, a.acpi_dev = some dev → reads_back_last_write fw dev.handle mg ms)
    (hw : (t.store fw hist (some a) (some text) count).ret = (count : Int)) :
    (v = 0 → (t.show fw (t.store fw hist (some a) (some text) count).hist
        (t.store fw hist (some a) (some text) count).armoury).page = "0\n") ∧
    (v = 1 → (t.show fw (t.store fw hist (some a) (some text) count).hist
        (t.store fw hist (some a) (some text) count).armoury).page = "1\n") ∧
    (t.show fw (t.store fw hist (some a) (some text) count).hist
        (t.store fw hist (some a) (some text) count).armoury).ret = 2 ∧
    ((t.show fw (t.store fw hist (some a) (some text) count).hist
        (t.store fw hist (some a) (some text) count).armoury).armoury.map t.state) = some v ∧
    ((t.store fw hist (some a) (some text) count).armoury.map t.state) = some v := by
  have hr : ¬ (v < 0 ∨ v > 1) := by omega
  have hpos : (0 : Int) < (count : Int) := by omega
  rw [toggle_store_eq t a fw hist ms text count v hs hset hc hp, if_neg hr] at hw ⊢
  by_cases h0 : (universal_armoury_acpi_evaluate_method fw hist a.acpi_dev (some ms)
      v.toNat false).ret = 0
  · obtain ⟨dev, nm, hdev, hnm, hok⟩ :=
      (evaluate_method_ret_zero_iff fw hist a.acpi_dev (some ms) v.toNat false).1 h0
    cases hnm
    have hread := hecho dev hdev hist v.toNat hok
    have hs2 : t.supported (t.with_state a v) = true := by cases t <;> exact hs
    have hg2 : t.get_method (t.with_state a v) = some mg := by cases t <;> exact hg
    have hd2 : (t.with_state a v).acpi_dev = some dev := by cases t <;> exact hdev
    have hst : ∀ x y : Int, t.with_state (t.with_state a x) y = t.with_state a y := by
      intro x y; cases t <;> rfl
    have hget : ∀ x : Int, t.state (t.with_state a x) = x := by
      intro x; cases t <;> rfl
    simp only [h0, ne_eq, not_true_eq_false, if_false]
    rw [toggle_show_eq t (t.with_state a v) fw _ mg hs2 hg2, hd2, hdev,
      evaluate_method_hist fw hist dev ms v.toNat false,
      evaluate_method_integer fw _ dev mg 0 v.toNat hread]
    simp only [ne_eq, not_true_eq_false, if_false, Option.getD_some, Option.map_some', hst, hget]
    rcases hv with rfl | rfl
    · exact ⟨fun _ => by decide, fun h => absurd h (by decide), by decide, by decide, by decide⟩
    · exact ⟨fun h => absurd h (by decide), fun _ => by decide, by decide, by decide, by decide⟩
  · exfalso
    simp only [ne_eq, h0, not_false_eq_true, if_true] at hw
    have := evaluate_method_ret_nonpos fw hist a.acpi_dev (some ms) v.toNat false
    omega

theorem asus_mux_firmware_reads_back (handle : Nat) :
    reads_back_last_write asus_mux_firmware handle "MXDS" "MXDM" := by
  intro hist v _
  simp [asus_mux_firmware, List.reverse_append]

/-- The scenario of the specification: on the ASUS machine, attached with
`gpu_mux` probed at 1, a read gives "1", writing "0" succeeds and the next
read gives "0". -/
theorem read_after_write_witness :
    universal_armoury_add asus_dmi asus_mux_firmware [] { handle := 7 } true 0
      = { ret := 0, driver_data := some asus_attached, hist := asus_attach_calls } ∧
    Toggle.gpu_mux.show asus_mux_firmware asus_attach_calls (some asus_attached)
      = { ret := 2, page := "1\n", armoury := some asus_attached,
          hist := asus_attach_calls ++ [{ handle := 7, method := "MXDS", arg := 0 }] } ∧
    (Toggle.gpu_mux.store asus_mux_firmware
        (asus_attach_calls ++ [{ handle := 7, method := "MXDS", arg := 0 }])
        (some asus_attached) (some "0") 1).ret = 1 ∧
    (Toggle.gpu_mux.show asus_mux_firmware
      (Toggle.gpu_mux.store asus_mux_firmware
        (asus_attach_calls ++ [{ handle := 7, method := "MXDS", arg := 0 }])
        (some asus_attached) (some "0") 1).hist
      (Toggle.gpu_mux.store asus_mux_firmware
        (asus_attach_calls ++ [{ handle := 7, method := "MXDS", arg := 0 }])
        (some asus_attached) (some "0") 1).armoury).page = "0\n" :=
  have h1 : Toggle.gpu_mux.supported asus_attached = true := rfl
  have h2 : Toggle.gpu_mux.get_method asus_attached = some "MXDS" := rfl
  have h3 : Toggle.gpu_mux.set_method asus_attached = some "MXDM" := rfl
  have h4 : kstrtoint "0" 10 = Except.ok 0 := rfl
  have h5 : (Toggle.gpu_mux.store asus_mux_firmware
        (asus_attach_calls ++ [{ handle := 7, method := "MXDS", arg := 0 }])
        (some asus_attached) (some "0") 1).ret = ((1 : Nat) : Int) := by decide
  have h6 := read_after_write Toggle.gpu_mux asus_attached asus_mux_firmware
      (asus_attach_calls ++ [{ handle := 7, method := "MXDS", arg := 0 }])
      "MXDS" "MXDM" "0" 1 0 h1 h2 h3 (by decide) h4 (Or.inl rfl)
      (fun dev _ => asus_mux_firmware_reads_back dev.handle) h5
  have h7 := h6.1 rfl
  by
    refine ⟨?_, ?_, ?_, ?_⟩
    · decide
    · decide
    · decide
    · exact h7

/-! ## Probing -/

theorem probe_gpu_mux_eq (fw : Firmware) (a : universal_armoury) (hist : List AcpiCall)
    (dev : acpi_device) (hdev : a.acpi_dev = some dev) :
    probe_gpu_mux fw (a, hist) =
      ({ a with
         gpu_mux_supported :=
           a.gpu_mux_supported || binding_ok fw hist dev a.get_gpu_mux_method
         gpu_mux_state :=
           if binding_ok fw hist dev a.get_gpu_mux_method = true then
             u32_to_int (binding_value fw hist dev a.get_gpu_mux_method)
           else a.gpu_mux_state },
       hist ++ binding_calls dev a.get_gpu_mux_method) := by
  unfold probe_gpu_mux
  cases hm : a.get_gpu_mux_method with
  | none =>
    simp only [hm, binding_ok, binding_calls]
    cases a
    simp_all
  | some m =>
    simp only [hm, hdev, binding_ok, binding_value, binding_calls]
    by_cases hok : reply_ok (fw hist (get_call dev m)) = true
    · rw [evaluate_method_ok fw hist dev m hok]; simp [hok]
    · have hf := evaluate_method_fail fw hist dev m (by simpa using hok)
      rw [if_neg hf, evaluate_method_hist]
      cases a
      simp_all [get_call]

theorem probe_dgpu_disable_eq (fw : Firmware) (a : universal_armoury) (hist : List AcpiCall)
    (dev : acpi_device) (hdev : a.acpi_dev = some dev) :
    probe_dgpu_disable fw (a, hist) =
      ({ a with
         dgpu_disable_supported :=
           a.dgpu_disable_supported || binding_ok fw hist dev a.get_dgpu_disable_method
         dgpu_disable_state :=
           if binding_ok fw hist dev a.get_dgpu_disable_method = true then
             u32_to_int (binding_value fw hist dev a.get_dgpu_disable_method)
           else a.dgpu_disable_state },
       hist ++ binding_calls dev a.get_dgpu_disable_method) := by
  unfold probe_dgpu_disable
  cases hm : a.get_dgpu_disable_method with
  | none =>
    simp only [hm, binding_ok, binding_calls]
    cases a
    simp_all
  | some m =>
    simp only [hm, hdev, binding_ok, binding_value, binding_calls]
    by_cases hok : reply_ok (fw hist (get_call dev m)) = true
    · rw [evaluate_method_ok fw hist dev m hok]; simp [hok]
    · have hf := evaluate_method_fail fw hist dev m (by simpa using hok)
      rw [if_neg hf, evaluate_method_hist]
      cases a
      simp_all [get_call]

theorem probe_egpu_eq (fw : Firmware) (a : universal_armoury) (hist : List AcpiCall)
    (dev : acpi_device) (hdev : a.acpi_dev = some dev) :
    probe_egpu fw (a, hist) =
      ({ a with
         egpu_supported :=
           a.egpu_supported || binding_ok fw hist dev a.get_egpu_enable_method
         egpu_state :=
           if binding_ok fw hist dev a.get_egpu_enable_method = true then
             u32_to_int (binding_value fw hist dev a.get_egpu_enable_method)
           else a.egpu_state },
       hist ++ binding_calls dev a.get_egpu_enable_method) := by
  unfold probe_egpu
  cases hm : a.get_egpu_enable_method with
  | none =>
    simp only [hm, binding_ok, binding_calls]
    cases a
    simp_all
  | some m =>
    simp only [hm, hdev, binding_ok, binding_value, binding_calls]
    by_cases hok : reply_ok (fw hist (get_call dev m)) = true
    · rw [evaluate_method_ok fw hist dev m hok]; simp [hok]
    · have hf := evaluate_method_fail fw hist dev m (by simpa using hok)
      rw [if_neg hf, evaluate_method_hist]
      cases a
      simp_all [get_call]

/-- The three primary probes in closed form. -/
theorem probe_primary_eq (fw : Firmware) (a : universal_armoury) (hist : List AcpiCall)
    (dev : acpi_device) (hdev : a.acpi_dev = some dev) :
    probe_primary fw (a, hist) =
      ({ a with
         gpu_mux_supported := a.gpu_mux_supported || Toggle.gpu_mux.probe_ok fw hist a dev
         gpu_mux_state :=
           if Toggle.gpu_mux.probe_ok fw hist a dev = true then
             u32_to_int (Toggle.gpu_mux.probe_value fw hist a dev)
           else a.gpu_mux_state
         dgpu_disable_supported :=
           a.dgpu_disable_supported || Toggle.dgpu_disable.probe_ok fw hist a dev
         dgpu_disable_state :=
           if Toggle.dgpu_disable.probe_ok fw hist a dev = true then
             u32_to_int (Toggle.dgpu_disable.probe_value fw hist a dev)
           else a.dgpu_disable_state
         egpu_supported := a.egpu_supported || Toggle.egpu_enable.probe_ok fw hist a dev
         egpu_state :=
           if Toggle.egpu_enable.probe_ok fw hist a dev = true then
             u32_to_int (Toggle.egpu_enable.probe_value fw hist a dev)
           else a.egpu_state },
       hist ++ primary_calls a dev) := by
  unfold probe_primary
  rw [probe_gpu_mux_eq fw a hist dev hdev]
  generalize ha1 : ({ a with
         gpu_mux_supported :=
           a.gpu_mux_supported || binding_ok fw hist dev a.get_gpu_mux_method
         gpu_mux_state :=
           if binding_ok fw hist dev a.get_gpu_mux_method = true then
             u32_to_int (binding_value fw hist dev a.get_gpu_mux_method)
           else a.gpu_mux_state } : universal_armoury) = a1
  have hdev1 : a1.acpi_dev = some dev := by rw [← ha1]; exact hdev
  rw [probe_dgpu_disable_eq fw a1 _ dev hdev1]
  generalize ha2 : ({ a1 with
         dgpu_disable_supported :=
           a1.dgpu_disable_supported || binding_ok fw (hist ++ binding_calls dev a.get_gpu_mux_method)
             dev a1.get_dgpu_disable_method
         dgpu_disable_state :=
           if binding_ok fw (hist ++ binding_calls dev a.get_gpu_mux_method) dev
               a1.get_dgpu_disable_method = true then
             u32_to_int (binding_value fw (hist ++ binding_calls dev a.get_gpu_mux_method) dev
               a1.get_dgpu_disable_method)
           else a1.dgpu_disable_state } : universal_armoury) = a2
  have hdev2 : a2.acpi_dev = some dev := by rw [← ha2]; exact hdev1
  rw [probe_egpu_eq fw a2 _ dev hdev2]
  subst ha2
  subst ha1
  simp [Toggle.probe_ok, Toggle.probe_value, Toggle.calls_before, Toggle.get_method,
    primary_calls, List.append_assoc]

/-- C8 as amended: on a device with a handle and no toggle supported yet, the
primary phase issues one probe call (get-method, argument 0) per toggle that has
a binding, in the order gpu_mux, dgpu_disable, egpu_enable.  Whenever one of
these calls succeeds, probing issues no further call and ends with each toggle
supported exactly when it has a binding and its call succeeded; the cached
value of such a toggle is the returned value converted to `int`, which is the
returned value itself whenever that is below `2^31`. -/
theorem probe_primary_result (fw : Firmware) (hist : List AcpiCall) (a : universal_armoury)
    (dev : acpi_device) (hdev : a.acpi_dev = some dev)
    (hflags : ∀ t : Toggle, t.supported a = false) :
    (probe_primary fw (a, hist)).2 = hist ++ primary_calls a dev ∧
    ((∃ t : Toggle, t.probe_ok fw hist a dev = true) →
      (universal_armoury_probe_features fw hist a).2 = hist ++ primary_calls a dev ∧
      ∀ t : Toggle,
        t.supported (universal_armoury_probe_features fw hist a).1 = t.probe_ok fw hist a dev ∧
        (t.probe_ok fw hist a dev = true →
          t.state (universal_armoury_probe_features fw hist a).1
            = u32_to_int (t.probe_value fw hist a dev) ∧
          (t.probe_value fw hist a dev < 2 ^ 31 →
            t.state (universal_armoury_probe_features fw hist a).1
              = (t.probe_value fw hist a dev : Int)))) := by
  have h1 : a.gpu_mux_supported = false := hflags Toggle.gpu_mux
  have h2 : a.dgpu_disable_supported = false := hflags Toggle.dgpu_disable
  have h3 : a.egpu_supported = false := hflags Toggle.egpu_enable
  refine ⟨by rw [probe_primary_eq fw a hist dev hdev], ?_⟩
  rintro ⟨t0, ht0⟩
  have hnot : ¬ (Toggle.gpu_mux.probe_ok fw hist a dev = false ∧
      Toggle.dgpu_disable.probe_ok fw hist a dev = false ∧
      Toggle.egpu_enable.probe_ok fw hist a dev = false) := by
    rintro ⟨k1, k2, k3⟩
    cases t0
    · rw [k1] at ht0; exact Bool.false_ne_true ht0
    · rw [k2] at ht0; exact Bool.false_ne_true ht0
    · rw [k3] at ht0; exact Bool.false_ne_true ht0
  have hfinal : universal_armoury_probe_features fw hist a = probe_primary fw (a, hist) := by
    unfold universal_armoury_probe_features
    rw [probe_primary_eq fw a hist dev hdev]
    simp only [h1, h2, h3, Bool.false_or]
    rw [if_neg hnot]
  rw [hfinal, probe_primary_eq fw a hist dev hdev]
  refine ⟨rfl, fun t => ?_⟩
  cases t
  · refine ⟨by simp [Toggle.supported, h1], fun hok => ⟨?_, fun hlt => ?_⟩⟩
    · simp only [Toggle.state, hok, if_true]
    · simp only [Toggle.state, hok, if_true]; exact u32_to_int_small _ hlt
  · refine ⟨by simp [Toggle.supported, h2], fun hok => ⟨?_, fun hlt => ?_⟩⟩
    · simp only [Toggle.state, hok, if_true]
    · simp only [Toggle.state, hok, if_true]; exact u32_to_int_small _ hlt
  · refine ⟨by simp [Toggle.supported, h3], fun hok => ⟨?_, fun hlt => ?_⟩⟩
    · simp only [Toggle.state, hok, if_true]
    · simp only [Toggle.state, hok, if_true]; exact u32_to_int_small _ hlt

/-- The ASUS machine: the three primary probes are issued in order, only the
multiplexer answers, and it ends supported with cached value 1. -/
theorem probe_primary_result_witness :
    (universal_armoury_probe_features asus_mux_firmware [] asus_fresh).2 = asus_attach_calls ∧
    (universal_armoury_probe_features asus_mux_firmware [] asus_fresh).1.gpu_mux_supported = true ∧
    (universal_armoury_probe_features asus_mux_firmware [] asus_fresh).1.gpu_mux_state = 1 ∧
    (universal_armoury_probe_features asus_mux_firmware [] asus_fresh).1.dgpu_disable_supported
      = false ∧
    (universal_armoury_probe_features asus_mux_firmware [] asus_fresh).1.egpu_supported = false :=
  have h := (probe_primary_result asus_mux_firmware [] asus_fresh { handle := 7 } rfl
    (fun t => by cases t <;> rfl)).2 ⟨Toggle.gpu_mux, by decide⟩
  ⟨h.1, (h.2 Toggle.gpu_mux).1, ((h.2 Toggle.gpu_mux).2 (by decide)).2 (by decide),
   (h.2 Toggle.dgpu_disable).1, (h.2 Toggle.egpu_enable).1⟩

/-- C8 as stated fails: a probe call returning `4294967295` leaves the cached
value at `-1`. -/
theorem probe_large_value_counterexample :
    Toggle.gpu_mux.probe_ok (const_firmware 4294967295) [] asus_fresh { handle := 7 } = true ∧
    Toggle.gpu_mux.probe_value (const_firmware 4294967295) [] asus_fresh { handle := 7 }
      = 4294967295 ∧
    Toggle.gpu_mux.supported
      (universal_armoury_probe_features (const_firmware 4294967295) [] asus_fresh).1 = true ∧
    Toggle.gpu_mux.state
      (universal_armoury_probe_features (const_firmware 4294967295) [] asus_fresh).1 = -1 := by
  decide

/-! ## Fallback probing -/

theorem all_fail_tail (fw : Firmware) (hist : List AcpiCall) (dev : acpi_device)
    (name : String) (rest : List String) (h : all_fail fw hist dev (name :: rest)) :
    all_fail fw (hist ++ [get_call dev name]) dev rest := by
  intro before x after hsplit
  have := h (name :: before) x after (by rw [hsplit]; rfl)
  simpa [alt_calls, List.append_assoc] using this

theorem all_fail_head (fw : Firmware) (hist : List AcpiCall) (dev : acpi_device)
    (name : String) (rest : List String) (h : all_fail fw hist dev (name :: rest)) :
    reply_ok (fw hist (get_call dev name)) = false := by
  have := h [] name rest rfl
  simpa [alt_calls] using this

/-- When every alternative name fails, the loop tries them all and binds
nothing. -/
theorem probe_alt_methods_all_fail (fw : Firmware) (dev : acpi_device) (names : List String)
    (a : universal_armoury) (hist : List AcpiCall) (hdev : a.acpi_dev = some dev)
    (h : all_fail fw hist dev names) :
    probe_alt_methods fw names (a, hist) = (a, hist ++ alt_calls dev names) := by
  induction names generalizing hist with
  | nil => simp [probe_alt_methods, alt_calls]
  | cons name rest ih =>
    have hf := evaluate_method_fail fw hist dev name (all_fail_head fw hist dev name rest h)
    simp only [probe_alt_methods, hdev]
    rw [if_neg hf, evaluate_method_hist]
    change probe_alt_methods fw rest (a, hist ++ [get_call dev name]) = _
    rw [ih _ (all_fail_tail fw hist dev name rest h)]
    simp [alt_calls]

/-- The loop stops at the first alternative name that succeeds and binds that
name only. -/
theorem probe_alt_methods_first_ok (fw : Firmware) (dev : acpi_device)
    (pre : List String) (m : String) (post : List String)
    (a : universal_armoury) (hist : List AcpiCall) (hdev : a.acpi_dev = some dev)
    (hfail : all_fail fw hist dev pre)
    (hok : reply_ok (fw (hist ++ alt_calls dev pre) (get_call dev m)) = true) :
    probe_alt_methods fw (pre ++ m :: post) (a, hist)
      = (bind_alt_method m a, hist ++ alt_calls dev pre ++ [get_call dev m]) := by
  induction pre generalizing hist with
  | nil =>
    have hok2 : reply_ok (fw hist (get_call dev m)) = true := by simpa [alt_calls] using hok
    simp only [List.nil_append, probe_alt_methods, hdev]
    rw [evaluate_method_ok fw hist dev m hok2]
    simp [alt_calls]
  | cons name rest ih =>
    have hf := evaluate_method_fail fw hist dev name (all_fail_head fw hist dev name rest hfail)
    simp only [List.cons_append, probe_alt_methods, hdev]
    rw [if_neg hf, evaluate_method_hist]
    change probe_alt_methods fw (rest ++ m :: post) (a, hist ++ [get_call dev name]) = _
    rw [ih _ (all_fail_tail fw hist dev name rest hfail)
        (by simpa [alt_calls, List.append_assoc] using hok)]
    simp [alt_calls]

/-- When no primary probe succeeds on a device without supported toggles, the
primary phase changes nothing but the trace. -/
theorem probe_primary_none (fw : Firmware) (hist : List AcpiCall) (a : universal_armoury)
    (dev : acpi_device) (hdev : a.acpi_dev = some dev)
    (hflags : ∀ t : Toggle, t.supported a = false)
    (hprim : ∀ t : Toggle, t.probe_ok fw hist a dev = false) :
    probe_primary fw (a, hist) = (a, hist ++ primary_calls a dev) := by
  have h1 : a.gpu_mux_supported = false := hflags Toggle.gpu_mux
  have h2 : a.dgpu_disable_supported = false := hflags Toggle.dgpu_disable
  have h3 : a.egpu_supported = false := hflags Toggle.egpu_enable
  rw [probe_primary_eq fw a hist dev hdev, hprim Toggle.gpu_mux, hprim Toggle.dgpu_disable,
    hprim Toggle.egpu_enable]
  cases a
  simp_all

/-- With no primary success, probing is the fallback loop run after the
primary calls. -/
theorem probe_features_fallback (fw : Firmware) (hist : List AcpiCall) (a : universal_armoury)
    (dev : acpi_device) (hdev : a.acpi_dev = some dev)
    (hflags : ∀ t : Toggle, t.supported a = false)
    (hprim : ∀ t : Toggle, t.probe_ok fw hist a dev = false) :
    universal_armoury_probe_features fw hist a
      = probe_alt_methods fw alt_methods (a, hist ++ primary_calls a dev) := by
  have h1 : a.gpu_mux_supported = false := hflags Toggle.gpu_mux
  have h2 : a.dgpu_disable_supported = false := hflags Toggle.dgpu_disable
  have h3 : a.egpu_supported = false := hflags Toggle.egpu_enable
  unfold universal_armoury_probe_features
  rw [probe_primary_none fw hist a dev hdev hflags hprim]
  simp only [h1, h2, h3, and_self, if_true]

/-- C9: when no primary probe succeeded, probing tries the alternative names
GMUX, _GPU, DGPU, SGPU, MXDS, MXDM in that order with argument 0, stops at the
first name whose call succeeds, binds that name only and issues no call for any
later name; when all six fail nothing is bound.  In particular, if GMUX
succeeds then gpu_mux ends supported with get-method "GMUX", dgpu_disable is
not supported and _GPU is never called, whether or not it would succeed. -/
theorem fallback_first_success (fw : Firmware) (hist : List AcpiCall) (a : universal_armoury)
    (dev : acpi_device) (hdev : a.acpi_dev = some dev)
    (hflags : ∀ t : Toggle, t.supported a = false)
    (hprim : ∀ t : Toggle, t.probe_ok fw hist a dev = false) :
    alt_methods = ["GMUX", "_GPU", "DGPU", "SGPU", "MXDS", "MXDM"] ∧
    (∀ pre m post, alt_methods = pre ++ m :: post →
      all_fail fw (hist ++ primary_calls a dev) dev pre →
      reply_ok (fw (hist ++ primary_calls a dev ++ alt_calls dev pre) (get_call dev m)) = true →
      universal_armoury_probe_features fw hist a
        = (bind_alt_method m a,
           hist ++ primary_calls a dev ++ alt_calls dev pre ++ [get_call dev m])) ∧
    (all_fail fw (hist ++ primary_calls a dev) dev alt_methods →
      universal_armoury_probe_features fw hist a
        = (a, hist ++ primary_calls a dev ++ alt_calls dev alt_methods)) ∧
    (reply_ok (fw (hist ++ primary_calls a dev) (get_call dev "GMUX")) = true →
      (universal_armoury_probe_features fw hist a).1.gpu_mux_supported = true ∧
      (universal_armoury_probe_features fw hist a).1.get_gpu_mux_method = some "GMUX" ∧
      (universal_armoury_probe_features fw hist a).1.dgpu_disable_supported = false ∧
      (universal_armoury_probe_features fw hist a).2
        = hist ++ primary_calls a dev ++ [get_call dev "GMUX"]) := by
  have hfb := probe_features_fallback fw hist a dev hdev hflags hprim
  refine ⟨rfl, ?_, ?_, ?_⟩
  · intro pre m post hsplit hfail hok
    rw [hfb, hsplit]
    exact probe_alt_methods_first_ok fw dev pre m post a _ hdev hfail hok
  · intro hfail
    rw [hfb]
    exact probe_alt_methods_all_fail fw dev alt_methods a _ hdev hfail
  · intro hok
    have h2 : a.dgpu_disable_supported = false := hflags Toggle.dgpu_disable
    have hrun := probe_alt_methods_first_ok fw dev [] "GMUX"
      ["_GPU", "DGPU", "SGPU", "MXDS", "MXDM"] a (hist ++ primary_calls a dev) hdev
      (by intro before name after hsplit; cases before <;> simp at hsplit)
      (by simpa [alt_calls] using hok)
    have hbind : bind_alt_method "GMUX" a
        = { a with gpu_mux_supported := true, get_gpu_mux_method := some "GMUX" } := by
      have : (strstr "GMUX" "MUX" || strstr "GMUX" "MXD") = true := by decide
      simp only [bind_alt_method, this, if_true]
    rw [hfb]
    have hlist : alt_methods = [] ++ "GMUX" :: ["_GPU", "DGPU", "SGPU", "MXDS", "MXDM"] := rfl
    rw [hlist, hrun, hbind]
    exact ⟨rfl, rfl, h2, by simp [alt_calls]⟩

/-- A Dell machine whose firmware answers both "GMUX" and "_GPU": after the two
failed primary probes only "GMUX" is called and bound. -/
theorem fallback_first_success_witness :
    reply_ok (folklore_firmware [] (get_call { handle := 7 } "GMUX")) = true ∧
    reply_ok (folklore_firmware [] (get_call { handle := 7 } "_GPU")) = true ∧
    (universal_armoury_probe_features folklore_firmware [] dell_fresh).1.gpu_mux_supported
      = true ∧
    (universal_armoury_probe_features folklore_firmware [] dell_fresh).1.get_gpu_mux_method
      = some "GMUX" ∧
    (universal_armoury_probe_features folklore_firmware [] dell_fresh).1.dgpu_disable_supported
      = false ∧
    (universal_armoury_probe_features folklore_firmware [] dell_fresh).2
      = [ { handle := 7, method := "GFXS", arg := 0 },
          { handle := 7, method := "GDDS", arg := 0 },
          { handle := 7, method := "GMUX", arg := 0 } ] :=
  have h := (fallback_first_success folklore_firmware [] dell_fresh { handle := 7 } rfl
    (fun t => by cases t <;> rfl) (fun t => by cases t <;> decide)).2.2.2 (by decide)
  ⟨by decide, by decide, h.1, h.2.1, h.2.2.1, h.2.2.2⟩

/-! ## Attach with firmware that never answers -/

theorem detect_laptop_vendor_frame (dmi : Dmi) (dev : universal_armoury) :
    (detect_laptop_vendor dmi dev).2.acpi_dev = dev.acpi_dev ∧
    (detect_laptop_vendor dmi dev).2.gpu_mux_supported = dev.gpu_mux_supported ∧
    (detect_laptop_vendor dmi dev).2.dgpu_disable_supported = dev.dgpu_disable_supported ∧
    (detect_laptop_vendor dmi dev).2.egpu_supported = dev.egpu_supported := by
  obtain ⟨vendor, product⟩ := dmi
  unfold detect_laptop_vendor
  cases vendor <;> cases product <;> simp only [] <;> split <;> (try split) <;> simp

theorem set_vendor_acpi_methods_frame (dev : universal_armoury) :
    (set_vendor_acpi_methods dev).acpi_dev = dev.acpi_dev ∧
    (set_vendor_acpi_methods dev).gpu_mux_supported = dev.gpu_mux_supported ∧
    (set_vendor_acpi_methods dev).dgpu_disable_supported = dev.dgpu_disable_supported ∧
    (set_vendor_acpi_methods dev).egpu_supported = dev.egpu_supported := by
  unfold set_vendor_acpi_methods
  split <;> simp

theorem probe_ok_dead (fw : Firmware) (hdead : ∀ h c, reply_ok (fw h c) = false)
    (t : Toggle) (hist : List AcpiCall) (a : universal_armoury) (dev : acpi_device) :
    t.probe_ok fw hist a dev = false := by
  unfold Toggle.probe_ok binding_ok
  split
  · exact hdead _ _
  · rfl

/-- The driver data `universal_armoury_add` leaves behind when the allocation
succeeds. -/
theorem add_driver_data (dmi : Dmi) (fw : Firmware) (hist : List AcpiCall)
    (adev : acpi_device) (sysfs_ret : Int) :
    (universal_armoury_add dmi fw hist adev true sysfs_ret).driver_data
      = some (universal_armoury_probe_features fw hist
          (set_vendor_acpi_methods
            { (detect_laptop_vendor dmi { kzalloc_armoury with acpi_dev := some adev }).2 with
              vendor :=
                (detect_laptop_vendor dmi { kzalloc_armoury with acpi_dev := some adev }).1 })).1 := by
  unfold universal_armoury_add
  simp only [Bool.true_eq_false, if_false]
  split <;> rfl

/-- C10: whatever the identification strings, if every firmware call fails then
attaching leaves all three supported flags false, `supported_features` reads
exactly "gpu_mux:0 dgpu_disable:0 egpu_enable:0" with a newline, and every
read and every write of every toggle returns `-ENODEV`. -/
theorem attach_dead_firmware (dmi : Dmi) (fw : Firmware) (hist : List AcpiCall)
    (adev : acpi_device) (sysfs_ret : Int)
    (hdead : ∀ h c, reply_ok (fw h c) = false) :
    (∃ a, (universal_armoury_add dmi fw hist adev true sysfs_ret).driver_data = some a ∧
      a.gpu_mux_supported = false ∧ a.dgpu_disable_supported = false ∧
      a.egpu_supported = false) ∧
    supported_features_show (universal_armoury_add dmi fw hist adev true sysfs_ret).driver_data
      = (39, "gpu_mux:0 dgpu_disable:0 egpu_enable:0\n") ∧
    ∀ (t : Toggle) (fw2 : Firmware) (hist2 : List AcpiCall) (buf : Option String) (count : Nat),
      (t.show fw2 hist2
        (universal_armoury_add dmi fw hist adev true sysfs_ret).driver_data).ret = -ENODEV ∧
      (t.store fw2 hist2
        (universal_armoury_add dmi fw hist adev true sysfs_ret).driver_data buf count).ret
          = -ENODEV := by
  rw [add_driver_data]
  generalize hd : detect_laptop_vendor dmi { kzalloc_armoury with acpi_dev := some adev } = d
  have hframe := detect_laptop_vendor_frame dmi { kzalloc_armoury with acpi_dev := some adev }
  rw [hd] at hframe
  generalize ha2 : set_vendor_acpi_methods { d.2 with vendor := d.1 } = a2
  have hset := set_vendor_acpi_methods_frame { d.2 with vendor := d.1 }
  rw [ha2] at hset
  have hdev : a2.acpi_dev = some adev := by rw [hset.1]; exact hframe.1
  have h1 : a2.gpu_mux_supported = false := by rw [hset.2.1]; exact hframe.2.1
  have h2 : a2.dgpu_disable_supported = false := by rw [hset.2.2.1]; exact hframe.2.2.1
  have h3 : a2.egpu_supported = false := by rw [hset.2.2.2]; exact hframe.2.2.2
  have hflags : ∀ t : Toggle, t.supported a2 = false := by
    intro t; cases t
    · exact h1
    · exact h2
    · exact h3
  have hfinal : universal_armoury_probe_features fw hist a2
      = (a2, hist ++ primary_calls a2 adev ++ alt_calls adev alt_methods) := by
    rw [probe_features_fallback fw hist a2 adev hdev hflags
      (fun t => probe_ok_dead fw hdead t hist a2 adev)]
    exact probe_alt_methods_all_fail fw adev alt_methods a2 _ hdev (fun _ _ _ _ => hdead _ _)
  rw [hfinal]
  refine ⟨⟨a2, rfl, h1, h2, h3⟩, ?_, ?_⟩
  · simp only [supported_features_show, h1, h2, h3]
    decide
  · intro t fw2 hist2 buf count
    have h := toggle_guard_enodev t a2 fw2 hist2 buf count (hflags t)
    exact ⟨by rw [h.1], by rw [h.2]⟩

/-- The scenario of the specification: vendor "Unknown Corp", product "Business
Laptop", firmware that never answers. -/
theorem attach_dead_firmware_witness :
    ((universal_armoury_add unknown_dmi dead_firmware [] { handle := 7 } true 0).driver_data.map
      (fun a => a.vendor)) = some VENDOR_UNKNOWN ∧
    supported_features_show
      (universal_armoury_add unknown_dmi dead_firmware [] { handle := 7 } true 0).driver_data
      = (39, "gpu_mux:0 dgpu_disable:0 egpu_enable:0\n") ∧
    (Toggle.gpu_mux.store (const_firmware 1) []
      (universal_armoury_add unknown_dmi dead_firmware [] { handle := 7 } true 0).driver_data
      (some "1") 1).ret = -ENODEV :=
  have h := attach_dead_firmware unknown_dmi dead_firmware [] { handle := 7 } 0 (fun _ _ => rfl)
  ⟨by decide, h.2.1, (h.2.2 Toggle.gpu_mux (const_firmware 1) [] (some "1") 1).2⟩

/-! ## Supported toggles of an attached device have both methods bound -/

theorem set_vendor_acpi_methods_bound (dev : universal_armoury) :
    (set_vendor_acpi_methods dev).get_gpu_mux_method.isSome = true ∧
    (set_vendor_acpi_methods dev).set_gpu_mux_method.isSome = true ∧
    (set_vendor_acpi_methods dev).get_dgpu_disable_method.isSome = true ∧
    (set_vendor_acpi_methods dev).set_dgpu_disable_method.isSome = true ∧
    ((set_vendor_acpi_methods dev).get_egpu_enable_method.isSome = true →
      (set_vendor_acpi_methods dev).set_egpu_enable_method.isSome = true) := by
  unfold set_vendor_acpi_methods
  split <;> simp

theorem probe_alt_methods_cases (fw : Firmware) (names : List String)
    (s : universal_armoury × List AcpiCall) :
    (probe_alt_methods fw names s).1 = s.1 ∨
      ∃ m, (probe_alt_methods fw names s).1 = bind_alt_method m s.1 := by
  induction names generalizing s with
  | nil => exact Or.inl rfl
  | cons name rest ih =>
    unfold probe_alt_methods
    dsimp only
    split_ifs
    · exact Or.inr ⟨name, rfl⟩
    · exact ih _

theorem bind_alt_method_cases (m : String) (a : universal_armoury) :
    bind_alt_method m a = { a with gpu_mux_supported := true, get_gpu_mux_method := some m } ∨
    bind_alt_method m a
      = { a with dgpu_disable_supported := true, get_dgpu_disable_method := some m } ∨
    bind_alt_method m a = a := by
  unfold bind_alt_method
  split_ifs
  · exact Or.inl rfl
  · exact Or.inr (Or.inl rfl)
  · exact Or.inr (Or.inr rfl)

/-- After probing a device that has a handle, no supported toggle yet and the
dialect's methods bound, every supported toggle has a get-method and a
set-method. -/
theorem probe_features_bound (fw : Firmware) (hist : List AcpiCall) (a : universal_armoury)
    (dev : acpi_device) (hdev : a.acpi_dev = some dev)
    (hflags : ∀ t : Toggle, t.supported a = false)
    (hmux : a.get_gpu_mux_method.isSome = true ∧ a.set_gpu_mux_method.isSome = true)
    (hdgpu : a.get_dgpu_disable_method.isSome = true ∧ a.set_dgpu_disable_method.isSome = true)
    (hegpu : a.get_egpu_enable_method.isSome = true → a.set_egpu_enable_method.isSome = true)
    (t : Toggle)
    (hs : t.supported (universal_armoury_probe_features fw hist a).1 = true) :
    (t.get_method (universal_armoury_probe_features fw hist a).1).isSome = true ∧
    (t.set_method (universal_armoury_probe_features fw hist a).1).isSome = true := by
  have h1 : a.gpu_mux_supported = false := hflags Toggle.gpu_mux
  have h2 : a.dgpu_disable_supported = false := hflags Toggle.dgpu_disable
  have h3 : a.egpu_supported = false := hflags Toggle.egpu_enable
  by_cases hany : ∃ t0 : Toggle, t0.probe_ok fw hist a dev = true
  · obtain ⟨t0, ht0⟩ := hany
    have hnot : ¬ (Toggle.gpu_mux.probe_ok fw hist a dev = false ∧
        Toggle.dgpu_disable.probe_ok fw hist a dev = false ∧
        Toggle.egpu_enable.probe_ok fw hist a dev = false) := by
      rintro ⟨k1, k2, k3⟩
      cases t0
      · rw [k1] at ht0; exact Bool.false_ne_true ht0
      · rw [k2] at ht0; exact Bool.false_ne_true ht0
      · rw [k3] at ht0; exact Bool.false_ne_true ht0
    have hfinal : universal_armoury_probe_features fw hist a = probe_primary fw (a, hist) := by
      unfold universal_armoury_probe_features
      rw [probe_primary_eq fw a hist dev hdev]
      simp only [h1, h2, h3, Bool.false_or]
      rw [if_neg hnot]
    rw [hfinal, probe_primary_eq fw a hist dev hdev] at hs ⊢
    cases t
    · exact hmux
    · exact hdgpu
    · simp only [Toggle.supported, h3, Bool.false_or] at hs
      have hget : a.get_egpu_enable_method.isSome = true := by
        unfold Toggle.probe_ok binding_ok at hs
        simp only [Toggle.get_method] at hs
        cases hg : a.get_egpu_enable_method with
        | none => rw [hg] at hs; exact absurd hs Bool.false_ne_true
        | some m => rfl
      exact ⟨hget, hegpu hget⟩
  · have hprim : ∀ t0 : Toggle, t0.probe_ok fw hist a dev = false := by
      intro t0
      cases hp : t0.probe_ok fw hist a dev with
      | false => rfl
      | true => exact absurd ⟨t0, hp⟩ hany
    rw [probe_features_fallback fw hist a dev hdev hflags hprim] at hs ⊢
    rcases probe_alt_methods_cases fw alt_methods (a, hist ++ primary_calls a dev) with h | ⟨m, h⟩
    · rw [h] at hs
      rw [hflags t] at hs
      exact absurd hs Bool.false_ne_true
    · rw [h] at hs ⊢
      rcases bind_alt_method_cases m a with hb | hb | hb
      · rw [hb] at hs ⊢
        cases t
        · exact ⟨rfl, hmux.2⟩
        · exact absurd (hs.symm.trans h2) (by decide)
        · exact absurd (hs.symm.trans h3) (by decide)
      · rw [hb] at hs ⊢
        cases t
        · exact absurd (hs.symm.trans h1) (by decide)
        · exact ⟨rfl, hdgpu.2⟩
        · exact absurd (hs.symm.trans h3) (by decide)
      · rw [hb] at hs
        rw [hflags t] at hs
        exact absurd hs Bool.false_ne_true

/-- On every attached device a supported toggle has its get-method and its
set-method bound, so both guards of its callbacks pass. -/
theorem attach_supported_bound (dmi : Dmi) (fw : Firmware) (hist : List AcpiCall)
    (adev : acpi_device) (sysfs_ret : Int) (a : universal_armoury)
    (ha : (universal_armoury_add dmi fw hist adev true sysfs_ret).driver_data = some a)
    (t : Toggle) (hs : t.supported a = true) :
    (∃ mg, t.get_method a = some mg) ∧ (∃ ms, t.set_method a = some ms) := by
  rw [add_driver_data] at ha
  injection ha with ha
  subst ha
  have hd := detect_laptop_vendor_frame dmi { kzalloc_armoury with acpi_dev := some adev }
  have hset := set_vendor_acpi_methods_frame
    { (detect_laptop_vendor dmi { kzalloc_armoury with acpi_dev := some adev }).2 with
      vendor := (detect_laptop_vendor dmi { kzalloc_armoury with acpi_dev := some adev }).1 }
  have hb := set_vendor_acpi_methods_bound
    { (detect_laptop_vendor dmi { kzalloc_armoury with acpi_dev := some adev }).2 with
      vendor := (detect_laptop_vendor dmi { kzalloc_armoury with acpi_dev := some adev }).1 }
  have hflags : ∀ t0 : Toggle, t0.supported (set_vendor_acpi_methods
      { (detect_laptop_vendor dmi { kzalloc_armoury with acpi_dev := some adev }).2 with
        vendor := (detect_laptop_vendor dmi { kzalloc_armoury with acpi_dev := some adev }).1 })
      = false := by
    intro t0
    cases t0
    · exact hset.2.1.trans hd.2.1
    · exact hset.2.2.1.trans hd.2.2.1
    · exact hset.2.2.2.trans hd.2.2.2
  have h := probe_features_bound fw hist _ adev (hset.1.trans hd.1) hflags
    ⟨hb.1, hb.2.1⟩ ⟨hb.2.2.1, hb.2.2.2.1⟩ hb.2.2.2.2 t hs
  exact ⟨Option.isSome_iff_exists.1 h.1, Option.isSome_iff_exists.1 h.2⟩

/-! ## The dialect table -/

/-- C11 as amended: the binding set depends on the dialect only; the Unknown
and the GenericGaming dialect receive the same set (GMUX/SMUX, _GPU/SGPU, no
eGPU pair); that generic set differs from the sets of ASUS, MSI, Dell/Alienware
and Lenovo; HP and Acer have no set of their own and receive the generic
set. -/
theorem generic_bindings_shared :
    (∀ (dev : universal_armoury) (d : laptop_vendor),
      bindings (set_vendor_acpi_methods { dev with vendor := d }) = dialect_bindings d) ∧
    dialect_bindings VENDOR_UNKNOWN = dialect_bindings VENDOR_GENERIC ∧
    dialect_bindings VENDOR_GENERIC
      = [(some "GMUX", some "SMUX"), (some "_GPU", some "SGPU"), (none, none)] ∧
    dialect_bindings VENDOR_HP = dialect_bindings VENDOR_GENERIC ∧
    dialect_bindings VENDOR_ACER = dialect_bindings VENDOR_GENERIC ∧
    dialect_bindings VENDOR_ASUS ≠ dialect_bindings VENDOR_GENERIC ∧
    dialect_bindings VENDOR_MSI ≠ dialect_bindings VENDOR_GENERIC ∧
    dialect_bindings VENDOR_DELL_ALIENWARE ≠ dialect_bindings VENDOR_GENERIC ∧
    dialect_bindings VENDOR_LENOVO ≠ dialect_bindings VENDOR_GENERIC := by
  refine ⟨?_, by decide, by decide, by decide, by decide, by decide, by decide, by decide,
    by decide⟩
  intro dev d
  cases d <;> rfl

/-- C11 as stated fails: the HP and the Acer dialect receive exactly the
generic binding set. -/
theorem hp_acer_bindings_counterexample :
    bindings (set_vendor_acpi_methods { kzalloc_armoury with vendor := VENDOR_HP })
      = bindings (set_vendor_acpi_methods { kzalloc_armoury with vendor := VENDOR_GENERIC }) ∧
    bindings (set_vendor_acpi_methods { kzalloc_armoury with vendor := VENDOR_ACER })
      = bindings (set_vendor_acpi_methods { kzalloc_armoury with vendor := VENDOR_UNKNOWN }) := by
  decide

/-! ## What reads and writes leave alone -/

theorem with_state_self (t : Toggle) (a : universal_armoury) : t.with_state a (t.state a) = a := by
  cases t <;> cases a <;> rfl

theorem with_state_frame (t : Toggle) (a : universal_armoury) (v : Int) :
    frame_preserved t a (t.with_state a v) := by
  refine ⟨?_, ?_, ?_, ?_, ?_, ?_, ?_, ?_, ?_, ?_, ?_, ?_, ?_, ?_⟩
  all_goals first
    | (cases t <;> rfl)
    | (intro u hu; cases t <;> cases u <;> first | rfl | exact absurd rfl hu)

/-- A read hands back the device structure with at most the cached value of
the addressed toggle replaced. -/
theorem toggle_show_state (t : Toggle) (fw : Firmware) (hist : List AcpiCall)
    (a : universal_armoury) :
    ∃ v, (t.show fw hist (some a)).armoury = some (t.with_state a v) := by
  cases t <;>
    simp only [Toggle.show, gpu_mux_show, dgpu_disable_show, egpu_enable_show] <;>
    (repeat' split) <;>
    first
      | exact ⟨_, congrArg some (with_state_self _ a).symm⟩
      | exact ⟨_, rfl⟩

/-- A write hands back the device structure with at most the cached value of
the addressed toggle replaced. -/
theorem toggle_store_state (t : Toggle) (fw : Firmware) (hist : List AcpiCall)
    (a : universal_armoury) (buf : Option String) (count : Nat) :
    ∃ v, (t.store fw hist (some a) buf count).armoury = some (t.with_state a v) := by
  cases t <;>
    simp only [Toggle.store, gpu_mux_store, dgpu_disable_store, egpu_enable_store] <;>
    (repeat' split) <;>
    first
      | exact ⟨_, congrArg some (with_state_self _ a).symm⟩
      | exact ⟨_, rfl⟩

/-- C19: every read and every write of a toggle, whatever its outcome, hands
back a device structure with the same dialect, vendor and product strings,
supported flags, six method names and ACPI device, and with the cached values
of the other two toggles unchanged; only the cached value of the addressed
toggle can differ. -/
theorem access_frame (t : Toggle) (fw : Firmware) (hist : List AcpiCall)
    (a : universal_armoury) (buf : Option String) (count : Nat) :
    (∃ b, (t.show fw hist (some a)).armoury = some b ∧ frame_preserved t a b ∧
      b = t.with_state a (t.state b)) ∧
    (∃ b, (t.store fw hist (some a) buf count).armoury = some b ∧ frame_preserved t a b ∧
      b = t.with_state a (t.state b)) := by
  have hst : ∀ v : Int, t.with_state a v = t.with_state a (t.state (t.with_state a v)) := by
    intro v; cases t <;> rfl
  constructor
  · obtain ⟨v, hv⟩ := toggle_show_state t fw hist a
    exact ⟨_, hv, with_state_frame t a v, hst v⟩
  · obtain ⟨v, hv⟩ := toggle_store_state t fw hist a buf count
    exact ⟨_, hv, with_state_frame t a v, hst v⟩

/-! ## Reachable device states -/

theorem config_preserved_refl (a : universal_armoury) : config_preserved a a :=
  ⟨rfl, rfl, rfl, rfl, rfl, rfl, rfl, rfl, rfl, rfl, rfl, rfl, rfl⟩

theorem config_preserved_trans (a b c : universal_armoury)
    (h1 : config_preserved a b) (h2 : config_preserved b c) : config_preserved a c := by
  obtain ⟨a1, a2, a3, a4, a5, a6, a7, a8, a9, a10, a11, a12, a13⟩ := h1
  obtain ⟨b1, b2, b3, b4, b5, b6, b7, b8, b9, b10, b11, b12, b13⟩ := h2
  exact ⟨b1.trans a1, b2.trans a2, b3.trans a3, b4.trans a4, b5.trans a5, b6.trans a6,
    b7.trans a7, b8.trans a8, b9.trans a9, b10.trans a10, b11.trans a11, b12.trans a12,
    b13.trans a13⟩

theorem with_state_config (t : Toggle) (a : universal_armoury) (v : Int) :
    config_preserved a (t.with_state a v) := by
  cases t <;> exact ⟨rfl, rfl, rfl, rfl, rfl, rfl, rfl, rfl, rfl, rfl, rfl, rfl, rfl⟩

/-- One access keeps the driver data present and its configuration fixed. -/
theorem access_run_config (fw : Firmware) (acc : Access) (a : universal_armoury)
    (hist : List AcpiCall) :
    ∃ b, (acc.run fw (some a, hist)).armoury = some b ∧ config_preserved a b := by
  cases acc with
  | read t =>
    obtain ⟨v, hv⟩ := toggle_show_state t fw hist a
    exact ⟨_, hv, with_state_config t a v⟩
  | write t buf count =>
    obtain ⟨v, hv⟩ := toggle_store_state t fw hist a buf count
    exact ⟨_, hv, with_state_config t a v⟩

/-- Any sequence of accesses keeps the driver data present and its
configuration fixed. -/
theorem run_accesses_config (fw : Firmware) (accs : List Access) (a : universal_armoury)
    (hist : List AcpiCall) :
    ∃ b h, run_accesses fw accs (some a, hist) = (some b, h) ∧ config_preserved a b := by
  induction accs generalizing a hist with
  | nil => exact ⟨a, hist, rfl, config_preserved_refl a⟩
  | cons acc rest ih =>
    obtain ⟨b, hb, hcfg⟩ := access_run_config fw acc a hist
    obtain ⟨c, h, hc, hcfg2⟩ := ih b (acc.run fw (some a, hist)).hist
    refine ⟨c, h, ?_, config_preserved_trans a b c hcfg hcfg2⟩
    simp only [run_accesses, hb]
    exact hc

theorem probe_gpu_mux_identity (fw : Firmware) (s : universal_armoury × List AcpiCall) :
    identity_preserved s.1 (probe_gpu_mux fw s).1 := by
  unfold probe_gpu_mux
  split
  · exact ⟨rfl, rfl, rfl, rfl, rfl, rfl, rfl⟩
  · dsimp only
    split_ifs <;> exact ⟨rfl, rfl, rfl, rfl, rfl, rfl, rfl⟩

theorem probe_dgpu_disable_identity (fw : Firmware) (s : universal_armoury × List AcpiCall) :
    identity_preserved s.1 (probe_dgpu_disable fw s).1 := by
  unfold probe_dgpu_disable
  split
  · exact ⟨rfl, rfl, rfl, rfl, rfl, rfl, rfl⟩
  · dsimp only
    split_ifs <;> exact ⟨rfl, rfl, rfl, rfl, rfl, rfl, rfl⟩

theorem probe_egpu_identity (fw : Firmware) (s : universal_armoury × List AcpiCall) :
    identity_preserved s.1 (probe_egpu fw s).1 := by
  unfold probe_egpu
  split
  · exact ⟨rfl, rfl, rfl, rfl, rfl, rfl, rfl⟩
  · dsimp only
    split_ifs <;> exact ⟨rfl, rfl, rfl, rfl, rfl, rfl, rfl⟩

theorem identity_preserved_trans (a b c : universal_armoury)
    (h1 : identity_preserved a b) (h2 : identity_preserved b c) : identity_preserved a c := by
  obtain ⟨a1, a2, a3, a4, a5, a6, a7⟩ := h1
  obtain ⟨b1, b2, b3, b4, b5, b6, b7⟩ := h2
  exact ⟨b1.trans a1, b2.trans a2, b3.trans a3, b4.trans a4, b5.trans a5, b6.trans a6,
    b7.trans a7⟩

theorem bind_alt_method_identity (m : String) (a : universal_armoury) :
    identity_preserved a (bind_alt_method m a) := by
  rcases bind_alt_method_cases m a with h | h | h <;> rw [h] <;>
    exact ⟨rfl, rfl, rfl, rfl, rfl, rfl, rfl⟩

theorem probe_alt_methods_identity (fw : Firmware) (names : List String)
    (s : universal_armoury × List AcpiCall) :
    identity_preserved s.1 (probe_alt_methods fw names s).1 := by
  rcases probe_alt_methods_cases fw names s with h | ⟨m, h⟩
  · rw [h]; exact ⟨rfl, rfl, rfl, rfl, rfl, rfl, rfl⟩
  · rw [h]; exact bind_alt_method_identity m s.1

/-- Probing leaves the ACPI device, the dialect, the identification strings
and the set-method names alone. -/
theorem probe_features_identity (fw : Firmware) (hist : List AcpiCall)
    (a : universal_armoury) :
    identity_preserved a (universal_armoury_probe_features fw hist a).1 := by
  have hp : identity_preserved a (probe_primary fw (a, hist)).1 := by
    unfold probe_primary
    exact identity_preserved_trans _ _ _
      (identity_preserved_trans _ _ _ (probe_gpu_mux_identity fw (a, hist))
        (probe_dgpu_disable_identity fw _))
      (probe_egpu_identity fw _)
  unfold universal_armoury_probe_features
  dsimp only
  split_ifs
  · exact identity_preserved_trans _ _ _ hp (probe_alt_methods_identity fw alt_methods _)
  · exact hp

theorem detect_laptop_vendor_names (dmi : Dmi) (dev : universal_armoury)
    (hv : dev.vendor_name = "") (hp : dev.product_name = "") :
    (detect_laptop_vendor dmi dev).2.vendor_name = identity_field dmi.sys_vendor 32 ∧
    (detect_laptop_vendor dmi dev).2.product_name = identity_field dmi.product_name 64 := by
  obtain ⟨vendor, product⟩ := dmi
  unfold detect_laptop_vendor identity_field
  cases vendor <;> cases product <;> simp only [] <;> split <;> (try split) <;> simp [hv, hp]

theorem set_vendor_acpi_methods_names (dev : universal_armoury) :
    (set_vendor_acpi_methods dev).vendor = dev.vendor ∧
    (set_vendor_acpi_methods dev).vendor_name = dev.vendor_name ∧
    (set_vendor_acpi_methods dev).product_name = dev.product_name := by
  unfold set_vendor_acpi_methods
  split <;> simp

/-- The device structure a successful allocation attaches: its ACPI device,
dialect and identification strings. -/
theorem add_identity (dmi : Dmi) (fw : Firmware) (hist : List AcpiCall)
    (adev : acpi_device) (sysfs_ret : Int) :
    ∃ a, (universal_armoury_add dmi fw hist adev true sysfs_ret).driver_data = some a ∧
      a.acpi_dev = some adev ∧
      a.vendor = (detect_laptop_vendor dmi { kzalloc_armoury with acpi_dev := some adev }).1 ∧
      a.vendor_name = identity_field dmi.sys_vendor 32 ∧
      a.product_name = identity_field dmi.product_name 64 := by
  refine ⟨_, add_driver_data dmi fw hist adev sysfs_ret, ?_, ?_, ?_, ?_⟩
  all_goals
    obtain ⟨i1, i2, i3, i4, _, _, _⟩ := probe_features_identity fw hist
      (set_vendor_acpi_methods
        { (detect_laptop_vendor dmi { kzalloc_armoury with acpi_dev := some adev }).2 with
          vendor := (detect_laptop_vendor dmi { kzalloc_armoury with acpi_dev := some adev }).1 })
    have hs := set_vendor_acpi_methods_names
        { (detect_laptop_vendor dmi { kzalloc_armoury with acpi_dev := some adev }).2 with
          vendor := (detect_laptop_vendor dmi { kzalloc_armoury with acpi_dev := some adev }).1 }
    have hf := set_vendor_acpi_methods_frame
        { (detect_laptop_vendor dmi { kzalloc_armoury with acpi_dev := some adev }).2 with
          vendor := (detect_laptop_vendor dmi { kzalloc_armoury with acpi_dev := some adev }).1 }
    have hd := detect_laptop_vendor_frame dmi { kzalloc_armoury with acpi_dev := some adev }
    have hn := detect_laptop_vendor_names dmi { kzalloc_armoury with acpi_dev := some adev }
      rfl rfl
  · rw [i1, hf.1]; exact hd.1
  · rw [i2, hs.1]
  · rw [i3, hs.2.1]; exact hn.1
  · rw [i4, hs.2.2]; exact hn.2

theorem probe_primary_get_methods (fw : Firmware) (s : universal_armoury × List AcpiCall) :
    (probe_primary fw s).1.get_gpu_mux_method = s.1.get_gpu_mux_method ∧
    (probe_primary fw s).1.get_dgpu_disable_method = s.1.get_dgpu_disable_method ∧
    (probe_primary fw s).1.get_egpu_enable_method = s.1.get_egpu_enable_method := by
  have h1 : ∀ s : universal_armoury × List AcpiCall,
      (probe_gpu_mux fw s).1.get_gpu_mux_method = s.1.get_gpu_mux_method ∧
      (probe_gpu_mux fw s).1.get_dgpu_disable_method = s.1.get_dgpu_disable_method ∧
      (probe_gpu_mux fw s).1.get_egpu_enable_method = s.1.get_egpu_enable_method := by
    intro s; unfold probe_gpu_mux
    split
    · exact ⟨rfl, rfl, rfl⟩
    · dsimp only; split_ifs <;> exact ⟨rfl, rfl, rfl⟩
  have h2 : ∀ s : universal_armoury × List AcpiCall,
      (probe_dgpu_disable fw s).1.get_gpu_mux_method = s.1.get_gpu_mux_method ∧
      (probe_dgpu_disable fw s).1.get_dgpu_disable_method = s.1.get_dgpu_disable_method ∧
      (probe_dgpu_disable fw s).1.get_egpu_enable_method = s.1.get_egpu_enable_method := by
    intro s; unfold probe_dgpu_disable
    split
    · exact ⟨rfl, rfl, rfl⟩
    · dsimp only; split_ifs <;> exact ⟨rfl, rfl, rfl⟩
  have h3 : ∀ s : universal_armoury × List AcpiCall,
      (probe_egpu fw s).1.get_gpu_mux_method = s.1.get_gpu_mux_method ∧
      (probe_egpu fw s).1.get_dgpu_disable_method = s.1.get_dgpu_disable_method ∧
      (probe_egpu fw s).1.get_egpu_enable_method = s.1.get_egpu_enable_method := by
    intro s; unfold probe_egpu
    split
    · exact ⟨rfl, rfl, rfl⟩
    · dsimp only; split_ifs <;> exact ⟨rfl, rfl, rfl⟩
  unfold probe_primary
  obtain ⟨a1, a2, a3⟩ := h1 s
  obtain ⟨b1, b2, b3⟩ := h2 (probe_gpu_mux fw s)
  obtain ⟨c1, c2, c3⟩ := h3 (probe_dgpu_disable fw (probe_gpu_mux fw s))
  exact ⟨c1.trans (b1.trans a1), c2.trans (b2.trans a2), c3.trans (b3.trans a3)⟩

/-- Probing never unbinds a get-method: the fallback can only replace the
gpu_mux or dgpu_disable get-method by another name. -/
theorem probe_features_get_bound (fw : Firmware) (hist : List AcpiCall)
    (a : universal_armoury)
    (h1 : a.get_gpu_mux_method.isSome = true) (h2 : a.get_dgpu_disable_method.isSome = true) :
    (universal_armoury_probe_features fw hist a).1.get_gpu_mux_method.isSome = true ∧
    (universal_armoury_probe_features fw hist a).1.get_dgpu_disable_method.isSome = true := by
  obtain ⟨p1, p2, _⟩ := probe_primary_get_methods fw (a, hist)
  have q1 : (probe_primary fw (a, hist)).1.get_gpu_mux_method.isSome = true := by
    rw [p1]; exact h1
  have q2 : (probe_primary fw (a, hist)).1.get_dgpu_disable_method.isSome = true := by
    rw [p2]; exact h2
  unfold universal_armoury_probe_features
  dsimp only
  split_ifs
  · rcases probe_alt_methods_cases fw alt_methods (probe_primary fw (a, hist)) with h | ⟨m, h⟩
    · rw [h]; exact ⟨q1, q2⟩
    · rw [h]
      rcases bind_alt_method_cases m (probe_primary fw (a, hist)).1 with hb | hb | hb <;> rw [hb]
      · exact ⟨rfl, q2⟩
      · exact ⟨q1, rfl⟩
      · exact ⟨q1, q2⟩
  · exact ⟨q1, q2⟩

/-- Every reachable device structure has the configuration of the structure
some attach produced. -/
theorem reachable_origin (a : universal_armoury) (hist : List AcpiCall)
    (hr : Reachable a hist) :
    ∃ (dmi : Dmi) (fw : Firmware) (hist0 : List AcpiCall) (adev : acpi_device)
      (a0 : universal_armoury),
      (universal_armoury_add dmi fw hist0 adev true 0).driver_data = some a0 ∧
      config_preserved a0 a := by
  obtain ⟨dmi, fw, hist0, adev, accs, h⟩ := hr
  obtain ⟨a0, ha0, _⟩ := add_identity dmi fw hist0 adev 0
  rw [ha0] at h
  obtain ⟨b, h2, hb, hcfg⟩ := run_accesses_config fw accs a0
    (universal_armoury_add dmi fw hist0 adev true 0).hist
  rw [hb] at h
  injection h with h3 _
  injection h3 with h4
  subst h4
  exact ⟨dmi, fw, hist0, adev, a0, ha0, hcfg⟩

/-- In every reachable state the device has its ACPI device, every supported
toggle has both methods bound, and gpu_mux and dgpu_disable have both methods
bound whether supported or not. -/
theorem reachable_well_formed (a : universal_armoury) (hist : List AcpiCall)
    (hr : Reachable a hist) :
    (∃ dev, a.acpi_dev = some dev) ∧
    (∀ t : Toggle, t.supported a = true →
      (∃ mg, t.get_method a = some mg) ∧ (∃ ms, t.set_method a = some ms)) ∧
    (∃ mg ms, a.get_gpu_mux_method = some mg ∧ a.set_gpu_mux_method = some ms) ∧
    (∃ mg ms, a.get_dgpu_disable_method = some mg ∧ a.set_dgpu_disable_method = some ms) := by
  obtain ⟨dmi, fw, hist0, adev, a0, ha0, hcfg⟩ := reachable_origin a hist hr
  obtain ⟨c1, _, _, _, c5, c6, c7, c8, c9, c10, c11, c12, c13⟩ := hcfg
  obtain ⟨a1, ha1, hdev, _⟩ := add_identity dmi fw hist0 adev 0
  have he : a1 = a0 := by
    rw [ha1] at ha0; injection ha0
  subst he
  refine ⟨⟨adev, c1.trans hdev⟩, ?_, ?_, ?_⟩
  · intro t hs
    have hs0 : t.supported a1 = true := by
      cases t
      · exact c5.symm.trans hs
      · exact c6.symm.trans hs
      · exact c7.symm.trans hs
    obtain ⟨⟨mg, hg⟩, ⟨ms, hm⟩⟩ := attach_supported_bound dmi fw hist0 adev 0 a1 ha1 t hs0
    cases t
    · exact ⟨⟨mg, c8.trans hg⟩, ⟨ms, c9.trans hm⟩⟩
    · exact ⟨⟨mg, c10.trans hg⟩, ⟨ms, c11.trans hm⟩⟩
    · exact ⟨⟨mg, c12.trans hg⟩, ⟨ms, c13.trans hm⟩⟩
  all_goals
    have hdd := add_driver_data dmi fw hist0 adev 0
    rw [ha1] at hdd
    injection hdd with hdd
    have hb := set_vendor_acpi_methods_bound
      { (detect_laptop_vendor dmi { kzalloc_armoury with acpi_dev := some adev }).2 with
        vendor := (detect_laptop_vendor dmi { kzalloc_armoury with acpi_dev := some adev }).1 }
    have hg := probe_features_get_bound fw hist0 _ hb.1 hb.2.2.1
    obtain ⟨_, _, _, _, s1, s2, _⟩ := probe_features_identity fw hist0
      (set_vendor_acpi_methods
        { (detect_laptop_vendor dmi { kzalloc_armoury with acpi_dev := some adev }).2 with
          vendor := (detect_laptop_vendor dmi { kzalloc_armoury with acpi_dev := some adev }).1 })
    rw [← hdd] at hg s1 s2
  · obtain ⟨mg, hmg⟩ := Option.isSome_iff_exists.1 hg.1
    obtain ⟨ms, hms⟩ := Option.isSome_iff_exists.1 (s1 ▸ hb.2.1)
    exact ⟨mg, ms, c8.trans hmg, c9.trans hms⟩
  · obtain ⟨mg, hmg⟩ := Option.isSome_iff_exists.1 hg.2
    obtain ⟨ms, hms⟩ := Option.isSome_iff_exists.1 (s2 ▸ hb.2.2.2.1)
    exact ⟨mg, ms, c10.trans hmg, c11.trans hms⟩

theorem asus_attached_reachable : Reachable asus_attached asus_attach_calls :=
  ⟨asus_dmi, asus_mux_firmware, [], { handle := 7 }, [], by decide⟩

theorem unknown_attached_reachable : Reachable unknown_attached unknown_attach_calls :=
  ⟨unknown_dmi, dead_firmware, [], { handle := 7 }, [], by decide⟩

/-- C12 as amended: in every device state reachable by attach followed by any
sequence of reads and writes, and for every toggle, the supported flag is true
only if the toggle's get-method and set-method are both bound; the converse
does not hold, since gpu_mux and dgpu_disable have both methods bound in every
such state, whether their probe succeeded or not. -/
theorem reachable_supported_bound (a : universal_armoury) (hist : List AcpiCall)
    (hr : Reachable a hist) :
    (∀ t : Toggle, t.supported a = true →
      (∃ mg, t.get_method a = some mg) ∧ (∃ ms, t.set_method a = some ms)) ∧
    (∃ mg ms, Toggle.gpu_mux.get_method a = some mg ∧ Toggle.gpu_mux.set_method a = some ms) ∧
    (∃ mg ms, Toggle.dgpu_disable.get_method a = some mg ∧
      Toggle.dgpu_disable.set_method a = some ms) := by
  obtain ⟨_, h1, h2, h3⟩ := reachable_well_formed a hist hr
  exact ⟨h1, h2, h3⟩

/-- The attached ASUS machine: gpu_mux is supported and has both of its
methods. -/
theorem reachable_supported_bound_witness :
    Reachable asus_attached asus_attach_calls ∧
    Toggle.gpu_mux.supported asus_attached = true ∧
    (∃ mg, Toggle.gpu_mux.get_method asus_attached = some mg) ∧
    (∃ ms, Toggle.gpu_mux.set_method asus_attached = some ms) :=
  ⟨asus_attached_reachable, rfl,
   ((reachable_supported_bound asus_attached asus_attach_calls asus_attached_reachable).1
      Toggle.gpu_mux rfl).1,
   ((reachable_supported_bound asus_attached asus_attach_calls asus_attached_reachable).1
      Toggle.gpu_mux rfl).2⟩

/-- C12 as stated fails: attached to firmware that never answers, the device
of the unknown-vendor scenario has the get- and set-method of gpu_mux bound
although every probe failed and gpu_mux is not supported. -/
theorem bound_unsupported_counterexample :
    universal_armoury_add unknown_dmi dead_firmware [] { handle := 7 } true 0
      = { ret := 0, driver_data := some unknown_attached, hist := unknown_attach_calls } ∧
    Reachable unknown_attached unknown_attach_calls ∧
    Toggle.gpu_mux.probe_ok dead_firmware [] unknown_attached { handle := 7 } = false ∧
    Toggle.gpu_mux.supported unknown_attached = false ∧
    Toggle.gpu_mux.get_method unknown_attached = some "GMUX" ∧
    Toggle.gpu_mux.set_method unknown_attached = some "SMUX" :=
  ⟨by decide, unknown_attached_reachable, by decide, rfl, rfl, rfl⟩

/-! ## One gateway call per access at most -/

/-- A read of a supported toggle records exactly the call of its get-method. -/
theorem toggle_show_hist (t : Toggle) (a : universal_armoury) (fw : Firmware)
    (hist : List AcpiCall) (dev : acpi_device) (m : String)
    (hs : t.supported a = true) (hm : t.get_method a = some m) (hdev : a.acpi_dev = some dev) :
    (t.show fw hist (some a)).hist = hist ++ [{ handle := dev.handle, method := m, arg := 0 }] := by
  rw [toggle_show_eq t a fw hist m hs hm, hdev]
  split_ifs <;> exact evaluate_method_hist fw hist dev m 0 true

/-- A write of 0 or 1 to a supported toggle records exactly the call of its
set-method. -/
theorem toggle_store_hist (t : Toggle) (a : universal_armoury) (fw : Firmware)
    (hist : List AcpiCall) (dev : acpi_device) (m text : String) (count : Nat) (v : Int)
    (hs : t.supported a = true) (hm : t.set_method a = some m) (hdev : a.acpi_dev = some dev)
    (hc : count ≠ 0) (hp : kstrtoint text 10 = Except.ok v) (hv : v = 0 ∨ v = 1) :
    (t.store fw hist (some a) (some text) count).hist
      = hist ++ [{ handle := dev.handle, method := m, arg := v.toNat }] := by
  have hr : ¬ (v < 0 ∨ v > 1) := by omega
  rw [toggle_store_eq t a fw hist m text count v hs hm hc hp, if_neg hr, hdev]
  split_ifs <;> exact evaluate_method_hist fw hist dev m v.toNat false

/-- A write that is empty, has no buffer, or whose text does not parse to 0 or
1 records no call. -/
theorem toggle_store_no_call (t : Toggle) (a : universal_armoury) (fw : Firmware)
    (hist : List AcpiCall) (buf : Option String) (count : Nat)
    (h : buf = none ∨ count = 0 ∨
      ∀ text, buf = some text → ∀ v, kstrtoint text 10 = Except.ok v → v ≠ 0 ∧ v ≠ 1) :
    (t.store fw hist (some a) buf count).hist = hist := by
  cases t
  · simp only [Toggle.store, gpu_mux_store]
    by_cases hg : a.gpu_mux_supported = false ∨ a.set_gpu_mux_method = none
    · simp only [hg, if_true]
    · simp only [hg, if_false]
      cases buf with
      | none => rfl
      | some text =>
        simp only
        by_cases hc : count = 0
        · simp only [hc, if_true]
        · simp only [hc, if_false]
          cases hp : kstrtoint text 10 with
          | error e => rfl
          | ok v =>
            have hv : v ≠ 0 ∧ v ≠ 1 := by
              rcases h with h | h | h
              · cases h
              · exact absurd h hc
              · exact h text rfl v hp
            have hr : v < 0 ∨ v > 1 := by omega
            simp only [hr, if_true]
  · simp only [Toggle.store, dgpu_disable_store]
    by_cases hg : a.dgpu_disable_supported = false ∨ a.set_dgpu_disable_method = none
    · simp only [hg, if_true]
    · simp only [hg, if_false]
      cases buf with
      | none => rfl
      | some text =>
        simp only
        by_cases hc : count = 0
        · simp only [hc, if_true]
        · simp only [hc, if_false]
          cases hp : kstrtoint text 10 with
          | error e => rfl
          | ok v =>
            have hv : v ≠ 0 ∧ v ≠ 1 := by
              rcases h with h | h | h
              · cases h
              · exact absurd h hc
              · exact h text rfl v hp
            have hr : v < 0 ∨ v > 1 := by omega
            simp only [hr, if_true]
  · simp only [Toggle.store, egpu_enable_store]
    by_cases hg : a.egpu_supported = false ∨ a.set_egpu_enable_method = none
    · simp only [hg, if_true]
    · simp only [hg, if_false]
      cases buf with
      | none => rfl
      | some text =>
        simp only
        by_cases hc : count = 0
        · simp only [hc, if_true]
        · simp only [hc, if_false]
          cases hp : kstrtoint text 10 with
          | error e => rfl
          | ok v =>
            have hv : v ≠ 0 ∧ v ≠ 1 := by
              rcases h with h | h | h
              · cases h
              · exact absurd h hc
              · exact h text rfl v hp
            have hr : v < 0 ∨ v > 1 := by omega
            simp only [hr, if_true]

/-- C18: in every reachable state, a read records exactly one firmware call
(the bound get-method, argument 0) when the toggle is supported and none
otherwise; a write records exactly one call (the bound set-method with the
value) when the toggle is supported and the non-empty payload parses to 0 or 1,
and none otherwise.  This holds whatever the firmware answers, so a failed
call is not repeated and no other method is tried. -/
theorem access_single_call (a : universal_armoury) (hist : List AcpiCall)
    (hr : Reachable a hist) (t : Toggle) (fw : Firmware) (buf : Option String) (count : Nat) :
    (t.supported a = true → ∃ dev m, a.acpi_dev = some dev ∧ t.get_method a = some m ∧
      (t.show fw hist (some a)).hist
        = hist ++ [{ handle := dev.handle, method := m, arg := 0 }]) ∧
    (t.supported a = false → (t.show fw hist (some a)).hist = hist) ∧
    (∀ text v, t.supported a = true → buf = some text → count ≠ 0 →
      kstrtoint text 10 = Except.ok v → v = 0 ∨ v = 1 →
      ∃ dev m, a.acpi_dev = some dev ∧ t.set_method a = some m ∧
        (t.store fw hist (some a) buf count).hist
          = hist ++ [{ handle := dev.handle, method := m, arg := v.toNat }]) ∧
    ((t.supported a = false ∨ buf = none ∨ count = 0 ∨
        ∀ text, buf = some text → ∀ v, kstrtoint text 10 = Except.ok v → v ≠ 0 ∧ v ≠ 1) →
      (t.store fw hist (some a) buf count).hist = hist) := by
  obtain ⟨⟨dev, hdev⟩, hbound, _, _⟩ := reachable_well_formed a hist hr
  refine ⟨fun hs => ?_, fun hs => ?_, fun text v hs hb hc hp hv => ?_, fun h => ?_⟩
  · obtain ⟨⟨mg, hg⟩, _⟩ := hbound t hs
    exact ⟨dev, mg, hdev, hg, toggle_show_hist t a fw hist dev mg hs hg hdev⟩
  · rw [(toggle_guard_enodev t a fw hist buf count hs).1]
  · obtain ⟨_, ⟨ms, hm⟩⟩ := hbound t hs
    subst hb
    exact ⟨dev, ms, hdev, hm, toggle_store_hist t a fw hist dev ms text count v hs hm hdev hc hp hv⟩
  · rcases h with hs | h
    · rw [(toggle_guard_enodev t a fw hist buf count hs).2]
    · exact toggle_store_no_call t a fw hist buf count h

/-- The attached ASUS machine: a read of the supported gpu_mux records one
call, a read of the unsupported dgpu_disable none, a write of "1" one call and
a write of "7" none, also when the firmware rejects every call. -/
theorem access_single_call_witness :
    (Toggle.gpu_mux.show dead_firmware asus_attach_calls (some asus_attached)).hist
      = asus_attach_calls ++ [{ handle := 7, method := "MXDS", arg := 0 }] ∧
    (Toggle.dgpu_disable.show dead_firmware asus_attach_calls (some asus_attached)).hist
      = asus_attach_calls ∧
    (Toggle.gpu_mux.store dead_firmware asus_attach_calls (some asus_attached)
      (some "1") 1).hist
      = asus_attach_calls ++ [{ handle := 7, method := "MXDM", arg := 1 }] ∧
    (Toggle.gpu_mux.store dead_firmware asus_attach_calls (some asus_attached)
      (some "7") 1).hist = asus_attach_calls := by
  have h1 := (access_single_call asus_attached asus_attach_calls asus_attached_reachable
    Toggle.gpu_mux dead_firmware (some "1") 1).1 rfl
  have h2 := (access_single_call asus_attached asus_attach_calls asus_attached_reachable
    Toggle.dgpu_disable dead_firmware none 0).2.1 rfl
  have h3 := (access_single_call asus_attached asus_attach_calls asus_attached_reachable
    Toggle.gpu_mux dead_firmware (some "1") 1).2.2.1 "1" 1 rfl rfl (by decide) rfl (Or.inr rfl)
  have h4 := (access_single_call asus_attached asus_attach_calls asus_attached_reachable
    Toggle.gpu_mux dead_firmware (some "7") 1).2.2.2
    (Or.inr (Or.inr (Or.inr (fun text ht v hv => by
      cases ht
      have h7 : kstrtoint "7" 10 = Except.ok 7 := rfl
      rw [h7] at hv
      injection hv with hv
      subst hv
      decide))))
  obtain ⟨dev, m, hd, hm, hh⟩ := h1
  obtain ⟨dev3, m3, hd3, hm3, hh3⟩ := h3
  cases hd; cases hm; cases hd3; cases hm3
  exact ⟨hh, h2, hh3, h4⟩

/-! ## The gateway's result mapping -/

/-- C13 as amended: with a device and a method name the gateway issues one
firmware call and returns `-EIO` exactly when the status is not success,
`-ENODATA` exactly when the call succeeds without an object, `-EPROTO` exactly
when the object is not an integer, and 0 exactly when it is an integer; there
is no other outcome.  On success with a result slot it stores the integer
reduced to 32 bits, which is the integer itself whenever that is below `2^32`;
without a result slot it still returns 0 and stores nothing. -/
theorem evaluate_method_outcomes (fw : Firmware) (hist : List AcpiCall) (dev : acpi_device)
    (name : String) (arg : Nat) (has_result : Bool) (reply : AcpiReply)
    (hrep : fw hist { handle := dev.handle, method := name, arg := arg } = reply) :
    ((universal_armoury_acpi_evaluate_method fw hist (some dev) (some name) arg has_result).ret
        = - EIO ↔ reply.status ≠ AE_OK) ∧
    ((universal_armoury_acpi_evaluate_method fw hist (some dev) (some name) arg has_result).ret
        = -ENODATA ↔ reply.status = AE_OK ∧ reply.pointer = none) ∧
    ((universal_armoury_acpi_evaluate_method fw hist (some dev) (some name) arg has_result).ret
        = -EPROTO ↔
      reply.status = AE_OK ∧ ∃ obj, reply.pointer = some obj ∧ obj.type ≠ ACPI_TYPE_INTEGER) ∧
    ((universal_armoury_acpi_evaluate_method fw hist (some dev) (some name) arg has_result).ret
        = 0 ↔
      reply.status = AE_OK ∧ ∃ obj, reply.pointer = some obj ∧ obj.type = ACPI_TYPE_INTEGER) ∧
    ((universal_armoury_acpi_evaluate_method fw hist (some dev) (some name) arg has_result).ret = 0 ∨
      (universal_armoury_acpi_evaluate_method fw hist (some dev) (some name) arg has_result).ret
        = - EIO ∨
      (universal_armoury_acpi_evaluate_method fw hist (some dev) (some name) arg has_result).ret
        = -ENODATA ∨
      (universal_armoury_acpi_evaluate_method fw hist (some dev) (some name) arg has_result).ret
        = -EPROTO) ∧
    (∀ obj, reply.status = AE_OK → reply.pointer = some obj → obj.type = ACPI_TYPE_INTEGER →
      (universal_armoury_acpi_evaluate_method fw hist (some dev) (some name) arg has_result).result
        = (if has_result = true then some (obj.value % 2 ^ 32) else none) ∧
      (has_result = true → obj.value < 2 ^ 32 →
        (universal_armoury_acpi_evaluate_method fw hist (some dev) (some name) arg
          has_result).result = some obj.value)) ∧
    (universal_armoury_acpi_evaluate_method fw hist (some dev) (some name) arg has_result).hist
      = hist ++ [{ handle := dev.handle, method := name, arg := arg }] := by
  subst hrep
  simp only [universal_armoury_acpi_evaluate_method]
  rcases hr : fw hist { handle := dev.handle, method := name, arg := arg } with ⟨status, pointer⟩
  by_cases h1 : status = AE_OK
  · cases pointer with
    | none => simp [h1, ENODATA, EPROTO, EIO]
    | some obj =>
      by_cases h2 : obj.type = ACPI_TYPE_INTEGER
      · cases has_result
        · simp [h1, h2, ENODATA, EPROTO, EIO]
        · simp [h1, h2, ENODATA, EPROTO, EIO]
      · simp [h1, h2, ENODATA, EPROTO, EIO]
  · simp [h1, ENODATA, EPROTO, EIO]

/-- Firmware answering 7 with a result slot, the same firmware without a
result slot, and firmware that fails: the three outcomes 0 with 7 stored, 0
with nothing stored, and the I/O errno. -/
theorem evaluate_method_outcomes_witness :
    universal_armoury_acpi_evaluate_method (const_firmware 7) [] (some { handle := 7 })
        (some "MXDS") 0 true
      = { ret := 0, result := some 7, hist := [{ handle := 7, method := "MXDS", arg := 0 }] } ∧
    universal_armoury_acpi_evaluate_method (const_firmware 7) [] (some { handle := 7 })
        (some "MXDM") 1 false
      = { ret := 0, result := none, hist := [{ handle := 7, method := "MXDM", arg := 1 }] } ∧
    (universal_armoury_acpi_evaluate_method dead_firmware [] (some { handle := 7 })
        (some "MXDS") 0 true).ret = - EIO := by
  have h1 := evaluate_method_outcomes (const_firmware 7) [] { handle := 7 } "MXDS" 0 true _ rfl
  have h2 := evaluate_method_outcomes (const_firmware 7) [] { handle := 7 } "MXDM" 1 false _ rfl
  have h3 := evaluate_method_outcomes dead_firmware [] { handle := 7 } "MXDS" 0 true _ rfl
  have h3a := h3.1.2 (by decide)
  refine ⟨?_, ?_, h3a⟩
  · have hr := (h1.2.2.2.2.2.1 { type := ACPI_TYPE_INTEGER, value := 7 } rfl rfl rfl).2 rfl
      (by decide)
    have h0 := h1.2.2.2.1.2 ⟨rfl, _, rfl, rfl⟩
    have hh := h1.2.2.2.2.2.2
    revert hr h0 hh
    generalize universal_armoury_acpi_evaluate_method (const_firmware 7) [] (some { handle := 7 })
        (some "MXDS") 0 true = r
    intro hr h0 hh
    cases r
    simp only at hr h0 hh
    subst hr h0 hh
    rfl
  · have hr := (h2.2.2.2.2.2.1 { type := ACPI_TYPE_INTEGER, value := 7 } rfl rfl rfl).1
    have h0 := h2.2.2.2.1.2 ⟨rfl, _, rfl, rfl⟩
    have hh := h2.2.2.2.2.2.2
    revert hr h0 hh
    generalize universal_armoury_acpi_evaluate_method (const_firmware 7) [] (some { handle := 7 })
        (some "MXDM") 1 false = r
    intro hr h0 hh
    cases r
    simp only at hr h0 hh
    subst hr h0 hh
    rfl

/-- C13 as stated fails: when the firmware returns the integer `4294967297`
the gateway succeeds and hands on `1`. -/
theorem evaluate_method_wide_counterexample :
    const_firmware 4294967297 [] { handle := 7, method := "MXDS", arg := 0 }
      = { status := AE_OK,
          pointer := some { type := ACPI_TYPE_INTEGER, value := 4294967297 } } ∧
    universal_armoury_acpi_evaluate_method (const_firmware 4294967297) []
        (some { handle := 7 }) (some "MXDS") 0 true
      = { ret := 0, result := some 1,
          hist := [{ handle := 7, method := "MXDS", arg := 0 }] } := by
  decide

/-- C14 as amended: for every argument value and with or without a result
slot, the gateway returns `-EINVAL` without issuing a firmware call whenever
the device pointer or the method-name pointer is NULL. -/
theorem evaluate_method_null (fw : Firmware) (hist : List AcpiCall)
    (adev : Option acpi_device) (method_name : Option String) (arg : Nat) (has_result : Bool)
    (h : adev = none ∨ method_name = none) :
    universal_armoury_acpi_evaluate_method fw hist adev method_name arg has_result
      = { ret := -EINVAL, result := none, hist := hist } := by
  rcases h with h | h
  · subst h; rfl
  · subst h; cases adev <;> rfl

/-- A NULL device and a NULL method name, with firmware that would answer. -/
theorem evaluate_method_null_witness :
    (universal_armoury_acpi_evaluate_method (const_firmware 1) [] none (some "MXDS") 0 true).ret
      = -EINVAL ∧
    (universal_armoury_acpi_evaluate_method (const_firmware 1) [] (some { handle := 7 }) none
      5 true).hist = [] :=
  ⟨congrArg EvalResult.ret
     (evaluate_method_null (const_firmware 1) [] none (some "MXDS") 0 true (Or.inl rfl)),
   congrArg EvalResult.hist
     (evaluate_method_null (const_firmware 1) [] (some { handle := 7 }) none 5 true
       (Or.inr rfl))⟩

/-- C14 as stated fails: an empty method name is not rejected; the call is
issued with the empty name and its outcome is returned. -/
theorem evaluate_method_empty_name_counterexample :
    universal_armoury_acpi_evaluate_method (const_firmware 1) [] (some { handle := 7 })
        (some "") 0 true
      = { ret := 0, result := some 1, hist := [{ handle := 7, method := "", arg := 0 }] } ∧
    (universal_armoury_acpi_evaluate_method (const_firmware 1) [] (some { handle := 7 })
        (some "") 0 true).ret ≠ -EINVAL := by
  decide

/-! ## Malformed writes -/

theorem kstrtoull_digits_error (s : List Char) (e : Int)
    (h : kstrtoull_digits s 10 = Except.error e) : e = -EINVAL ∨ e = -ERANGE := by
  unfold kstrtoull_digits at h
  split at h
  by_cases h1 : (‹Bool› = true)
  · rw [if_pos h1] at h
    injection h with h
    exact Or.inr h.symm
  · rw [if_neg h1] at h
    split_ifs at h
    · injection h with h
      exact Or.inl h.symm
    · dsimp only at h
      split_ifs at h
      injection h with h
      exact Or.inl h.symm

theorem kstrtoll_error (s : List Char) (e : Int)
    (h : kstrtoll s 10 = Except.error e) : e = -EINVAL ∨ e = -ERANGE := by
  unfold kstrtoll at h
  split at h
  · split at h
    · rename_i e2 he
      injection h with h
      exact h ▸ kstrtoull_digits_error _ e2 he
    · split_ifs at h
      injection h with h
      exact Or.inr h.symm
  · split at h
    · rename_i e2 he
      injection h with h
      subst h
      unfold kstrtoull at he
      split at he <;> exact kstrtoull_digits_error _ e2 he
    · split_ifs at h
      injection h with h
      exact Or.inr h.symm

/-- The only error codes of `kstrtoint` are `-EINVAL` and `-ERANGE`. -/
theorem kstrtoint_error (text : String) (e : Int)
    (h : kstrtoint text 10 = Except.error e) : e = -EINVAL ∨ e = -ERANGE := by
  unfold kstrtoint at h
  split at h
  · rename_i e2 he
    injection h with h
    exact h ▸ kstrtoll_error _ e2 he
  · split_ifs at h
    injection h with h
    exact Or.inr h.symm

/-- C15: for a supported toggle (flag set, set-method bound), a write of
length 0 or without a buffer returns `-EINVAL`, and a write whose text
`kstrtoint` rejects returns the parser's error code, which is `-EINVAL` or
`-ERANGE`; in each case the device structure, hence the cached value, is
unchanged and no firmware call is issued. -/
theorem store_malformed (t : Toggle) (a : universal_armoury) (fw : Firmware)
    (hist : List AcpiCall) (m : String)
    (hs : t.supported a = true) (hm : t.set_method a = some m) :
    (∀ buf : Option String, t.store fw hist (some a) buf 0
      = { ret := -EINVAL, page := "", armoury := some a, hist := hist }) ∧
    (∀ count : Nat, t.store fw hist (some a) none count
      = { ret := -EINVAL, page := "", armoury := some a, hist := hist }) ∧
    (∀ (text : String) (count : Nat) (e : Int), count ≠ 0 →
      kstrtoint text 10 = Except.error e →
      t.store fw hist (some a) (some text) count
        = { ret := e, page := "", armoury := some a, hist := hist } ∧
      (e = -EINVAL ∨ e = -ERANGE) ∧
      ((t.store fw hist (some a) (some text) count).armoury.map t.state) = some (t.state a)) := by
  refine ⟨fun buf => ?_, fun count => ?_, fun text count e hc hp => ?_⟩
  · cases t <;> simp only [Toggle.supported, Toggle.set_method] at hs hm <;>
      cases buf <;>
      simp [Toggle.store, gpu_mux_store, dgpu_disable_store, egpu_enable_store, hs, hm]
  · cases t <;> simp only [Toggle.supported, Toggle.set_method] at hs hm <;>
      simp [Toggle.store, gpu_mux_store, dgpu_disable_store, egpu_enable_store, hs, hm]
  · have key : t.store fw hist (some a) (some text) count
        = { ret := e, page := "", armoury := some a, hist := hist } := by
      cases t <;> simp only [Toggle.supported, Toggle.set_method] at hs hm <;>
        simp [Toggle.store, gpu_mux_store, dgpu_disable_store, egpu_enable_store, hs, hm, hc, hp]
    exact ⟨key, kstrtoint_error text e hp, by rw [key]; rfl⟩

/-- Writes to the supported `dgpu_disable` with cached value 1: an empty
write, the text "abc" and a number too large for an `int`. -/
theorem store_malformed_witness :
    (Toggle.dgpu_disable.store (const_firmware 0) [] (some dgpu_armoury) (some "") 0).ret
      = -EINVAL ∧
    kstrtoint "abc" 10 = Except.error (-EINVAL) ∧
    Toggle.dgpu_disable.store (const_firmware 0) [] (some dgpu_armoury) (some "abc") 3
      = { ret := -EINVAL, page := "", armoury := some dgpu_armoury, hist := [] } ∧
    kstrtoint "99999999999" 10 = Except.error (-ERANGE) ∧
    Toggle.dgpu_disable.store (const_firmware 0) [] (some dgpu_armoury) (some "99999999999") 11
      = { ret := -ERANGE, page := "", armoury := some dgpu_armoury, hist := [] } := by
  have h := store_malformed Toggle.dgpu_disable dgpu_armoury (const_firmware 0) [] "SDGP" rfl rfl
  have h1 := congrArg SysfsResult.ret (h.1 (some ""))
  have h2 := (h.2.2 "abc" 3 (-EINVAL) (by decide) rfl).1
  have h3 := (h.2.2 "99999999999" 11 (-ERANGE) (by decide) rfl).1
  exact ⟨h1, rfl, h2, rfl, h3⟩

/-! ## The text of a read -/

theorem u32_to_int_range (r : Nat) : -(2 ^ 31) ≤ u32_to_int r ∧ u32_to_int r < 2 ^ 31 := by
  unfold u32_to_int
  have h := Nat.mod_lt r (show 0 < 2 ^ 32 by norm_num)
  split_ifs <;> omega

theorem u32_to_int_eq_iff (r : Nat) (h : r < 2 ^ 32) (k : Nat) (hk : k < 2 ^ 31) :
    u32_to_int r = (k : Int) ↔ r = k := by
  by_cases hs : r < 2 ^ 31
  · rw [u32_to_int_small r hs]; omega
  · rw [u32_to_int_large r (by omega) h]; omega

/-- Distinct `int` values have distinct decimal texts. -/
theorem fmt_d_injective (v w : Int) (hv : -(2 ^ 31) ≤ v ∧ v < 2 ^ 31)
    (hw : -(2 ^ 31) ≤ w ∧ w < 2 ^ 31) (h : fmt_d v = fmt_d w) : v = w := by
  have h1 := kstrtoint_fmt_d v hv.1 hv.2
  have h2 := kstrtoint_fmt_d w hw.1 hw.2
  rw [h] at h1
  rw [h1] at h2
  injection h2

theorem append_newline_cancel (x y : String) (h : x ++ "\n" = y ++ "\n") : x = y := by
  have h2 : (x ++ "\n").data = (y ++ "\n").data := by rw [h]
  rw [String.data_append, String.data_append] at h2
  exact String.ext (List.append_cancel_right h2)

/-- C16 as amended: for a supported toggle (flag set, get-method bound), a
read whose gateway call succeeds with the value `r` yields the decimal text of
`r` taken as a C `int`, followed by a newline, whatever `r` is; the text is
"0" or "1" with a newline exactly when `r` is 0 or 1. -/
theorem show_text_of_value (t : Toggle) (a : universal_armoury) (fw : Firmware)
    (hist : List AcpiCall) (m : String)
    (hs : t.supported a = true) (hm : t.get_method a = some m)
    (h0 : (universal_armoury_acpi_evaluate_method fw hist a.acpi_dev (some m) 0 true).ret = 0) :
    ∃ r, r < 2 ^ 32 ∧
      (universal_armoury_acpi_evaluate_method fw hist a.acpi_dev (some m) 0 true).result
        = some r ∧
      (t.show fw hist (some a)).page = fmt_d (u32_to_int r) ++ "\n" ∧
      (t.show fw hist (some a)).ret = ((t.show fw hist (some a)).page.length : Int) ∧
      ((t.show fw hist (some a)).page = "0\n" ↔ r = 0) ∧
      ((t.show fw hist (some a)).page = "1\n" ↔ r = 1) := by
  obtain ⟨r, hr, hres⟩ := evaluate_method_result fw hist a.acpi_dev (some m) 0 h0
  have hpage : (t.show fw hist (some a)).page = fmt_d (u32_to_int r) ++ "\n" := by
    rw [toggle_show_eq t a fw hist m hs hm]
    simp only [h0, ne_eq, not_true_eq_false, if_false, hres, Option.getD_some]
    exact page_of_u32 r hr
  have hret : (t.show fw hist (some a)).ret = ((t.show fw hist (some a)).page.length : Int) := by
    rw [toggle_show_eq t a fw hist m hs hm]
    simp only [h0, ne_eq, not_true_eq_false, if_false]
  have key : ∀ k : Nat, k < 2 ^ 31 →
      (fmt_d (u32_to_int r) ++ "\n" = fmt_d (k : Int) ++ "\n" ↔ r = k) := by
    intro k hk
    constructor
    · intro h
      have h1 := append_newline_cancel _ _ h
      have h2 := fmt_d_injective _ _ (u32_to_int_range r) (by omega) h1
      exact (u32_to_int_eq_iff r hr k hk).1 h2
    · intro h
      rw [(u32_to_int_eq_iff r hr k hk).2 h]
  refine ⟨r, hr, hres, hpage, hret, ?_, ?_⟩
  · rw [hpage]
    have h := key 0 (by norm_num)
    have e : fmt_d ((0 : Nat) : Int) ++ "\n" = "0\n" := by decide
    rw [e] at h
    exact h
  · rw [hpage]
    have h := key 1 (by norm_num)
    have e : fmt_d ((1 : Nat) : Int) ++ "\n" = "1\n" := by decide
    rw [e] at h
    exact h

/-- Reading `gpu_mux` from firmware that reports 1 gives "1" and a newline. -/
theorem show_text_of_value_witness :
    (Toggle.gpu_mux.show (const_firmware 1) [] (some mux_armoury)).page = "1\n" := by
  obtain ⟨r, _, hres, _, _, _, h1⟩ :=
    show_text_of_value Toggle.gpu_mux mux_armoury (const_firmware 1) [] "MXDS" rfl rfl
      (by decide)
  have hr : r = 1 := by
    have : some 1 = some r := hres
    injection this with h
    exact h.symm
  exact h1.2 hr

/-- C16 as stated fails: when the get-method returns 5 the read succeeds with
the text "5" and a newline. -/
theorem show_nonbinary_counterexample :
    Toggle.gpu_mux.show (const_firmware 5) [] (some mux_armoury)
      = { ret := 2, page := "5\n", armoury := some { mux_armoury with gpu_mux_state := 5 },
          hist := [{ handle := 7, method := "MXDS", arg := 0 }] } := by
  decide

/-! ## The number of probe calls -/

/-- The gateway records at most one call, with the argument it was given. -/
theorem evaluate_method_calls (fw : Firmware) (hist : List AcpiCall)
    (adev : Option acpi_device) (name : Option String) (arg : Nat) (has_result : Bool) :
    ∃ l, (universal_armoury_acpi_evaluate_method fw hist adev name arg has_result).hist
        = hist ++ l ∧ l.length ≤ 1 ∧ ∀ c ∈ l, c.arg = arg := by
  cases adev with
  | none => exact ⟨[], by simp [universal_armoury_acpi_evaluate_method], by simp, by simp⟩
  | some dev =>
    cases name with
    | none => exact ⟨[], by simp [universal_armoury_acpi_evaluate_method], by simp, by simp⟩
    | some nm =>
      exact ⟨[{ handle := dev.handle, method := nm, arg := arg }],
        evaluate_method_hist fw hist dev nm arg has_result, by simp, by simp⟩

theorem probe_gpu_mux_calls (fw : Firmware) (s : universal_armoury × List AcpiCall) :
    ∃ l, (probe_gpu_mux fw s).2 = s.2 ++ l ∧ l.length ≤ 1 ∧ ∀ c ∈ l, c.arg = 0 := by
  unfold probe_gpu_mux
  split
  · exact ⟨[], by simp, by simp, by simp⟩
  · rename_i m _
    obtain ⟨l, h1, h2, h3⟩ := evaluate_method_calls fw s.2 s.1.acpi_dev (some m) 0 true
    refine ⟨l, ?_, h2, h3⟩
    dsimp only
    split_ifs <;> exact h1

theorem probe_dgpu_disable_calls (fw : Firmware) (s : universal_armoury × List AcpiCall) :
    ∃ l, (probe_dgpu_disable fw s).2 = s.2 ++ l ∧ l.length ≤ 1 ∧ ∀ c ∈ l, c.arg = 0 := by
  unfold probe_dgpu_disable
  split
  · exact ⟨[], by simp, by simp, by simp⟩
  · rename_i m _
    obtain ⟨l, h1, h2, h3⟩ := evaluate_method_calls fw s.2 s.1.acpi_dev (some m) 0 true
    refine ⟨l, ?_, h2, h3⟩
    dsimp only
    split_ifs <;> exact h1

theorem probe_egpu_calls (fw : Firmware) (s : universal_armoury × List AcpiCall) :
    ∃ l, (probe_egpu fw s).2 = s.2 ++ l ∧ l.length ≤ 1 ∧ ∀ c ∈ l, c.arg = 0 := by
  unfold probe_egpu
  split
  · exact ⟨[], by simp, by simp, by simp⟩
  · rename_i m _
    obtain ⟨l, h1, h2, h3⟩ := evaluate_method_calls fw s.2 s.1.acpi_dev (some m) 0 true
    refine ⟨l, ?_, h2, h3⟩
    dsimp only
    split_ifs <;> exact h1

/-- The primary phase records at most three calls, all with argument 0. -/
theorem probe_primary_calls (fw : Firmware) (s : universal_armoury × List AcpiCall) :
    ∃ l, (probe_primary fw s).2 = s.2 ++ l ∧ l.length ≤ 3 ∧ ∀ c ∈ l, c.arg = 0 := by
  unfold probe_primary
  obtain ⟨l1, a1, a2, a3⟩ := probe_gpu_mux_calls fw s
  obtain ⟨l2, b1, b2, b3⟩ := probe_dgpu_disable_calls fw (probe_gpu_mux fw s)
  obtain ⟨l3, c1, c2, c3⟩ := probe_egpu_calls fw (probe_dgpu_disable fw (probe_gpu_mux fw s))
  refine ⟨l1 ++ l2 ++ l3, ?_, ?_, ?_⟩
  · rw [c1, b1, a1]; simp [List.append_assoc]
  · simp only [List.length_append]; omega
  · intro c hc
    simp only [List.mem_append] at hc
    rcases hc with (hc | hc) | hc
    · exact a3 c hc
    · exact b3 c hc
    · exact c3 c hc

/-- The fallback loop records at most one call per alternative name, all with
argument 0. -/
theorem probe_alt_methods_calls (fw : Firmware) (names : List String)
    (s : universal_armoury × List AcpiCall) :
    ∃ l, (probe_alt_methods fw names s).2 = s.2 ++ l ∧ l.length ≤ names.length ∧
      ∀ c ∈ l, c.arg = 0 := by
  induction names generalizing s with
  | nil => exact ⟨[], by simp [probe_alt_methods], by simp, by simp⟩
  | cons name rest ih =>
    obtain ⟨l, h1, h2, h3⟩ := evaluate_method_calls fw s.2 s.1.acpi_dev (some name) 0 true
    unfold probe_alt_methods
    dsimp only
    split_ifs
    · exact ⟨l, h1, by simp only [List.length_cons]; omega, h3⟩
    · obtain ⟨l2, k1, k2, k3⟩ := ih (s.1,
        (universal_armoury_acpi_evaluate_method fw s.2 s.1.acpi_dev (some name) 0 true).hist)
      refine ⟨l ++ l2, ?_, ?_, ?_⟩
      · rw [k1]; dsimp only; rw [h1, List.append_assoc]
      · simp only [List.length_append, List.length_cons]; omega
      · intro c hc
        rcases List.mem_append.1 hc with hc | hc
        · exact h3 c hc
        · exact k3 c hc

/-- C17: whatever the device structure and the firmware, probing records at
most 3 calls in the primary phase and at most 6 in the fallback phase, every
one with argument 0, and it records a fallback call only when all three
supported flags are false after the primary phase; hence attaching records at
most 9 calls, all with argument 0, for every identification and firmware. -/
theorem probe_call_budget (fw : Firmware) (hist : List AcpiCall) (a : universal_armoury) :
    (∃ p f, (probe_primary fw (a, hist)).2 = hist ++ p ∧
      (universal_armoury_probe_features fw hist a).2 = hist ++ p ++ f ∧
      p.length ≤ 3 ∧ f.length ≤ 6 ∧ (∀ c ∈ p ++ f, c.arg = 0) ∧
      (f ≠ [] →
        (probe_primary fw (a, hist)).1.gpu_mux_supported = false ∧
        (probe_primary fw (a, hist)).1.dgpu_disable_supported = false ∧
        (probe_primary fw (a, hist)).1.egpu_supported = false)) ∧
    (∀ (dmi : Dmi) (adev : acpi_device) (alloc_ok : Bool) (sysfs_ret : Int),
      ∃ calls, (universal_armoury_add dmi fw hist adev alloc_ok sysfs_ret).hist = hist ++ calls ∧
        calls.length ≤ 9 ∧ ∀ c ∈ calls, c.arg = 0) := by
  have main : ∀ b : universal_armoury, ∃ p f, (probe_primary fw (b, hist)).2 = hist ++ p ∧
      (universal_armoury_probe_features fw hist b).2 = hist ++ p ++ f ∧
      p.length ≤ 3 ∧ f.length ≤ 6 ∧ (∀ c ∈ p ++ f, c.arg = 0) ∧
      (f ≠ [] →
        (probe_primary fw (b, hist)).1.gpu_mux_supported = false ∧
        (probe_primary fw (b, hist)).1.dgpu_disable_supported = false ∧
        (probe_primary fw (b, hist)).1.egpu_supported = false) := by
    intro b
    obtain ⟨p, p1, p2, p3⟩ := probe_primary_calls fw (b, hist)
    unfold universal_armoury_probe_features
    dsimp only
    split_ifs with hflags
    · obtain ⟨f, f1, f2, f3⟩ := probe_alt_methods_calls fw alt_methods (probe_primary fw (b, hist))
      refine ⟨p, f, p1, by rw [f1, p1], p2, f2, ?_, fun _ => hflags⟩
      intro c hc
      rcases List.mem_append.1 hc with hc | hc
      · exact p3 c hc
      · exact f3 c hc
    · refine ⟨p, [], p1, by rw [p1]; simp, p2, by simp, ?_, fun h => absurd rfl h⟩
      intro c hc
      rw [List.append_nil] at hc
      exact p3 c hc
  refine ⟨main a, ?_⟩
  intro dmi adev alloc_ok sysfs_ret
  cases alloc_ok with
  | false => exact ⟨[], by simp [universal_armoury_add], by simp, by simp⟩
  | true =>
    obtain ⟨p, f, _, h2, h3, h4, h5, _⟩ := main (set_vendor_acpi_methods
      { (detect_laptop_vendor dmi { kzalloc_armoury with acpi_dev := some adev }).2 with
        vendor := (detect_laptop_vendor dmi { kzalloc_armoury with acpi_dev := some adev }).1 })
    refine ⟨p ++ f, ?_, by simp only [List.length_append]; omega, h5⟩
    unfold universal_armoury_add
    simp only [Bool.true_eq_false, if_false]
    split_ifs <;> (dsimp only; rw [h2, List.append_assoc])

/-- The calls of attaching to firmware that never answers: two primary probes
and the six alternative names. -/
theorem probe_call_budget_witness :
    (universal_armoury_add unknown_dmi dead_firmware [] { handle := 7 } true 0).hist.length = 8 ∧
    ∃ calls, (universal_armoury_add unknown_dmi dead_firmware [] { handle := 7 } true 0).hist
        = [] ++ calls ∧ calls.length ≤ 9 ∧ ∀ c ∈ calls, c.arg = 0 :=
  ⟨by decide, (probe_call_budget dead_firmware [] kzalloc_armoury).2 unknown_dmi { handle := 7 }
    true 0⟩

/-! ## The identity endpoints -/

theorem alt_methods_cases (name : String) (h : name ∈ alt_methods) :
    name = "GMUX" ∨ name = "_GPU" ∨ name = "DGPU" ∨ name = "SGPU" ∨ name = "MXDS" ∨
      name = "MXDM" := by
  simpa [alt_methods] using h

theorem bind_alt_method_mux (name : String) (b : universal_armoury)
    (h : mux_heuristic name = true) :
    bind_alt_method name b
      = { b with gpu_mux_supported := true, get_gpu_mux_method := some name } := by
  unfold mux_heuristic at h
  simp only [bind_alt_method, h, if_true]

theorem bind_alt_method_gpu (name : String) (b : universal_armoury)
    (h1 : mux_heuristic name = false) (h2 : gpu_heuristic name = true) :
    bind_alt_method name b
      = { b with dgpu_disable_supported := true, get_dgpu_disable_method := some name } := by
  unfold mux_heuristic at h1
  unfold gpu_heuristic at h2
  simp only [bind_alt_method, h1, h2, if_true, Bool.false_eq_true, if_false]

/-- Every alternative name matches exactly one of the two heuristics, and the
heuristic it matches is the one of the list the specification puts it in. -/
theorem alt_methods_classified (name : String) (h : name ∈ alt_methods) :
    (name ∈ mux_alt_names ∧ mux_heuristic name = true ∧ gpu_heuristic name = false) ∨
    (name ∈ gpu_alt_names ∧ mux_heuristic name = false ∧ gpu_heuristic name = true) := by
  rcases alt_methods_cases name h with h | h | h | h | h | h <;> subst h <;> decide

/-- The loop over the alternative names either finds every name failing and
binds nothing, or stops at the first name that succeeds and binds it. -/
theorem probe_alt_methods_dichotomy (fw : Firmware) (dev : acpi_device) (names : List String)
    (a : universal_armoury) (hist : List AcpiCall) (hdev : a.acpi_dev = some dev) :
    (all_fail fw hist dev names ∧
      probe_alt_methods fw names (a, hist) = (a, hist ++ alt_calls dev names)) ∨
    (∃ pre m post, names = pre ++ m :: post ∧ all_fail fw hist dev pre ∧
      reply_ok (fw (hist ++ alt_calls dev pre) (get_call dev m)) = true ∧
      probe_alt_methods fw names (a, hist)
        = (bind_alt_method m a, hist ++ alt_calls dev pre ++ [get_call dev m])) := by
  induction names generalizing hist with
  | nil =>
    left
    refine ⟨?_, by simp [probe_alt_methods, alt_calls]⟩
    intro before name after hsplit
    cases before <;> simp at hsplit
  | cons name rest ih =>
    cases hok : reply_ok (fw hist (get_call dev name)) with
    | true =>
      right
      refine ⟨[], name, rest, rfl, ?_, by simpa [alt_calls] using hok, ?_⟩
      · intro before x after hsplit
        cases before <;> simp at hsplit
      · exact probe_alt_methods_first_ok fw dev [] name rest a hist hdev
          (by intro before x after hsplit; cases before <;> simp at hsplit)
          (by simpa [alt_calls] using hok)
    | false =>
      have hf := evaluate_method_fail fw hist dev name hok
      have hstep : probe_alt_methods fw (name :: rest) (a, hist)
          = probe_alt_methods fw rest (a, hist ++ [get_call dev name]) := by
        simp only [probe_alt_methods, hdev]
        rw [if_neg hf, evaluate_method_hist]
        rfl
      have hcons : ∀ pre, all_fail fw (hist ++ [get_call dev name]) dev pre →
          all_fail fw hist dev (name :: pre) := by
        intro pre hpre before x after hsplit
        cases before with
        | nil =>
          simp only [List.nil_append, List.cons.injEq] at hsplit
          rw [← hsplit.1]
          simpa [alt_calls] using hok
        | cons b bs =>
          simp only [List.cons_append, List.cons.injEq] at hsplit
          have := hpre bs x after hsplit.2
          rw [← hsplit.1]
          simpa [alt_calls, List.append_assoc] using this
      rcases ih (hist ++ [get_call dev name]) with ⟨hall, hrun⟩ | ⟨pre, m, post, hs, hfail, hm, hrun⟩
      · left
        refine ⟨hcons rest hall, ?_⟩
        rw [hstep, hrun]
        simp [alt_calls]
      · right
        refine ⟨name :: pre, m, post, by rw [hs]; rfl, hcons pre hfail, ?_, ?_⟩
        · simpa [alt_calls, List.append_assoc] using hm
        · rw [hstep, hrun]
          simp [alt_calls]

theorem probe_primary_acpi_dev (fw : Firmware) (s : universal_armoury × List AcpiCall) :
    (probe_primary fw s).1.acpi_dev = s.1.acpi_dev := by
  unfold probe_primary
  exact (identity_preserved_trans _ _ _
    (identity_preserved_trans _ _ _ (probe_gpu_mux_identity fw s)
      (probe_dgpu_disable_identity fw _))
    (probe_egpu_identity fw _)).1

/-- C22: every name of the fallback list matches exactly one heuristic: GMUX,
MXDS and MXDM contain "MUX" or "MXD", do not contain "GPU" and bind gpu_mux;
_GPU, DGPU and SGPU contain "GPU", contain neither "MUX" nor "MXD" and bind
dgpu_disable; so no name of the list falls through both tests.  Whenever the
fallback phase is entered (no flag is set after the primary probes) and some
fallback call succeeds, exactly one of gpu_mux and dgpu_disable ends supported
and egpu_enable does not. -/
theorem fallback_classification (fw : Firmware) (hist : List AcpiCall) (a : universal_armoury)
    (dev : acpi_device) (hdev : a.acpi_dev = some dev)
    (hnone : (probe_primary fw (a, hist)).1.gpu_mux_supported = false ∧
      (probe_primary fw (a, hist)).1.dgpu_disable_supported = false ∧
      (probe_primary fw (a, hist)).1.egpu_supported = false) :
    (∀ name, name ∈ alt_methods ↔ name ∈ mux_alt_names ∨ name ∈ gpu_alt_names) ∧
    (∀ name ∈ mux_alt_names, ∀ b : universal_armoury,
      mux_heuristic name = true ∧ gpu_heuristic name = false ∧
      bind_alt_method name b
        = { b with gpu_mux_supported := true, get_gpu_mux_method := some name }) ∧
    (∀ name ∈ gpu_alt_names, ∀ b : universal_armoury,
      mux_heuristic name = false ∧ gpu_heuristic name = true ∧
      bind_alt_method name b
        = { b with dgpu_disable_supported := true, get_dgpu_disable_method := some name }) ∧
    (∀ name ∈ alt_methods, mux_heuristic name = true ∨ gpu_heuristic name = true) ∧
    (¬ all_fail fw (probe_primary fw (a, hist)).2 dev alt_methods →
      (((universal_armoury_probe_features fw hist a).1.gpu_mux_supported = true ∧
          (universal_armoury_probe_features fw hist a).1.dgpu_disable_supported = false) ∨
        ((universal_armoury_probe_features fw hist a).1.gpu_mux_supported = false ∧
          (universal_armoury_probe_features fw hist a).1.dgpu_disable_supported = true)) ∧
      (universal_armoury_probe_features fw hist a).1.egpu_supported = false) := by
  have hmux : ∀ name ∈ mux_alt_names, ∀ b : universal_armoury,
      mux_heuristic name = true ∧ gpu_heuristic name = false ∧
      bind_alt_method name b
        = { b with gpu_mux_supported := true, get_gpu_mux_method := some name } := by
    intro name hn b
    have hc : name = "GMUX" ∨ name = "MXDS" ∨ name = "MXDM" := by
      simpa [mux_alt_names] using hn
    have h1 : mux_heuristic name = true := by
      rcases hc with h | h | h <;> subst h <;> decide
    have h2 : gpu_heuristic name = false := by
      rcases hc with h | h | h <;> subst h <;> decide
    exact ⟨h1, h2, bind_alt_method_mux name b h1⟩
  have hgpu : ∀ name ∈ gpu_alt_names, ∀ b : universal_armoury,
      mux_heuristic name = false ∧ gpu_heuristic name = true ∧
      bind_alt_method name b
        = { b with dgpu_disable_supported := true, get_dgpu_disable_method := some name } := by
    intro name hn b
    have hc : name = "_GPU" ∨ name = "DGPU" ∨ name = "SGPU" := by
      simpa [gpu_alt_names] using hn
    have h1 : mux_heuristic name = false := by
      rcases hc with h | h | h <;> subst h <;> decide
    have h2 : gpu_heuristic name = true := by
      rcases hc with h | h | h <;> subst h <;> decide
    exact ⟨h1, h2, bind_alt_method_gpu name b h1 h2⟩
  refine ⟨?_, hmux, hgpu, ?_, ?_⟩
  · intro name
    simp only [alt_methods, mux_alt_names, gpu_alt_names, List.mem_cons, List.mem_singleton,
      List.mem_nil_iff, or_false]
    tauto
  · intro name hn
    rcases alt_methods_classified name hn with h | h
    · exact Or.inl h.2.1
    · exact Or.inr h.2.2
  · intro hsome
    obtain ⟨n1, n2, n3⟩ := hnone
    have hdev2 : (probe_primary fw (a, hist)).1.acpi_dev = some dev :=
      (probe_primary_acpi_dev fw (a, hist)).trans hdev
    have hrun : universal_armoury_probe_features fw hist a
        = probe_alt_methods fw alt_methods
            ((probe_primary fw (a, hist)).1, (probe_primary fw (a, hist)).2) := by
      unfold universal_armoury_probe_features
      simp only [n1, n2, n3, and_self, if_true]
    rcases probe_alt_methods_dichotomy fw dev alt_methods (probe_primary fw (a, hist)).1
        (probe_primary fw (a, hist)).2 hdev2 with ⟨hall, _⟩ | ⟨pre, m, post, hs, _, _, hres⟩
    · exact absurd hall hsome
    · have hm : m ∈ alt_methods := by rw [hs]; simp
      rw [hrun, hres]
      rcases alt_methods_classified m hm with ⟨hin, _⟩ | ⟨hin, _⟩
      · rw [(hmux m hin _).2.2]
        exact ⟨Or.inl ⟨rfl, n2⟩, n3⟩
      · rw [(hgpu m hin _).2.2]
        exact ⟨Or.inr ⟨n1, rfl⟩, n3⟩

/-- A Dell machine whose firmware answers only "DGPU": both primary probes
fail, the fallback calls GMUX, _GPU and DGPU, and dgpu_disable alone ends
supported. -/
theorem fallback_classification_witness :
    dell_fresh.acpi_dev = some { handle := 7 } ∧
    ((probe_primary dgpu_only_firmware (dell_fresh, [])).1.gpu_mux_supported = false ∧
      (probe_primary dgpu_only_firmware (dell_fresh, [])).1.dgpu_disable_supported = false ∧
      (probe_primary dgpu_only_firmware (dell_fresh, [])).1.egpu_supported = false) ∧
    ¬ all_fail dgpu_only_firmware (probe_primary dgpu_only_firmware (dell_fresh, [])).2
        { handle := 7 } alt_methods ∧
    (universal_armoury_probe_features dgpu_only_firmware [] dell_fresh).2
      = [ { handle := 7, method := "GFXS", arg := 0 },
          { handle := 7, method := "GDDS", arg := 0 },
          { handle := 7, method := "GMUX", arg := 0 },
          { handle := 7, method := "_GPU", arg := 0 },
          { handle := 7, method := "DGPU", arg := 0 } ] ∧
    (((universal_armoury_probe_features dgpu_only_firmware [] dell_fresh).1.gpu_mux_supported
          = true ∧
        (universal_armoury_probe_features dgpu_only_firmware [] dell_fresh).1.dgpu_disable_supported
          = false) ∨
      ((universal_armoury_probe_features dgpu_only_firmware [] dell_fresh).1.gpu_mux_supported
          = false ∧
        (universal_armoury_probe_features dgpu_only_firmware [] dell_fresh).1.dgpu_disable_supported
          = true)) ∧
    (universal_armoury_probe_features dgpu_only_firmware [] dell_fresh).1.dgpu_disable_supported
      = true ∧
    (universal_armoury_probe_features dgpu_only_firmware [] dell_fresh).1.egpu_supported
      = false := by
  have hnone : (probe_primary dgpu_only_firmware (dell_fresh, [])).1.gpu_mux_supported = false ∧
      (probe_primary dgpu_only_firmware (dell_fresh, [])).1.dgpu_disable_supported = false ∧
      (probe_primary dgpu_only_firmware (dell_fresh, [])).1.egpu_supported = false := by
    decide
  have hsome : ¬ all_fail dgpu_only_firmware
      (probe_primary dgpu_only_firmware (dell_fresh, [])).2 { handle := 7 } alt_methods := by
    intro h
    have h2 := h ["GMUX", "_GPU"] "DGPU" ["SGPU", "MXDS", "MXDM"] rfl
    exact absurd h2 (by decide)
  have h := (fallback_classification dgpu_only_firmware [] dell_fresh { handle := 7 } rfl
    hnone).2.2.2.2 hsome
  exact ⟨rfl, hnone, hsome, by decide, h.1, by decide, h.2⟩

/-! ## What the fallback binding changes -/

theorem detect_laptop_vendor_states (dmi : Dmi) (dev : universal_armoury) :
    (detect_laptop_vendor dmi dev).2.gpu_mux_state = dev.gpu_mux_state ∧
    (detect_laptop_vendor dmi dev).2.dgpu_disable_state = dev.dgpu_disable_state ∧
    (detect_laptop_vendor dmi dev).2.egpu_state = dev.egpu_state := by
  obtain ⟨vendor, product⟩ := dmi
  unfold detect_laptop_vendor
  cases vendor <;> cases product <;> simp only [] <;> split <;> (try split) <;> simp

theorem set_vendor_acpi_methods_states (dev : universal_armoury) :
    (set_vendor_acpi_methods dev).gpu_mux_state = dev.gpu_mux_state ∧
    (set_vendor_acpi_methods dev).dgpu_disable_state = dev.dgpu_disable_state ∧
    (set_vendor_acpi_methods dev).egpu_state = dev.egpu_state := by
  unfold set_vendor_acpi_methods
  split <;> simp

theorem bindings_of_vendor (dev : universal_armoury) :
    bindings (set_vendor_acpi_methods dev) = dialect_bindings dev.vendor := by
  unfold dialect_bindings bindings set_vendor_acpi_methods
  cases hv : dev.vendor <;> rfl

/-- The device handed to the prober has its ACPI device, no flag set, every
cached value 0 and the binding set of its dialect. -/
theorem bound_device_fresh (dmi : Dmi) (adev : acpi_device) :
    (bound_device dmi adev).acpi_dev = some adev ∧
    (∀ t : Toggle, t.supported (bound_device dmi adev) = false) ∧
    (∀ t : Toggle, t.state (bound_device dmi adev) = 0) ∧
    bindings (bound_device dmi adev) = dialect_bindings (bound_device dmi adev).vendor := by
  have hd := detect_laptop_vendor_frame dmi { kzalloc_armoury with acpi_dev := some adev }
  have hds := detect_laptop_vendor_states dmi { kzalloc_armoury with acpi_dev := some adev }
  have hs := set_vendor_acpi_methods_frame
    { (detect_laptop_vendor dmi { kzalloc_armoury with acpi_dev := some adev }).2 with
      vendor := (detect_laptop_vendor dmi { kzalloc_armoury with acpi_dev := some adev }).1 }
  have hss := set_vendor_acpi_methods_states
    { (detect_laptop_vendor dmi { kzalloc_armoury with acpi_dev := some adev }).2 with
      vendor := (detect_laptop_vendor dmi { kzalloc_armoury with acpi_dev := some adev }).1 }
  have hn := set_vendor_acpi_methods_names
    { (detect_laptop_vendor dmi { kzalloc_armoury with acpi_dev := some adev }).2 with
      vendor := (detect_laptop_vendor dmi { kzalloc_armoury with acpi_dev := some adev }).1 }
  have hb := bindings_of_vendor
    { (detect_laptop_vendor dmi { kzalloc_armoury with acpi_dev := some adev }).2 with
      vendor := (detect_laptop_vendor dmi { kzalloc_armoury with acpi_dev := some adev }).1 }
  refine ⟨hs.1.trans hd.1, ?_, ?_, ?_⟩
  · intro t
    cases t
    · exact hs.2.1.trans hd.2.1
    · exact hs.2.2.1.trans hd.2.2.1
    · exact hs.2.2.2.trans hd.2.2.2
  · intro t
    cases t
    · exact hss.1.trans hds.1
    · exact hss.2.1.trans hds.2.1
    · exact hss.2.2.trans hds.2.2
  · unfold bound_device
    rw [hb, hn.1]

theorem add_driver_data_bound (dmi : Dmi) (fw : Firmware) (hist : List AcpiCall)
    (adev : acpi_device) (sysfs_ret : Int) :
    (universal_armoury_add dmi fw hist adev true sysfs_ret).driver_data
      = some (universal_armoury_probe_features fw hist (bound_device dmi adev)).1 :=
  add_driver_data dmi fw hist adev sysfs_ret

theorem all_fail_of_names (fw : Firmware) (hist : List AcpiCall) (dev : acpi_device)
    (names : List String)
    (h : ∀ k, ∀ name ∈ names, reply_ok (fw k (get_call dev name)) = false) :
    all_fail fw hist dev names := by
  intro before name after hsplit
  exact h _ name (by rw [hsplit]; simp)

/-- C23: when every primary probe of an attaching device fails and the
alternative name `n` is the first of the fallback list whose call succeeds
(whatever value the call returns), the attached device is the device handed to
the prober with exactly two fields replaced: for `n` among GMUX, MXDS, MXDM
the gpu_mux supported flag (now true) and the gpu_mux get-method (now `n`),
for `n` among _GPU, DGPU, SGPU the dgpu_disable supported flag and get-method.
The set-methods are still those of the dialect, every cached value is still
the initial 0, and the flags of the other toggles are still false. -/
theorem fallback_binding_frame (dmi : Dmi) (fw : Firmware) (hist : List AcpiCall)
    (adev : acpi_device) (sysfs_ret : Int) (pre : List String) (n : String)
    (post : List String) (hsplit : alt_methods = pre ++ n :: post)
    (hprim : ∀ t : Toggle, t.probe_ok fw hist (bound_device dmi adev) adev = false)
    (hfail : all_fail fw (hist ++ primary_calls (bound_device dmi adev) adev) adev pre)
    (hok : reply_ok (fw (hist ++ primary_calls (bound_device dmi adev) adev ++ alt_calls adev pre)
      (get_call adev n)) = true) :
    (universal_armoury_add dmi fw hist adev true sysfs_ret).driver_data
      = some (bind_alt_method n (bound_device dmi adev)) ∧
    (n ∈ mux_alt_names ∨ n ∈ gpu_alt_names) ∧
    (n ∈ mux_alt_names →
      bind_alt_method n (bound_device dmi adev)
        = { bound_device dmi adev with
            gpu_mux_supported := true, get_gpu_mux_method := some n }) ∧
    (n ∈ gpu_alt_names →
      bind_alt_method n (bound_device dmi adev)
        = { bound_device dmi adev with
            dgpu_disable_supported := true, get_dgpu_disable_method := some n }) ∧
    set_methods (bindings (bind_alt_method n (bound_device dmi adev)))
      = set_methods (dialect_bindings (bound_device dmi adev).vendor) ∧
    (∀ t : Toggle, t.state (bind_alt_method n (bound_device dmi adev)) = 0) ∧
    (∀ t : Toggle, t.supported (bound_device dmi adev) = false) ∧
    (∀ t : Toggle, t.supported (bind_alt_method n (bound_device dmi adev)) = true →
      t.get_method (bind_alt_method n (bound_device dmi adev)) = some n ∧
      t.set_method (bind_alt_method n (bound_device dmi adev))
        = t.set_method (bound_device dmi adev)) ∧
    (∀ t : Toggle, t.supported (bind_alt_method n (bound_device dmi adev)) = false →
      t.get_method (bind_alt_method n (bound_device dmi adev))
        = t.get_method (bound_device dmi adev) ∧
      t.set_method (bind_alt_method n (bound_device dmi adev))
        = t.set_method (bound_device dmi adev)) := by
  obtain ⟨hdev, hflags, hstates, hbind⟩ := bound_device_fresh dmi adev
  have hn : n ∈ alt_methods := by rw [hsplit]; simp
  have hmux : n ∈ mux_alt_names →
      bind_alt_method n (bound_device dmi adev)
        = { bound_device dmi adev with
            gpu_mux_supported := true, get_gpu_mux_method := some n } := by
    intro hin
    rcases alt_methods_classified n hn with ⟨_, h1, _⟩ | ⟨hin2, _, _⟩
    · exact bind_alt_method_mux n _ h1
    · exfalso
      revert hin hin2
      simp only [mux_alt_names, gpu_alt_names, List.mem_cons, List.mem_singleton,
        List.mem_nil_iff, or_false]
      rintro (h | h | h) <;> subst h <;> decide
  have hgpu : n ∈ gpu_alt_names →
      bind_alt_method n (bound_device dmi adev)
        = { bound_device dmi adev with
            dgpu_disable_supported := true, get_dgpu_disable_method := some n } := by
    intro hin
    rcases alt_methods_classified n hn with ⟨hin2, _, _⟩ | ⟨_, h1, h2⟩
    · exfalso
      revert hin hin2
      simp only [mux_alt_names, gpu_alt_names, List.mem_cons, List.mem_singleton,
        List.mem_nil_iff, or_false]
      rintro (h | h | h) <;> subst h <;> decide
    · exact bind_alt_method_gpu n _ h1 h2
  have hcls : n ∈ mux_alt_names ∨ n ∈ gpu_alt_names := by
    rcases alt_methods_classified n hn with h | h
    · exact Or.inl h.1
    · exact Or.inr h.1
  have h1 : (bound_device dmi adev).gpu_mux_supported = false := hflags Toggle.gpu_mux
  have h2 : (bound_device dmi adev).dgpu_disable_supported = false := hflags Toggle.dgpu_disable
  have h3 : (bound_device dmi adev).egpu_supported = false := hflags Toggle.egpu_enable
  refine ⟨?_, hcls, hmux, hgpu, ?_, ?_, hflags, ?_, ?_⟩
  · rw [add_driver_data_bound,
      probe_features_fallback fw hist (bound_device dmi adev) adev hdev hflags hprim, hsplit,
      probe_alt_methods_first_ok fw adev pre n post (bound_device dmi adev) _ hdev hfail hok]
  · rw [← hbind]
    rcases hcls with h | h
    · rw [hmux h]; rfl
    · rw [hgpu h]; rfl
  · intro t
    have := hstates t
    rcases hcls with h | h
    · rw [hmux h]; cases t <;> exact this
    · rw [hgpu h]; cases t <;> exact this
  · intro t
    rcases hcls with h | h
    · rw [hmux h]
      cases t
      · intro _; exact ⟨rfl, rfl⟩
      · intro hs; exact absurd (hs.symm.trans h2) (by decide)
      · intro hs; exact absurd (hs.symm.trans h3) (by decide)
    · rw [hgpu h]
      cases t
      · intro hs; exact absurd (hs.symm.trans h1) (by decide)
      · intro _; exact ⟨rfl, rfl⟩
      · intro hs; exact absurd (hs.symm.trans h3) (by decide)
  · intro t
    rcases hcls with h | h
    · rw [hmux h]
      cases t
      · intro hs; exact absurd hs (by simp [Toggle.supported])
      · intro _; exact ⟨rfl, rfl⟩
      · intro _; exact ⟨rfl, rfl⟩
    · rw [hgpu h]
      cases t
      · intro _; exact ⟨rfl, rfl⟩
      · intro hs; exact absurd hs (by simp [Toggle.supported])
      · intro _; exact ⟨rfl, rfl⟩

/-- A Dell machine whose firmware answers only "DGPU", with the value 1: the
fallback binds "DGPU" as the dgpu_disable get-method, the set-method stays the
Dell name "SDDS", and the cached value stays 0 although the call returned 1. -/
theorem fallback_binding_frame_witness :
    (∀ t : Toggle,
      t.probe_ok dgpu_only_firmware [] (bound_device dell_dmi { handle := 7 }) { handle := 7 }
        = false) ∧
    reply_value (dgpu_only_firmware [] (get_call { handle := 7 } "DGPU")) = 1 ∧
    (universal_armoury_add dell_dmi dgpu_only_firmware [] { handle := 7 } true 0).driver_data
      = some (bind_alt_method "DGPU" (bound_device dell_dmi { handle := 7 })) ∧
    (bind_alt_method "DGPU" (bound_device dell_dmi { handle := 7 })).dgpu_disable_supported
      = true ∧
    (bind_alt_method "DGPU" (bound_device dell_dmi { handle := 7 })).get_dgpu_disable_method
      = some "DGPU" ∧
    (bind_alt_method "DGPU" (bound_device dell_dmi { handle := 7 })).set_dgpu_disable_method
      = some "SDDS" ∧
    (bind_alt_method "DGPU" (bound_device dell_dmi { handle := 7 })).dgpu_disable_state = 0 ∧
    (bind_alt_method "DGPU" (bound_device dell_dmi { handle := 7 })).gpu_mux_supported
      = false ∧
    (bind_alt_method "DGPU" (bound_device dell_dmi { handle := 7 })).get_gpu_mux_method
      = some "GFXS" := by
  have hprim : ∀ t : Toggle,
      t.probe_ok dgpu_only_firmware [] (bound_device dell_dmi { handle := 7 }) { handle := 7 }
        = false := by
    intro t; cases t <;> decide
  have hfail : all_fail dgpu_only_firmware
      ([] ++ primary_calls (bound_device dell_dmi { handle := 7 }) { handle := 7 })
      { handle := 7 } ["GMUX", "_GPU"] := by
    apply all_fail_of_names
    intro k name hn
    have hc : name = "GMUX" ∨ name = "_GPU" := by simpa using hn
    rcases hc with h | h <;> subst h <;> rfl
  have h := fallback_binding_frame dell_dmi dgpu_only_firmware [] { handle := 7 } 0
    ["GMUX", "_GPU"] "DGPU" ["SGPU", "MXDS", "MXDM"] rfl hprim hfail rfl
  have hs := h.2.2.2.2.2.2.2.1 Toggle.dgpu_disable (by decide)
  exact ⟨hprim, by decide, h.1, by decide, hs.1, by decide, h.2.2.2.2.2.1 Toggle.dgpu_disable,
    by decide, by decide⟩

/-! ## No eGPU toggle outside the ASUS dialect -/

theorem set_vendor_acpi_methods_egpu (dev : universal_armoury) (hv : dev.vendor ≠ VENDOR_ASUS) :
    (set_vendor_acpi_methods dev).get_egpu_enable_method = none ∧
    (set_vendor_acpi_methods dev).set_egpu_enable_method = none := by
  unfold set_vendor_acpi_methods
  split <;> simp_all

/-- Probing a device without an eGPU get-method never marks egpu_enable
supported and never binds an eGPU get-method. -/
theorem probe_features_egpu_absent (fw : Firmware) (hist : List AcpiCall)
    (a : universal_armoury) (dev : acpi_device) (hdev : a.acpi_dev = some dev)
    (hget : a.get_egpu_enable_method = none) (hflag : a.egpu_supported = false) :
    (universal_armoury_probe_features fw hist a).1.egpu_supported = false ∧
    (universal_armoury_probe_features fw hist a).1.get_egpu_enable_method = none := by
  have hp1 : (probe_primary fw (a, hist)).1.egpu_supported = false := by
    rw [probe_primary_eq fw a hist dev hdev]
    simp [Toggle.probe_ok, Toggle.get_method, binding_ok, hget, hflag]
  have hp2 : (probe_primary fw (a, hist)).1.get_egpu_enable_method = none :=
    (probe_primary_get_methods fw (a, hist)).2.2.trans hget
  unfold universal_armoury_probe_features
  dsimp only
  split_ifs
  · rcases probe_alt_methods_cases fw alt_methods (probe_primary fw (a, hist)) with h | ⟨m, h⟩
    · rw [h]; exact ⟨hp1, hp2⟩
    · rw [h]
      rcases bind_alt_method_cases m (probe_primary fw (a, hist)).1 with hb | hb | hb <;>
        rw [hb] <;> exact ⟨hp1, hp2⟩
  · exact ⟨hp1, hp2⟩

/-- A device attached under a dialect other than ASUS has no eGPU binding and
egpu_enable is not supported. -/
theorem add_egpu_absent (dmi : Dmi) (fw : Firmware) (hist : List AcpiCall)
    (adev : acpi_device) (sysfs_ret : Int) (a : universal_armoury)
    (ha : (universal_armoury_add dmi fw hist adev true sysfs_ret).driver_data = some a)
    (hv : a.vendor ≠ VENDOR_ASUS) :
    a.get_egpu_enable_method = none ∧ a.set_egpu_enable_method = none ∧
    a.egpu_supported = false := by
  rw [add_driver_data_bound] at ha
  injection ha with ha
  subst ha
  obtain ⟨hdev, hflags, _, _⟩ := bound_device_fresh dmi adev
  obtain ⟨_, i2, _, _, _, _, i7⟩ := probe_features_identity fw hist (bound_device dmi adev)
  have hn := set_vendor_acpi_methods_names
    { (detect_laptop_vendor dmi { kzalloc_armoury with acpi_dev := some adev }).2 with
      vendor := (detect_laptop_vendor dmi { kzalloc_armoury with acpi_dev := some adev }).1 }
  have hv2 : ({ (detect_laptop_vendor dmi { kzalloc_armoury with acpi_dev := some adev }).2 with
      vendor := (detect_laptop_vendor dmi { kzalloc_armoury with acpi_dev := some adev }).1 }
        : universal_armoury).vendor ≠ VENDOR_ASUS := by
    intro hc
    apply hv
    rw [i2]
    exact hn.1.trans hc
  have he := set_vendor_acpi_methods_egpu _ hv2
  have hp := probe_features_egpu_absent fw hist (bound_device dmi adev) adev hdev he.1
    (hflags Toggle.egpu_enable)
  exact ⟨hp.2, i7.trans he.2, hp.1⟩

theorem supported_features_text (b1 b2 : Bool) :
    scnprintf PAGE_SIZE
      ("gpu_mux:" ++ bool_d b1 ++ " dgpu_disable:" ++ bool_d b2 ++ " egpu_enable:" ++
        bool_d false ++ "\n")
      = "gpu_mux:" ++ bool_d b1 ++ " dgpu_disable:" ++ bool_d b2 ++ " egpu_enable:0\n" ∧
    ("gpu_mux:" ++ bool_d b1 ++ " dgpu_disable:" ++ bool_d b2 ++ " egpu_enable:0\n").length
      = 39 := by
  cases b1 <;> cases b2 <;> decide

/-- C24: in every state reachable by attach followed by reads and writes, under
every dialect other than ASUS and whatever the firmware answered, egpu_enable
has neither a get-method nor a set-method and is not supported; every read and
every write of egpu_enable returns `-ENODEV` without a firmware call and
without changing the device; `supported_features` ends in "egpu_enable:0".
The binding set of every dialect other than ASUS has no eGPU pair. -/
theorem egpu_absent_off_asus (a : universal_armoury) (hist : List AcpiCall)
    (hr : Reachable a hist) (hv : a.vendor ≠ VENDOR_ASUS) :
    (∀ d : laptop_vendor, d ≠ VENDOR_ASUS →
      ∃ mux dgpu, dialect_bindings d = [mux, dgpu, (none, none)]) ∧
    a.get_egpu_enable_method = none ∧ a.set_egpu_enable_method = none ∧
    a.egpu_supported = false ∧
    (∀ (fw : Firmware) (h : List AcpiCall) (buf : Option String) (count : Nat),
      egpu_enable_show fw h (some a)
        = { ret := -ENODEV, page := "", armoury := some a, hist := h } ∧
      egpu_enable_store fw h (some a) buf count
        = { ret := -ENODEV, page := "", armoury := some a, hist := h }) ∧
    supported_features_show (some a)
      = (39, "gpu_mux:" ++ bool_d a.gpu_mux_supported ++ " dgpu_disable:" ++
          bool_d a.dgpu_disable_supported ++ " egpu_enable:0\n") := by
  obtain ⟨dmi, fw0, hist0, adev, a0, ha0, hcfg⟩ := reachable_origin a hist hr
  obtain ⟨_, c2, _, _, _, _, c7, _, _, _, _, c12, c13⟩ := hcfg
  have hv0 : a0.vendor ≠ VENDOR_ASUS := by rw [← c2]; exact hv
  obtain ⟨e1, e2, e3⟩ := add_egpu_absent dmi fw0 hist0 adev 0 a0 ha0 hv0
  have hflag : a.egpu_supported = false := c7.trans e3
  refine ⟨?_, c12.trans e1, c13.trans e2, hflag, ?_, ?_⟩
  · intro d hd
    cases d
    · exact ⟨_, _, rfl⟩
    · exact absurd rfl hd
    all_goals exact ⟨_, _, rfl⟩
  · intro fw h buf count
    constructor
    · simp only [egpu_enable_show, hflag, true_or, if_true]
    · simp only [egpu_enable_store, hflag, true_or, if_true]
  · obtain ⟨t1, t2⟩ := supported_features_text a.gpu_mux_supported a.dgpu_disable_supported
    simp only [supported_features_show, hflag]
    rw [t1, t2]
    rfl

theorem msi_attached_reachable : Reachable msi_attached msi_calls :=
  ⟨msi_dmi, const_firmware 1, [], { handle := 7 },
    [Access.write Toggle.egpu_enable (some "1") 1, Access.read Toggle.gpu_mux], by decide⟩

/-- An MSI machine whose firmware answers every call: gpu_mux and dgpu_disable
are supported, a write of "1" to egpu_enable fails with `-ENODEV` and issues no
call, and the summary reports egpu_enable:0. -/
theorem egpu_absent_off_asus_witness :
    Reachable msi_attached msi_calls ∧ msi_attached.vendor ≠ VENDOR_ASUS ∧
    msi_attached.gpu_mux_supported = true ∧ msi_attached.egpu_supported = false ∧
    egpu_enable_store (const_firmware 1) msi_calls (some msi_attached) (some "1") 1
      = { ret := -ENODEV, page := "", armoury := some msi_attached, hist := msi_calls } ∧
    supported_features_show (some msi_attached)
      = (39, "gpu_mux:1 dgpu_disable:1 egpu_enable:0\n") := by
  have hv : msi_attached.vendor ≠ VENDOR_ASUS := by decide
  have h := egpu_absent_off_asus msi_attached msi_calls msi_attached_reachable hv
  exact ⟨msi_attached_reachable, hv, rfl, h.2.2.2.1,
    (h.2.2.2.2.1 (const_firmware 1) msi_calls (some "1") 1).2, h.2.2.2.2.2⟩

end AsusArmoury
